import Mathlib

/-!
# LocoNet protocol engine: checksum, receive framer, observer registry, CV store, bus arbitration

A shallow embedding of the protocol engine of `arm-loconet-starter`
(`src/loconet/loconet.c`, `src/loconet/loconet_rx.c`, `src/loconet/loconet_cv.c`).

Conventions of the embedding:

* a `uint8_t` / `uint16_t` is a `Nat`; where C stores a wider intermediate
  result into a `uint8_t` the model reduces it `% 256` explicitly;
* a pointer with a length (`uint8_t *data, uint8_t length`) is a `List Nat`
  together with the length argument;
* global variables are fields of an explicit state that each function
  receives and returns;
* calls of external procedures (observer notification, hooks) are recorded
  in the result of the function that makes them.
-/

namespace Loconet

/-! ## `loconet.c`: checksum -/

/-- The body of the `while (length--)` loop of `loconet_calc_checksum`:
`checksum ^= *data++`, run `length` times. -/
def loconet_calc_checksum_loop (checksum : Nat) : List Nat → Nat → Nat
  | _, 0 => checksum
  | [], _ + 1 => checksum
  | b :: data, length + 1 => loconet_calc_checksum_loop (checksum ^^^ b) data length

/-- `uint8_t loconet_calc_checksum(uint8_t *data, uint8_t length)`:
starts from `0xFF` and XORs `length` bytes into it. -/
def loconet_calc_checksum (data : List Nat) (length : Nat) : Nat :=
  loconet_calc_checksum_loop 0xFF data (length % 256)

/-- The plain XOR of all bytes of a sequence (seed `0`). -/
def xor_all (data : List Nat) : Nat :=
  data.foldl (fun acc b => acc ^^^ b) 0

/-- Flip bit `bit` of the byte at position `pos` of a frame. -/
def flip_bit (f : List Nat) (pos bit : Nat) : List Nat :=
  f.set pos (f.getD pos 0 ^^^ 2 ^ bit)

/-! ## `loconet_rx.c`: ring buffer and framer -/

/-- `#define LOCONET_RX_RINGBUFFER_Size 64` -/
def LOCONET_RX_RINGBUFFER_Size : Nat := 64

/-- `#define LOCONET_OPCODE_FLAG (0x01ul << 7)` -/
def LOCONET_OPCODE_FLAG : Nat := 0x80

/-- `LOCONET_RX_RINGBUFFER_Type`: the byte array with its writer and reader
cursors. The array is a function of the index; only indices below
`LOCONET_RX_RINGBUFFER_Size` are ever read. -/
structure LOCONET_RX_RINGBUFFER_Type where
  buffer : Nat → Nat
  writer : Nat
  reader : Nat

/-- `opcode.bits.OPCODE`: the top three bits of the opcode byte. -/
def opcode_bits_OPCODE (byte : Nat) : Nat := byte / 32 % 8

/-- `opcode.bits.NUMBER`: the low five bits of the opcode byte. -/
def opcode_bits_NUMBER (byte : Nat) : Nat := byte % 32

/-- One call `loconet_rx_notify(opcode, arr, size)` made by the framer:
`data` is the local array `data[message_size]` the frame was copied to,
`arr` is `&data[offset]`, and `size` is the `uint8_t` length argument. -/
structure LOCONET_RX_NOTIFY_Call where
  opcode : Nat
  data : List Nat
  offset : Nat
  size : Nat
  deriving DecidableEq

/-- The bytes an observer reads through `arr[0] .. arr[size - 1]`, as far as
they lie inside `data`. -/
def LOCONET_RX_NOTIFY_Call.payload (c : LOCONET_RX_NOTIFY_Call) : List Nat :=
  (c.data.drop c.offset).take c.size

/-- The observer's reads `arr[0] .. arr[size - 1]` stay inside `data`. -/
def LOCONET_RX_NOTIFY_Call.in_bounds (c : LOCONET_RX_NOTIFY_Call) : Prop :=
  c.offset + c.size ≤ c.data.length

instance (c : LOCONET_RX_NOTIFY_Call) : Decidable c.in_bounds := by
  unfold LOCONET_RX_NOTIFY_Call.in_bounds
  infer_instance

/-- What one call of `loconet_rx_process` does: its return value, the ring
buffer afterwards, and the call of `loconet_rx_notify` it made, if any. -/
structure LOCONET_RX_PROCESS_Result where
  ret : Nat
  ringbuffer : LOCONET_RX_RINGBUFFER_Type
  notify : Option LOCONET_RX_NOTIFY_Call

/-- The `switch (opcode.bits.OPCODE)` of `loconet_rx_process`; `second` is
`buffer[(reader + 1) % LOCONET_RX_RINGBUFFER_Size]`. -/
def loconet_rx_message_size (opcode second : Nat) : Nat :=
  match opcode_bits_OPCODE opcode with
  | 4 => 2
  | 5 => 4
  | 6 => 6
  | 7 => second
  | _ => 0

/-- The loop `for (index = reader + 1; index < index_of_writer_or_eom; index++)`
of `loconet_rx_process`, as `count = index_of_writer_or_eom - index` iterations
from `index`: the first index whose byte has `LOCONET_OPCODE_FLAG` set. -/
def loconet_rx_scan (buffer : Nat → Nat) : Nat → Nat → Option Nat
  | _, 0 => none
  | index, count + 1 =>
    if buffer (index % LOCONET_RX_RINGBUFFER_Size) &&& LOCONET_OPCODE_FLAG ≠ 0 then some index
    else loconet_rx_scan buffer (index + 1) count

/-- The loop `for (index = reader; index < eom_index; index++)` of
`loconet_rx_process`, as `count = eom_index - index` iterations from `index`:
the bytes copied to `data`. -/
def loconet_rx_copy (buffer : Nat → Nat) : Nat → Nat → List Nat
  | _, 0 => []
  | index, count + 1 =>
    buffer (index % LOCONET_RX_RINGBUFFER_Size) :: loconet_rx_copy buffer (index + 1) count

/-- The fictive writer index of `loconet_rx_process`:
`if (reader > writer) writer += LOCONET_RX_RINGBUFFER_Size;` on a `uint8_t`. -/
def loconet_rx_fictive_writer (rb : LOCONET_RX_RINGBUFFER_Type) : Nat :=
  if rb.reader > rb.writer then (rb.writer + LOCONET_RX_RINGBUFFER_Size) % 256 else rb.writer

/-- `uint8_t loconet_rx_process(void)` on the global `loconet_rx_ringbuffer`. -/
def loconet_rx_process (rb : LOCONET_RX_RINGBUFFER_Type) : LOCONET_RX_PROCESS_Result :=
  let buffer := rb.buffer
  let reader := rb.reader
  let opcode := buffer reader
  let writer := loconet_rx_fictive_writer rb
  if writer ≤ reader + 1 then
    ⟨0, rb, none⟩
  else if opcode &&& LOCONET_OPCODE_FLAG = 0 then
    ⟨0, { rb with reader := (reader + 1) % LOCONET_RX_RINGBUFFER_Size }, none⟩
  else
    let message_size :=
      loconet_rx_message_size opcode (buffer ((reader + 1) % LOCONET_RX_RINGBUFFER_Size))
    let index_of_writer_or_eom :=
      (if writer < reader + message_size then writer else reader + message_size) % 256
    match loconet_rx_scan buffer ((reader + 1) % 256) (index_of_writer_or_eom - (reader + 1) % 256) with
    | some index =>
      ⟨1, { rb with reader := index % LOCONET_RX_RINGBUFFER_Size }, none⟩
    | none =>
      if writer < reader + message_size then
        ⟨0, rb, none⟩
      else
        let eom_index := (reader + message_size) % 256
        let data := loconet_rx_copy buffer reader (eom_index - reader)
        if loconet_calc_checksum data message_size ≠ 0 then
          ⟨0, { rb with reader := (reader + message_size) % LOCONET_RX_RINGBUFFER_Size }, none⟩
        else
          let call : LOCONET_RX_NOTIFY_Call :=
            if opcode_bits_OPCODE opcode = 7 then
              ⟨opcode_bits_NUMBER opcode, data, 2, (message_size + 256 - 3) % 256⟩
            else
              ⟨opcode_bits_NUMBER opcode, data, 1, (message_size + 256 - 2) % 256⟩
          ⟨1, { rb with reader := (reader + message_size) % LOCONET_RX_RINGBUFFER_Size },
            some call⟩

/-- The loop `while (loconet_rx_process());` of `loconet_loop` (and of `main`)
while no byte is pushed: the ring buffer when the loop stops and the calls of
`loconet_rx_notify` made on the way, or `none` when `fuel` calls did not reach
a call returning `0`. -/
def loconet_loop_rx : Nat → LOCONET_RX_RINGBUFFER_Type →
    Option (LOCONET_RX_RINGBUFFER_Type × List LOCONET_RX_NOTIFY_Call)
  | 0, _ => none
  | fuel + 1, rb =>
    let r := loconet_rx_process rb
    if r.ret ≠ 0 then
      match loconet_loop_rx fuel r.ringbuffer with
      | some (rb', calls) => some (rb', r.notify.toList ++ calls)
      | none => none
    else
      some (r.ringbuffer, r.notify.toList)

/-- A ring buffer whose cells, counted from index `0`, hold `bytes` (cells
beyond `bytes` hold `0`). -/
def ringbuffer_of (bytes : List Nat) (writer reader : Nat) : LOCONET_RX_RINGBUFFER_Type :=
  ⟨fun i => bytes.getD i 0, writer, reader⟩

/-- The cursor invariant of the ring buffer: both cursors are array indices. -/
def ringbuffer_wf (rb : LOCONET_RX_RINGBUFFER_Type) : Prop :=
  rb.reader < LOCONET_RX_RINGBUFFER_Size ∧ rb.writer < LOCONET_RX_RINGBUFFER_Size

instance (rb : LOCONET_RX_RINGBUFFER_Type) : Decidable (ringbuffer_wf rb) := by
  unfold ringbuffer_wf
  infer_instance

/-- The number of bytes pushed and not yet consumed. -/
def loconet_rx_available (rb : LOCONET_RX_RINGBUFFER_Type) : Nat :=
  (rb.writer + LOCONET_RX_RINGBUFFER_Size - rb.reader) % LOCONET_RX_RINGBUFFER_Size

/-- A byte has its top bit set. -/
def has_opcode_flag (b : Nat) : Prop := b &&& LOCONET_OPCODE_FLAG ≠ 0

instance (b : Nat) : Decidable (has_opcode_flag b) := by
  unfold has_opcode_flag
  infer_instance

/-- The unread bytes of the ring buffer start with the byte sequence `bytes`:
cell `reader + i` (modulo the buffer size) holds `bytes[i]`, and at least
`|bytes|` bytes are available. -/
def ringbuffer_holds (rb : LOCONET_RX_RINGBUFFER_Type) (bytes : List Nat) : Prop :=
  bytes.length ≤ loconet_rx_available rb ∧
  ∀ i, i < bytes.length →
    rb.buffer ((rb.reader + i) % LOCONET_RX_RINGBUFFER_Size) = bytes.getD i 0

/-- The ring buffer with its reader moved forward by `n` cells. -/
def ringbuffer_advance (rb : LOCONET_RX_RINGBUFFER_Type) (n : Nat) : LOCONET_RX_RINGBUFFER_Type :=
  { rb with reader := (rb.reader + n) % LOCONET_RX_RINGBUFFER_Size }

/-- A complete valid frame, in the words of the wire format: a sequence of
bytes whose first byte (the opcode) has its top bit set, whose length is the
one its opcode class gives (class 4: 2 bytes, 5: 4 bytes, 6: 6 bytes, 7: the
value of the second byte), whose other bytes have their top bit clear and
whose checksum verifies. -/
def valid_frame (f : List Nat) : Prop :=
  (∀ b ∈ f, b < 256) ∧
  has_opcode_flag (f.getD 0 0) ∧
  f.length = loconet_rx_message_size (f.getD 0 0) (f.getD 1 0) ∧
  (∀ i, i < f.length → 1 ≤ i → ¬ has_opcode_flag (f.getD i 0)) ∧
  loconet_calc_checksum f f.length = 0

instance (f : List Nat) : Decidable (valid_frame f) := by
  unfold valid_frame
  infer_instance

instance (rb : LOCONET_RX_RINGBUFFER_Type) (bytes : List Nat) :
    Decidable (ringbuffer_holds rb bytes) := by
  unfold ringbuffer_holds
  infer_instance

/-- The dispatch key of a frame: the low five bits of its opcode. -/
def frame_key (f : List Nat) : Nat := f.getD 0 0 % 32

/-- The bytes of a frame before its payload: the opcode byte, and the length
byte for the variable-length class. -/
def frame_header_size (f : List Nat) : Nat :=
  if opcode_bits_OPCODE (f.getD 0 0) = 7 then 2 else 1

/-- The payload of a frame: the bytes after the header and before the
checksum byte, which is the last byte of the frame. -/
def frame_payload (f : List Nat) : List Nat :=
  (f.drop (frame_header_size f)).dropLast

/-- A variable-length frame has room for its three framing bytes (opcode, length
byte and checksum). -/
def frame_has_room (f : List Nat) : Prop :=
  opcode_bits_OPCODE (f.getD 0 0) = 7 → 3 ≤ f.length

instance (f : List Nat) : Decidable (frame_has_room f) := by
  unfold frame_has_room
  infer_instance

/-- The call `c` of `loconet_rx_notify` hands the observers exactly the key
and the payload of the frame `f`. -/
def delivers (c : LOCONET_RX_NOTIFY_Call) (f : List Nat) : Prop :=
  c.opcode = frame_key f ∧ c.size = (frame_payload f).length ∧ c.payload = frame_payload f

instance (c : LOCONET_RX_NOTIFY_Call) (f : List Nat) : Decidable (delivers c f) := by
  unfold delivers
  infer_instance

/-- The call of `loconet_rx_notify` the framer makes for the frame copied to
`data`, whose first byte is `opcode` and whose size is `message_size`. -/
def loconet_rx_notify_call (opcode : Nat) (data : List Nat) (message_size : Nat) :
    LOCONET_RX_NOTIFY_Call :=
  if opcode_bits_OPCODE opcode = 7 then
    ⟨opcode_bits_NUMBER opcode, data, 2, (message_size + 256 - 3) % 256⟩
  else
    ⟨opcode_bits_NUMBER opcode, data, 1, (message_size + 256 - 2) % 256⟩

/-! ## `loconet_rx.c`: ring buffer push -/

/-- `void loconet_rx_buffer_push(uint8_t byte)` while the reader stays where it
is: `none` when the loop `while (index == loconet_rx_ringbuffer.reader)` keeps
spinning (nothing is stored), otherwise the ring buffer after the byte has
been stored. -/
def loconet_rx_buffer_push (rb : LOCONET_RX_RINGBUFFER_Type) (byte : Nat) :
    Option LOCONET_RX_RINGBUFFER_Type :=
  let index := (rb.writer + 1) % LOCONET_RX_RINGBUFFER_Size
  if index = rb.reader then
    none
  else
    some { rb with buffer := Function.update rb.buffer rb.writer byte, writer := index }

/-- The bytes pushed and not yet consumed, in the order the framer reads
them: the cells from the reader up to the writer. -/
def ringbuffer_contents (rb : LOCONET_RX_RINGBUFFER_Type) : List Nat :=
  loconet_rx_copy rb.buffer rb.reader (loconet_rx_available rb)

/-- Pushing a sequence of bytes one after the other; `none` when one of the
pushes blocks. -/
def loconet_rx_buffer_push_all (rb : LOCONET_RX_RINGBUFFER_Type) :
    List Nat → Option LOCONET_RX_RINGBUFFER_Type
  | [] => some rb
  | b :: bytes =>
    match loconet_rx_buffer_push rb b with
    | some rb' => loconet_rx_buffer_push_all rb' bytes
    | none => none

/-! ## `loconet_rx.c`: observer registry -/

/-- `LOCONET_RX_OBSERVERITEM_Type`: an item of the linked list of observers.
`callback` is the function pointer, `next` the pointer to the next item;
the null pointer is `0`. -/
structure LOCONET_RX_OBSERVERITEM_Type where
  opcode : Nat
  callback : Nat
  next : Nat
  deriving DecidableEq

/-- The globals of the observer registry, `loconet_rx_observer_list_first`,
`loconet_rx_observer_list_last` and `loconet_rx_observer_listsize`, and the
heap the items live in: `memory p` is the item allocated at address `p`, or
`none` when no item is allocated there. -/
structure LOCONET_RX_OBSERVER_Type where
  memory : Nat → Option LOCONET_RX_OBSERVERITEM_Type
  list_first : Nat
  list_last : Nat
  listsize : Nat

/-- How a registry function ends: it returns (`done`), it reads or writes
through the null pointer or through a pointer to memory that holds no item
(`fault`), or the `fuel` of its loop ran out. -/
inductive LOCONET_RX_OBSERVER_Outcome (α : Type) where
  | done (result : α)
  | fault
  | out_of_fuel
  deriving DecidableEq

/-- The registry at start-up: no item allocated, both list pointers null. -/
def loconet_rx_observer_init : LOCONET_RX_OBSERVER_Type :=
  ⟨fun _ => none, 0, 0, 0⟩

/-- `void loconet_rx_register_callback(uint8_t opcode, void (*callback)(uint8_t*, uint8_t))`;
`item` is the address `malloc` returns. -/
def loconet_rx_register_callback (s : LOCONET_RX_OBSERVER_Type) (item opcode callback : Nat) :
    LOCONET_RX_OBSERVER_Outcome LOCONET_RX_OBSERVER_Type :=
  if item = 0 then
    .fault
  else
    let memory := Function.update s.memory item (some ⟨opcode, callback, 0⟩)
    if s.listsize = 0 then
      .done ⟨memory, item, item, (s.listsize + 1) % 256⟩
    else
      match memory s.list_last with
      | none => .fault
      | some last =>
        .done ⟨Function.update memory s.list_last (some { last with next := item }),
          s.list_first, item, (s.listsize + 1) % 256⟩

/-- The loop `while(cur)` of `loconet_rx_unregister_callback`, from the values
`cur` and `prev` on. -/
def loconet_rx_unregister_loop (opcode callback : Nat) :
    Nat → LOCONET_RX_OBSERVER_Type → Nat → Nat →
    LOCONET_RX_OBSERVER_Outcome LOCONET_RX_OBSERVER_Type
  | 0, _, _, _ => .out_of_fuel
  | fuel + 1, s, cur, prev =>
    if cur = 0 then
      .done s
    else
      match s.memory cur with
      | none => .fault
      | some item =>
        if item.opcode = opcode ∧ item.callback = callback then
          -- prev->next = cur->next, or first = cur->next
          let unlinked : Option LOCONET_RX_OBSERVER_Type :=
            if prev ≠ 0 then
              match s.memory prev with
              | none => none
              | some p =>
                let memory := Function.update s.memory prev (some { p with next := item.next })
                some { s with memory := memory }
            else
              some { s with list_first := item.next }
          match unlinked with
          | none => .fault
          | some s1 =>
            -- free(del); cur = prev; listsize--
            let s2 : LOCONET_RX_OBSERVER_Type :=
              { s1 with
                memory := Function.update s1.memory cur none
                listsize := (s1.listsize + 255) % 256 }
            -- prev = cur; cur = cur->next
            if prev = 0 then
              .fault
            else
              match s2.memory prev with
              | none => .fault
              | some p => loconet_rx_unregister_loop opcode callback fuel s2 p.next prev
        else
          -- prev = cur; cur = cur->next
          loconet_rx_unregister_loop opcode callback fuel s item.next cur

/-- `void loconet_rx_unregister_callback(uint8_t opcode, void (*callback)(uint8_t*, uint8_t))`. -/
def loconet_rx_unregister_callback (fuel : Nat) (s : LOCONET_RX_OBSERVER_Type)
    (opcode callback : Nat) : LOCONET_RX_OBSERVER_Outcome LOCONET_RX_OBSERVER_Type :=
  loconet_rx_unregister_loop opcode callback fuel s s.list_first 0

/-- One call `cur->callback(arr, size)` made by `loconet_rx_notify`: the
function pointer and the two arguments. -/
structure LOCONET_RX_CALLBACK_Call where
  callback : Nat
  arr : List Nat
  size : Nat
  deriving DecidableEq

/-- The loop `while(cur)` of `loconet_rx_notify`, from the value `cur` on: the
callbacks called, in order. -/
def loconet_rx_notify_loop (memory : Nat → Option LOCONET_RX_OBSERVERITEM_Type)
    (opcode : Nat) (arr : List Nat) (size : Nat) :
    Nat → Nat → LOCONET_RX_OBSERVER_Outcome (List LOCONET_RX_CALLBACK_Call)
  | 0, _ => .out_of_fuel
  | fuel + 1, cur =>
    if cur = 0 then
      .done []
    else
      match memory cur with
      | none => .fault
      | some item =>
        match loconet_rx_notify_loop memory opcode arr size fuel item.next with
        | .done calls =>
          if item.opcode = opcode then .done (⟨item.callback, arr, size⟩ :: calls)
          else .done calls
        | .fault => .fault
        | .out_of_fuel => .out_of_fuel

/-- `void loconet_rx_notify(uint8_t opcode, uint8_t* arr, uint8_t size)`: the
callbacks it calls, in order. -/
def loconet_rx_notify (fuel : Nat) (s : LOCONET_RX_OBSERVER_Type) (opcode : Nat)
    (arr : List Nat) (size : Nat) : LOCONET_RX_OBSERVER_Outcome (List LOCONET_RX_CALLBACK_Call) :=
  if s.listsize = 0 then
    .done []
  else
    loconet_rx_notify_loop s.memory opcode arr size fuel s.list_first

/-- A registration: the address `malloc` returns for the item, the opcode and
the callback. -/
structure LOCONET_RX_REGISTRATION where
  item : Nat
  opcode : Nat
  callback : Nat
  deriving DecidableEq

/-- A sequence of calls of `loconet_rx_register_callback`, one after the
other. -/
def loconet_rx_register_all (s : LOCONET_RX_OBSERVER_Type) :
    List LOCONET_RX_REGISTRATION → LOCONET_RX_OBSERVER_Outcome LOCONET_RX_OBSERVER_Type
  | [] => .done s
  | r :: regs =>
    match loconet_rx_register_callback s r.item r.opcode r.callback with
    | .done s' => loconet_rx_register_all s' regs
    | .fault => .fault
    | .out_of_fuel => .out_of_fuel

/-- The calls `loconet_rx_notify(opcode, arr, size)` makes in the registry
that the registrations `regs` build from the start-up state. -/
def loconet_rx_notify_after (regs : List LOCONET_RX_REGISTRATION) (fuel opcode : Nat)
    (arr : List Nat) (size : Nat) : LOCONET_RX_OBSERVER_Outcome (List LOCONET_RX_CALLBACK_Call) :=
  match loconet_rx_register_all loconet_rx_observer_init regs with
  | .done s => loconet_rx_notify fuel s opcode arr size
  | .fault => .fault
  | .out_of_fuel => .out_of_fuel

/-- The calls a dispatch in registration order makes for the key `opcode`: one
per registration under that key, each with the arguments `arr` and `size`. -/
def dispatch_in_registration_order (regs : List LOCONET_RX_REGISTRATION) (opcode : Nat)
    (arr : List Nat) (size : Nat) : List LOCONET_RX_CALLBACK_Call :=
  (regs.filter (fun r => r.opcode = opcode)).map (fun r => ⟨r.callback, arr, size⟩)

/-- The items of the list that starts at address `p`, in order, are `items`
(address, opcode, callback); the list ends with the null pointer. -/
def observer_chain (memory : Nat → Option LOCONET_RX_OBSERVERITEM_Type) :
    Nat → List LOCONET_RX_REGISTRATION → Prop
  | p, [] => p = 0
  | p, r :: items =>
    p = r.item ∧ r.item ≠ 0 ∧
    ∃ next, memory r.item = some ⟨r.opcode, r.callback, next⟩ ∧ observer_chain memory next items

/-- The entries (opcode, callback) of the observer list, read from
`loconet_rx_observer_list_first` on. -/
def observer_entries (memory : Nat → Option LOCONET_RX_OBSERVERITEM_Type) :
    Nat → Nat → LOCONET_RX_OBSERVER_Outcome (List (Nat × Nat))
  | 0, _ => .out_of_fuel
  | fuel + 1, cur =>
    if cur = 0 then
      .done []
    else
      match memory cur with
      | none => .fault
      | some item =>
        match observer_entries memory fuel item.next with
        | .done entries => .done ((item.opcode, item.callback) :: entries)
        | .fault => .fault
        | .out_of_fuel => .out_of_fuel

/-- The entries of the observer list after the registrations `regs` from the
start-up state and then `loconet_rx_unregister_callback(opcode, callback)`. -/
def observer_entries_after_unregister (regs : List LOCONET_RX_REGISTRATION) (fuel opcode
    callback : Nat) : LOCONET_RX_OBSERVER_Outcome (List (Nat × Nat)) :=
  match loconet_rx_register_all loconet_rx_observer_init regs with
  | .done s =>
    match loconet_rx_unregister_callback fuel s opcode callback with
    | .done s' => observer_entries s'.memory fuel s'.list_first
    | .fault => .fault
    | .out_of_fuel => .out_of_fuel
  | .fault => .fault
  | .out_of_fuel => .out_of_fuel

/-- The outcome is a fault. -/
def LOCONET_RX_OBSERVER_Outcome.is_fault {α : Type} : LOCONET_RX_OBSERVER_Outcome α → Bool
  | .fault => true
  | _ => false

/-- The outcome is a normal return. -/
def LOCONET_RX_OBSERVER_Outcome.is_done {α : Type} : LOCONET_RX_OBSERVER_Outcome α → Bool
  | .done _ => true
  | _ => false

/-- The registrations `regs` from the start-up state and then
`loconet_rx_unregister_callback(opcode, callback)`. -/
def loconet_rx_unregister_after (regs : List LOCONET_RX_REGISTRATION) (fuel opcode
    callback : Nat) : LOCONET_RX_OBSERVER_Outcome LOCONET_RX_OBSERVER_Type :=
  match loconet_rx_register_all loconet_rx_observer_init regs with
  | .done s => loconet_rx_unregister_callback fuel s opcode callback
  | .fault => .fault
  | .out_of_fuel => .out_of_fuel

/-- The registry `s` holds exactly the registrations `regs`, in order: they
form the list from `loconet_rx_observer_list_first`, the last of them is
`loconet_rx_observer_list_last`, and `loconet_rx_observer_listsize` is their
number in 8 bits. -/
def observer_registry_holds (s : LOCONET_RX_OBSERVER_Type)
    (regs : List LOCONET_RX_REGISTRATION) : Prop :=
  observer_chain s.memory s.list_first regs ∧
  s.listsize = regs.length % 256 ∧
  (∀ l, regs.getLast? = some l → s.list_last = l.item)

/-- The addresses `malloc` returns for the registrations are non-null and
pairwise different (no item is freed in between). -/
def fresh_items (regs : List LOCONET_RX_REGISTRATION) : Prop :=
  (regs.map (fun r => r.item)).Nodup ∧ ∀ r ∈ regs, r.item ≠ 0

instance (regs : List LOCONET_RX_REGISTRATION) : Decidable (fresh_items regs) := by
  unfold fresh_items
  infer_instance

/-- The registrations `n` times `(item i + 1, opcode, callback)`. -/
def same_registrations (n opcode callback : Nat) : List LOCONET_RX_REGISTRATION :=
  (List.range n).map (fun i => ⟨i + 1, opcode, callback⟩)

/-- A call of one of the two registry functions:
`loconet_rx_register_callback(opcode, callback)`, with the address `malloc`
returns for the new item, or `loconet_rx_unregister_callback(opcode, callback)`. -/
inductive LOCONET_RX_OBSERVER_Op where
  | register (item opcode callback : Nat)
  | unregister (opcode callback : Nat)
  deriving DecidableEq

/-- One call of a registry function. -/
def loconet_rx_observer_step (fuel : Nat) (s : LOCONET_RX_OBSERVER_Type) :
    LOCONET_RX_OBSERVER_Op → LOCONET_RX_OBSERVER_Outcome LOCONET_RX_OBSERVER_Type
  | .register item opcode callback => loconet_rx_register_callback s item opcode callback
  | .unregister opcode callback => loconet_rx_unregister_callback fuel s opcode callback

/-- A sequence of calls of the registry functions, one after the other. -/
def loconet_rx_observer_run (fuel : Nat) (s : LOCONET_RX_OBSERVER_Type) :
    List LOCONET_RX_OBSERVER_Op → LOCONET_RX_OBSERVER_Outcome LOCONET_RX_OBSERVER_Type
  | [] => .done s
  | op :: ops =>
    match loconet_rx_observer_step fuel s op with
    | .done s' => loconet_rx_observer_run fuel s' ops
    | .fault => .fault
    | .out_of_fuel => .out_of_fuel

/-- The calls `loconet_rx_notify(opcode, arr, size)` makes after the registry
calls `ops` from the start-up state. -/
def loconet_rx_notify_after_ops (ops : List LOCONET_RX_OBSERVER_Op) (fuel opcode : Nat)
    (arr : List Nat) (size : Nat) : LOCONET_RX_OBSERVER_Outcome (List LOCONET_RX_CALLBACK_Call) :=
  match loconet_rx_observer_run fuel loconet_rx_observer_init ops with
  | .done s => loconet_rx_notify fuel s opcode arr size
  | .fault => .fault
  | .out_of_fuel => .out_of_fuel

/-! ## `loconet.h`: configuration register -/

/-- `LOCONET_CONFIG_Type`: the bit fields `ADDRESS:10`, `MASTER:1`, `PRIORITY:4`. -/
structure LOCONET_CONFIG_Type where
  ADDRESS : Nat
  MASTER : Nat
  PRIORITY : Nat
  deriving DecidableEq

/-! ## `loconet_cv.c`, `loconet_cv.h`: configuration variables -/

/-- `#define LOCONET_CV_NUMBERS 0x1E` -/
def LOCONET_CV_NUMBERS : Nat := 0x1E

/-- `#define LOCONET_CV_PER_PAGE 0x1E` -/
def LOCONET_CV_PER_PAGE : Nat := 0x1E

/-- `#define LOCONET_CV_DEVICE_CLASS 0x4BA` -/
def LOCONET_CV_DEVICE_CLASS : Nat := 0x4BA

/-- `#define LOCONET_CV_INITIAL_ADDRESS 0x03` -/
def LOCONET_CV_INITIAL_ADDRESS : Nat := 0x03

/-- `#define LOCONET_CV_INITIAL_PRIORITY 0x05` -/
def LOCONET_CV_INITIAL_PRIORITY : Nat := 0x05

/-- `#define LOCONET_CV_ACK_ERROR_OUTOFRANGE 0x01` -/
def LOCONET_CV_ACK_ERROR_OUTOFRANGE : Nat := 0x01

/-- `#define LOCONET_CV_ACK_ERROR_READONLY 0x02` -/
def LOCONET_CV_ACK_ERROR_READONLY : Nat := 0x02

/-- `#define LOCONET_CV_ACK_OK 0x7F` -/
def LOCONET_CV_ACK_OK : Nat := 0x7F

/-- Modelled from the spec: the persistent paged store behind
`eeprom_emulator_read_page`, `eeprom_emulator_write_page` and
`eeprom_emulator_commit_page_buffer` (`utils/eeprom.h` is not part of the
sources). It is addressed by page index, each page holds 16-bit values
(`pages p i` is value `i` of page `p`), and a written page goes to a staging
area (`staged`) until it is committed. -/
structure EEPROM_Type where
  pages : Nat → Nat → Nat
  staged : Option (Nat × (Nat → Nat))

/-- Modelled from the spec: "read page" of the persistent store. -/
def eeprom_emulator_read_page (e : EEPROM_Type) (page : Nat) : Nat → Nat :=
  e.pages page

/-- Modelled from the spec: "write page into a staging area" of the persistent
store. -/
def eeprom_emulator_write_page (e : EEPROM_Type) (page : Nat) (data : Nat → Nat) :
    EEPROM_Type :=
  { e with staged := some (page, data) }

/-- Modelled from the spec: "commit staged page" of the persistent store. -/
def eeprom_emulator_commit_page_buffer (e : EEPROM_Type) : EEPROM_Type :=
  match e.staged with
  | some (page, data) => ⟨Function.update e.pages page data, none⟩
  | none => e

/-- The globals the CV functions work on: the persistent store,
`loconet_config` and `loconet_cv_programming`. -/
structure LOCONET_CV_State where
  eeprom : EEPROM_Type
  config : LOCONET_CONFIG_Type
  programming : Bool

/-- `uint8_t loconet_cv_write_allowed_dummy(uint16_t, uint16_t)`: the default
of the weak hook `loconet_cv_write_allowed`. -/
def loconet_cv_write_allowed_dummy (_lncv_number _value : Nat) : Nat :=
  LOCONET_CV_ACK_OK

/-- `uint8_t loconet_cv_write_allowed_core(uint16_t lncv_number, uint16_t lncv_value)`;
`write_allowed` is the hook `loconet_cv_write_allowed` the program is linked
with. -/
def loconet_cv_write_allowed_core (write_allowed : Nat → Nat → Nat)
    (lncv_number lncv_value : Nat) : Nat :=
  match lncv_number with
  | 0 => if lncv_value < 0x3FF then LOCONET_CV_ACK_OK else LOCONET_CV_ACK_ERROR_OUTOFRANGE
  | 1 => LOCONET_CV_ACK_ERROR_READONLY
  | 2 =>
    if lncv_value > 0 ∧ lncv_value < 0x010 then LOCONET_CV_ACK_OK
    else LOCONET_CV_ACK_ERROR_OUTOFRANGE
  | _ => write_allowed lncv_number lncv_value

/-- `uint16_t loconet_cv_get(uint16_t lncv_number)`. -/
def loconet_cv_get (e : EEPROM_Type) (lncv_number : Nat) : Nat :=
  if lncv_number ≥ LOCONET_CV_NUMBERS then
    0xFFFF
  else
    let page_data := eeprom_emulator_read_page e (lncv_number / LOCONET_CV_PER_PAGE)
    if lncv_number = 0 ∧ page_data 1 ≠ LOCONET_CV_DEVICE_CLASS then
      LOCONET_CV_INITIAL_ADDRESS
    else if lncv_number = 2 ∧ page_data 1 ≠ LOCONET_CV_DEVICE_CLASS then
      LOCONET_CV_INITIAL_PRIORITY
    else
      page_data (lncv_number % LOCONET_CV_PER_PAGE)

/-- What one call of `loconet_cv_set` does: the status it returns, the globals
afterwards, and the call of the hook `loconet_cv_written_event` it made, if
any. -/
structure LOCONET_CV_SET_Result where
  ack : Nat
  state : LOCONET_CV_State
  written_event : Option (Nat × Nat)

/-- `uint8_t loconet_cv_set(uint16_t lncv_number, uint16_t lncv_value)`;
`write_allowed` is the hook `loconet_cv_write_allowed` the program is linked
with. -/
def loconet_cv_set (write_allowed : Nat → Nat → Nat) (st : LOCONET_CV_State)
    (lncv_number lncv_value : Nat) : LOCONET_CV_SET_Result :=
  if lncv_number = 1 then
    ⟨LOCONET_CV_ACK_ERROR_READONLY, st, none⟩
  else if lncv_number ≥ LOCONET_CV_NUMBERS then
    ⟨LOCONET_CV_ACK_ERROR_OUTOFRANGE, st, none⟩
  else
    let ack := loconet_cv_write_allowed_core write_allowed lncv_number lncv_value
    let page := lncv_number / LOCONET_CV_PER_PAGE % 256
    let index := lncv_number % LOCONET_CV_PER_PAGE % 256
    let page_data := eeprom_emulator_read_page st.eeprom page
    if ack = LOCONET_CV_ACK_OK ∧ lncv_value ≠ page_data index then
      let page_data := Function.update page_data index lncv_value
      let page_data :=
        if lncv_number = 0 then Function.update page_data 1 LOCONET_CV_DEVICE_CLASS
        else page_data
      let config : LOCONET_CONFIG_Type :=
        if lncv_number = 0 then { st.config with ADDRESS := lncv_value % 1024 }
        else if lncv_number = 2 then { st.config with PRIORITY := lncv_value % 16 }
        else st.config
      let eeprom := eeprom_emulator_commit_page_buffer
        (eeprom_emulator_write_page st.eeprom page page_data)
      ⟨ack, { st with eeprom := eeprom, config := config }, some (lncv_number, lncv_value)⟩
    else
      ⟨ack, st, none⟩

/-- A store whose slots all hold `value`, with nothing staged. -/
def eeprom_filled (value : Nat) : EEPROM_Type :=
  ⟨fun _ _ => value, none⟩

/-- `enum status_code loconet_cv_init(void)` on the path that returns
`STATUS_OK`: the assignments to the bit fields `loconet_config.bit.ADDRESS`
(10 bits) and `loconet_config.bit.PRIORITY` (4 bits) and to
`loconet_cv_programming`. The four calls of `loconet_rx_register_callback`
that follow act on the observer registry, which is no part of
`LOCONET_CV_State`. -/
def loconet_cv_init (st : LOCONET_CV_State) : LOCONET_CV_State :=
  let address := loconet_cv_get st.eeprom 0 % 1024
  let priority := loconet_cv_get st.eeprom 2 % 16
  { st with
    config := { st.config with ADDRESS := address, PRIORITY := priority }
    programming := false }

/-! ## `loconet_cv.c`: request processing -/

/-- `#define LOCONET_CV_SRC_KPU 0x01` -/
def LOCONET_CV_SRC_KPU : Nat := 0x01

/-- `#define LOCONET_CV_SRC_MODULE 0x05` -/
def LOCONET_CV_SRC_MODULE : Nat := 0x05

/-- `#define LOCONET_CV_DST_UB_KPU 0x4B49` -/
def LOCONET_CV_DST_UB_KPU : Nat := 0x4B49

/-- `#define LOCONET_CV_REQ_CFGREAD 0x1F` -/
def LOCONET_CV_REQ_CFGREAD : Nat := 0x1F

/-- `#define LOCONET_CV_REQ_CFGWRITE 0x20` -/
def LOCONET_CV_REQ_CFGWRITE : Nat := 0x20

/-- `#define LOCONET_CV_FLG_PROG_ON 0x80` -/
def LOCONET_CV_FLG_PROG_ON : Nat := 0x80

/-- `#define LOCONET_CV_FLG_PROG_OFF 0x40` -/
def LOCONET_CV_FLG_PROG_OFF : Nat := 0x40

/-- `LOCONET_CV_MSG_Type`: the twelve-byte message record, its 16-bit fields
packed (no padding). -/
structure LOCONET_CV_MSG_Type where
  source : Nat
  destination : Nat
  request_id : Nat
  most_significant_bits : Nat
  device_class : Nat
  lncv_number : Nat
  lncv_value : Nat
  flags : Nat
  deriving DecidableEq

/-- The twelve bytes a `LOCONET_CV_MSG_Type` occupies in memory (little
endian): what `(LOCONET_CV_MSG_Type*)&resp_data[1]` writes through. -/
def LOCONET_CV_MSG_bytes (m : LOCONET_CV_MSG_Type) : List Nat :=
  [m.source % 256,
   m.destination % 256, m.destination / 256 % 256,
   m.request_id % 256,
   m.most_significant_bits % 256,
   m.device_class % 256, m.device_class / 256 % 256,
   m.lncv_number % 256, m.lncv_number / 256 % 256,
   m.lncv_value % 256, m.lncv_value / 256 % 256,
   m.flags % 256]

/-- The record read through `(LOCONET_CV_MSG_Type *)data` from the bytes of
`data` (little endian). -/
def LOCONET_CV_MSG_of_bytes (data : List Nat) : LOCONET_CV_MSG_Type :=
  { source := data.getD 0 0
    destination := data.getD 1 0 + 256 * data.getD 2 0
    request_id := data.getD 3 0
    most_significant_bits := data.getD 4 0
    device_class := data.getD 5 0 + 256 * data.getD 6 0
    lncv_number := data.getD 7 0 + 256 * data.getD 8 0
    lncv_value := data.getD 9 0 + 256 * data.getD 10 0
    flags := data.getD 11 0 }

/-- A call the CV handler makes to a procedure outside `loconet_cv.c`:
`loconet_tx_queue_n(opcode, priority, data, length)`,
`loconet_tx_long_ack(opcode, code)`, or one of the hooks
`loconet_cv_prog_off_event()` and `loconet_cv_written_event(number, value)`. -/
inductive LOCONET_CV_Call where
  | tx_queue_n (opcode priority : Nat) (data : List Nat) (length : Nat)
  | tx_long_ack (opcode code : Nat)
  | prog_off_event
  | written_event (lncv_number value : Nat)
  deriving DecidableEq

/-- The call hands a frame to the transmit queue. -/
def LOCONET_CV_Call.is_tx : LOCONET_CV_Call → Bool
  | .tx_queue_n _ _ _ _ => true
  | .tx_long_ack _ _ => true
  | _ => false

/-- What a CV handler does: the globals afterwards and the calls it made, in
order. -/
structure LOCONET_CV_PROCESS_Result where
  state : LOCONET_CV_State
  calls : List LOCONET_CV_Call

/-- The loop `for (index = 0; index < 7; index++)` of `loconet_cv_response`
over `resp_data[6 + index]`: the bytes from `resp_data[6 + index]` on are
`bytes`, the result is `most_significant_bits` and the bytes afterwards. -/
def loconet_cv_response_msb_loop : Nat → Nat → List Nat → Nat × List Nat
  | _, msb, [] => (msb, [])
  | index, msb, b :: bytes =>
    if b &&& 0x80 ≠ 0 then
      let r := loconet_cv_response_msb_loop (index + 1) ((msb ||| (0x01 <<< index)) % 256) bytes
      (r.1, (b &&& 0x7F) :: r.2)
    else
      let r := loconet_cv_response_msb_loop (index + 1) msb bytes
      (r.1, b :: r.2)

/-- The 13 bytes `resp_data` that `loconet_cv_response` builds for the record
`resp`: the length byte `15`, the record, and the loop that moves the top bits
of `resp_data[6..12]` into `most_significant_bits` (`resp_data[5]`). -/
def loconet_cv_response_data (resp : LOCONET_CV_MSG_Type) : List Nat :=
  let resp_data := 15 :: LOCONET_CV_MSG_bytes { resp with most_significant_bits := 0 }
  let packed := loconet_cv_response_msb_loop 0 (resp_data.getD 5 0) (resp_data.drop 6)
  resp_data.take 5 ++ packed.1 :: packed.2

/-- `static void loconet_cv_response(LOCONET_CV_MSG_Type *msg)`: the call of
`loconet_tx_queue_n` it makes. -/
def loconet_cv_response (st : LOCONET_CV_State) (msg : LOCONET_CV_MSG_Type) :
    LOCONET_CV_Call :=
  let resp : LOCONET_CV_MSG_Type :=
    { source := LOCONET_CV_SRC_MODULE
      destination :=
        if msg.source = LOCONET_CV_SRC_KPU then LOCONET_CV_DST_UB_KPU else msg.source
      request_id := LOCONET_CV_REQ_CFGREAD
      most_significant_bits := 0
      device_class := msg.device_class
      lncv_number := msg.lncv_number
      lncv_value := loconet_cv_get st.eeprom msg.lncv_number
      flags := 0 }
  .tx_queue_n 0xE5 1 (loconet_cv_response_data resp) 13

/-- `static void loconet_cv_prog_on(LOCONET_CV_MSG_Type *msg)`. -/
def loconet_cv_prog_on (st : LOCONET_CV_State) (msg : LOCONET_CV_MSG_Type) :
    LOCONET_CV_PROCESS_Result :=
  if msg.lncv_number ≠ 0 ∨
      (msg.lncv_value ≠ 0xFFFF ∧ msg.lncv_value ≠ st.config.ADDRESS) then
    ⟨st, []⟩
  else
    ⟨{ st with programming := true },
      [loconet_cv_response { st with programming := true } msg]⟩

/-- `static void loconet_cv_prog_off(LOCONET_CV_MSG_Type *msg)`. -/
def loconet_cv_prog_off (st : LOCONET_CV_State) (_msg : LOCONET_CV_MSG_Type) :
    LOCONET_CV_PROCESS_Result :=
  ⟨{ st with programming := false }, [.prog_off_event]⟩

/-- `static void loconet_cv_prog_read(LOCONET_CV_MSG_Type *msg, uint8_t opcode)`. -/
def loconet_cv_prog_read (st : LOCONET_CV_State) (msg : LOCONET_CV_MSG_Type) (opcode : Nat) :
    LOCONET_CV_PROCESS_Result :=
  if msg.lncv_number ≥ LOCONET_CV_NUMBERS then
    ⟨st, [.tx_long_ack opcode LOCONET_CV_ACK_ERROR_OUTOFRANGE]⟩
  else
    ⟨st, [loconet_cv_response st msg]⟩

/-- `static void loconet_cv_prog_write(LOCONET_CV_MSG_Type *msg, uint8_t opcode)`;
`write_allowed` is the hook `loconet_cv_write_allowed` the program is linked
with. -/
def loconet_cv_prog_write (write_allowed : Nat → Nat → Nat) (st : LOCONET_CV_State)
    (msg : LOCONET_CV_MSG_Type) (opcode : Nat) : LOCONET_CV_PROCESS_Result :=
  if ¬ st.programming then
    ⟨st, []⟩
  else
    let r := loconet_cv_set write_allowed st msg.lncv_number msg.lncv_value
    let hook : List LOCONET_CV_Call :=
      match r.written_event with
      | some (number, value) => [.written_event number value]
      | none => []
    ⟨r.state, hook ++ [.tx_long_ack opcode r.ack]⟩

/-- `void loconet_cv_process(LOCONET_CV_MSG_Type *msg, uint8_t opcode)`. -/
def loconet_cv_process (write_allowed : Nat → Nat → Nat) (st : LOCONET_CV_State)
    (msg : LOCONET_CV_MSG_Type) (opcode : Nat) : LOCONET_CV_PROCESS_Result :=
  if msg.device_class ≠ LOCONET_CV_DEVICE_CLASS then
    ⟨st, []⟩
  else if msg.flags = LOCONET_CV_FLG_PROG_ON then
    loconet_cv_prog_on st msg
  else if msg.flags = LOCONET_CV_FLG_PROG_OFF then
    loconet_cv_prog_off st msg
  else if msg.request_id = LOCONET_CV_REQ_CFGWRITE then
    loconet_cv_prog_write write_allowed st msg opcode
  else
    loconet_cv_prog_read st msg opcode

/-- The loop of `loconet_cv_fix_msb(msb, data, length)` from `index` on:
`*data++ |= ((msb & (1 << index)) << (length - index))`, stored into a
`uint8_t`. -/
def loconet_cv_fix_msb_loop (msb length : Nat) : Nat → List Nat → List Nat
  | _, [] => []
  | index, b :: data =>
    if index < length then
      ((b ||| ((msb &&& (1 <<< index)) <<< (length - index))) % 256)
        :: loconet_cv_fix_msb_loop msb length (index + 1) data
    else
      b :: data

/-- `static void loconet_cv_fix_msb(uint8_t msb, uint8_t *data, uint8_t length)`. -/
def loconet_cv_fix_msb (msb : Nat) (data : List Nat) (length : Nat) : List Nat :=
  loconet_cv_fix_msb_loop msb length 0 data

/-- The record `loconet_cv_peer_xfer` reads from its payload: `data` after
`loconet_cv_fix_msb(data[4], &data[5], 7)`, read as
`(LOCONET_CV_MSG_Type *)data`. -/
def loconet_cv_unpack (data : List Nat) : LOCONET_CV_MSG_Type :=
  LOCONET_CV_MSG_of_bytes
    (data.take 5 ++ loconet_cv_fix_msb (data.getD 4 0) (data.drop 5) 7)

/-- `void loconet_cv_peer_xfer(uint8_t* data, uint8_t length)`: the observer
of peer-to-peer transfer messages. -/
def loconet_cv_peer_xfer (write_allowed : Nat → Nat → Nat) (st : LOCONET_CV_State)
    (data : List Nat) (length : Nat) : LOCONET_CV_PROCESS_Result :=
  if length = 0x0C ∧ data.getD 0 0 = LOCONET_CV_SRC_KPU then
    loconet_cv_process write_allowed st (loconet_cv_unpack data) 0xE5
  else
    ⟨st, []⟩

/-- The record a receiver reads from the 13 data bytes of a response frame:
the length byte is dropped and the top bits are put back the way
`loconet_cv_peer_xfer` does it. -/
def loconet_cv_response_decode (resp_data : List Nat) : LOCONET_CV_MSG_Type :=
  loconet_cv_unpack (resp_data.drop 1)

/-! ## `loconet.c`: bus arbitration -/

/-- `LOCONET_STATUS_Type`: the bit fields `BUSY:1`, `TRANSMIT:1`,
`COLLISION_DETECTED:1`. -/
structure LOCONET_STATUS_Type where
  BUSY : Bool
  TRANSMIT : Bool
  COLLISION_DETECTED : Bool
  deriving DecidableEq

/-- `LOCONET_TIMER_STATUS_Type`: the register `reg` whose bits 0..3 are
`CARRIER_DETECT`, `MASTER_DELAY`, `LINE_BREAK` and `PRIORITY_DELAY`. -/
structure LOCONET_TIMER_STATUS_Type where
  reg : Nat
  deriving DecidableEq

/-- `loconet_timer_status.bit.CARRIER_DETECT` -/
def LOCONET_TIMER_STATUS_Type.CARRIER_DETECT (t : LOCONET_TIMER_STATUS_Type) : Nat :=
  t.reg % 2

/-- `loconet_timer_status.bit.MASTER_DELAY` -/
def LOCONET_TIMER_STATUS_Type.MASTER_DELAY (t : LOCONET_TIMER_STATUS_Type) : Nat :=
  t.reg / 2 % 2

/-- `loconet_timer_status.bit.LINE_BREAK` -/
def LOCONET_TIMER_STATUS_Type.LINE_BREAK (t : LOCONET_TIMER_STATUS_Type) : Nat :=
  t.reg / 4 % 2

/-- `loconet_timer_status.bit.PRIORITY_DELAY` -/
def LOCONET_TIMER_STATUS_Type.PRIORITY_DELAY (t : LOCONET_TIMER_STATUS_Type) : Nat :=
  t.reg / 8 % 2

/-- `#define LOCONET_TIMER_STATUS_CARRIER_DETECT (0x01ul << 0)` -/
def LOCONET_TIMER_STATUS_CARRIER_DETECT : Nat := 1

/-- `#define LOCONET_TIMER_STATUS_MASTER_DELAY (0x01ul << 1)` -/
def LOCONET_TIMER_STATUS_MASTER_DELAY : Nat := 2

/-- `#define LOCONET_TIMER_STATUS_LINE_BREAK (0x01ul << 2)` -/
def LOCONET_TIMER_STATUS_LINE_BREAK : Nat := 4

/-- `#define LOCONET_TIMER_STATUS_PRIORITY_DELAY (0x01ul << 3)` -/
def LOCONET_TIMER_STATUS_PRIORITY_DELAY : Nat := 8

/-- `#define LOCONET_DELAY_CARRIER_DETECT 1200` -/
def LOCONET_DELAY_CARRIER_DETECT : Nat := 1200

/-- `#define LOCONET_DELAY_MASTER_DELAY 360` -/
def LOCONET_DELAY_MASTER_DELAY : Nat := 360

/-- `#define LOCONET_DELAY_LINE_BREAK 900` -/
def LOCONET_DELAY_LINE_BREAK : Nat := 900

/-- `#define LOCONET_DELAY_PRIORITY_DELAY 60` -/
def LOCONET_DELAY_PRIORITY_DELAY : Nat := 60

/-- The globals of `loconet.c`: `loconet_config`, `loconet_status` and
`loconet_timer_status`. -/
structure LOCONET_Type where
  config : LOCONET_CONFIG_Type
  status : LOCONET_STATUS_Type
  timer_status : LOCONET_TIMER_STATUS_Type
  deriving DecidableEq

/-- A call an arbitration handler makes to the hardware layer or the
transmitter: `loconet_flank_timer_delay(delay_us)`, `loconet_hw_enable_rx_tx()`,
`loconet_hw_disable_rx_tx()`, `loconet_tx_reset_current_message_to_queue()`,
`loconet_hw_force_tx_high()`, `loconet_activity_led_off()`. -/
inductive LOCONET_HW_Call where
  | flank_timer_delay (delay_us : Nat)
  | hw_enable_rx_tx
  | hw_disable_rx_tx
  | tx_reset_current_message_to_queue
  | hw_force_tx_high
  | activity_led_off
  deriving DecidableEq

/-- What an arbitration handler does: the globals afterwards and the calls it
made, in order. -/
structure LOCONET_IRQ_Result where
  state : LOCONET_Type
  calls : List LOCONET_HW_Call
  deriving DecidableEq

/-- `void loconet_irq_flank_rise(void)`. -/
def loconet_irq_flank_rise (s : LOCONET_Type) : LOCONET_IRQ_Result :=
  ⟨{ s with
      timer_status := ⟨LOCONET_TIMER_STATUS_CARRIER_DETECT⟩
      status := { s.status with BUSY := true } },
    [.flank_timer_delay LOCONET_DELAY_CARRIER_DETECT]⟩

/-- `void loconet_irq_flank_fall(void)`. -/
def loconet_irq_flank_fall (s : LOCONET_Type) : LOCONET_IRQ_Result :=
  ⟨{ s with
      timer_status := ⟨LOCONET_TIMER_STATUS_LINE_BREAK⟩
      status := { s.status with BUSY := true } },
    [.flank_timer_delay LOCONET_DELAY_LINE_BREAK]⟩

/-- `void loconet_irq_timer(void)`; the argument of `loconet_flank_timer_delay`
is a `uint16_t`. -/
def loconet_irq_timer (s : LOCONET_Type) : LOCONET_IRQ_Result :=
  if s.timer_status.CARRIER_DETECT ≠ 0 then
    if s.config.MASTER ≠ 0 then
      ⟨{ s with status := { s.status with BUSY := false } }, []⟩
    else
      ⟨{ s with timer_status := ⟨LOCONET_TIMER_STATUS_MASTER_DELAY⟩ },
        [.flank_timer_delay LOCONET_DELAY_MASTER_DELAY]⟩
  else if s.timer_status.MASTER_DELAY ≠ 0 then
    if s.config.PRIORITY ≠ 0 then
      ⟨{ s with timer_status := ⟨LOCONET_TIMER_STATUS_PRIORITY_DELAY⟩ },
        [.flank_timer_delay (s.config.PRIORITY * LOCONET_DELAY_PRIORITY_DELAY % 65536)]⟩
    else
      ⟨{ s with status := { s.status with BUSY := false } }, []⟩
  else if s.timer_status.PRIORITY_DELAY ≠ 0 then
    ⟨{ s with status := { s.status with BUSY := false } }, []⟩
  else if s.timer_status.LINE_BREAK ≠ 0 then
    ⟨{ s with status := { s.status with COLLISION_DETECTED := false } }, [.hw_enable_rx_tx]⟩
  else
    ⟨s, []⟩

/-- `void loconet_irq_collision(void)`. -/
def loconet_irq_collision (s : LOCONET_Type) : LOCONET_IRQ_Result :=
  if s.status.TRANSMIT then
    ⟨{ s with status := { s.status with COLLISION_DETECTED := true, TRANSMIT := false } },
      [.hw_disable_rx_tx, .tx_reset_current_message_to_queue, .hw_force_tx_high,
        .activity_led_off]⟩
  else
    ⟨{ s with status := { s.status with COLLISION_DETECTED := true } }, [.hw_disable_rx_tx]⟩

/-- The delays, in microseconds, of the timers armed by a list of calls,
added up. -/
def armed_delay : List LOCONET_HW_Call → Nat
  | [] => 0
  | .flank_timer_delay d :: calls => d + armed_delay calls
  | _ :: calls => armed_delay calls

/-- The timer expiries that follow while `busy` is set: every expiry runs
`loconet_irq_timer`; the result is the sum of the delays armed on the way and
the state in which `busy` is clear, or `none` when `busy` is still set after
`fuel` expiries. -/
def loconet_timer_expiries : Nat → LOCONET_Type → Option (Nat × LOCONET_Type)
  | 0, s => if s.status.BUSY then none else some (0, s)
  | fuel + 1, s =>
    if s.status.BUSY then
      let r := loconet_irq_timer s
      match loconet_timer_expiries fuel r.state with
      | some (d, s') => some (armed_delay r.calls + d, s')
      | none => none
    else
      some (0, s)

/-- The total armed delay between a bus-rise event and the moment `busy` is
cleared: the delay armed by `loconet_irq_flank_rise` plus the delays armed by
the timer expiries that follow. -/
def bus_rise_to_idle_delay (s : LOCONET_Type) : Option Nat :=
  let r := loconet_irq_flank_rise s
  match loconet_timer_expiries 4 r.state with
  | some (d, _) => some (armed_delay r.calls + d)
  | none => none

/-- The status invariant: `transmitting` implies `busy`. -/
def transmit_implies_busy (s : LOCONET_Type) : Prop :=
  s.status.TRANSMIT = true → s.status.BUSY = true

instance (s : LOCONET_Type) : Decidable (transmit_implies_busy s) := by
  unfold transmit_implies_busy
  infer_instance

/-- The timer expiry in state `s` takes a branch of `loconet_irq_timer` that
clears `busy`. -/
def irq_timer_clears_busy (s : LOCONET_Type) : Prop :=
  (s.timer_status.CARRIER_DETECT ≠ 0 ∧ s.config.MASTER ≠ 0) ∨
  (s.timer_status.CARRIER_DETECT = 0 ∧ s.timer_status.MASTER_DELAY ≠ 0 ∧
    s.config.PRIORITY = 0) ∨
  (s.timer_status.CARRIER_DETECT = 0 ∧ s.timer_status.MASTER_DELAY = 0 ∧
    s.timer_status.PRIORITY_DELAY ≠ 0)

instance (s : LOCONET_Type) : Decidable (irq_timer_clears_busy s) := by
  unfold irq_timer_clears_busy
  infer_instance

/-! ### Checksum lemmas -/

theorem checksum_loop_eq_foldl (data : List Nat) (c : Nat) :
    loconet_calc_checksum_loop c data data.length
      = data.foldl (fun acc b => acc ^^^ b) c := by
  induction data generalizing c with
  | nil => rfl
  | cons b rest ih =>
    simp only [List.length_cons, loconet_calc_checksum_loop, List.foldl_cons]
    exact ih (c ^^^ b)

theorem foldl_xor_seed (data : List Nat) (c : Nat) :
    data.foldl (fun acc b => acc ^^^ b) c = c ^^^ xor_all data := by
  unfold xor_all
  induction data using List.reverseRecOn with
  | nil => simp
  | append_singleton rest b ih =>
    simp only [List.foldl_append, List.foldl_cons, List.foldl_nil]
    rw [ih, Nat.xor_assoc]

theorem checksum_eq_xor_all (data : List Nat) (h : data.length < 256) :
    loconet_calc_checksum data data.length = 0xFF ^^^ xor_all data := by
  unfold loconet_calc_checksum
  rw [Nat.mod_eq_of_lt h, checksum_loop_eq_foldl, foldl_xor_seed]

theorem xor_all_append_singleton (data : List Nat) (b : Nat) :
    xor_all (data ++ [b]) = xor_all data ^^^ b := by
  simp [xor_all, List.foldl_append]

theorem xor_all_flip_bit (f : List Nat) (pos bit : Nat) (hpos : pos < f.length) :
    xor_all (flip_bit f pos bit) = xor_all f ^^^ 2 ^ bit := by
  unfold flip_bit
  induction f generalizing pos with
  | nil => simp at hpos
  | cons b rest ih =>
    have hcons : ∀ (x : Nat) (l : List Nat), xor_all (x :: l) = x ^^^ xor_all l := by
      intro x l
      have := foldl_xor_seed l (0 ^^^ x)
      simpa [xor_all] using this
    cases pos with
    | zero =>
      simp only [List.set_cons_zero, List.getD_cons_zero, hcons]
      rw [Nat.xor_assoc, Nat.xor_comm (2 ^ bit), ← Nat.xor_assoc]
    | succ p =>
      have hp : p < rest.length := by simpa using hpos
      simp only [List.set_cons_succ, List.getD_cons_succ, hcons]
      rw [ih p hp, Nat.xor_assoc]

/-! ### Framer lemmas -/

theorem has_opcode_flag_iff (b : Nat) (hb : b < 256) : has_opcode_flag b ↔ 128 ≤ b := by
  unfold has_opcode_flag LOCONET_OPCODE_FLAG
  interval_cases b <;> decide

theorem fictive_writer_eq (rb : LOCONET_RX_RINGBUFFER_Type) (hwf : ringbuffer_wf rb) :
    loconet_rx_fictive_writer rb = rb.reader + loconet_rx_available rb := by
  unfold ringbuffer_wf LOCONET_RX_RINGBUFFER_Size at hwf
  unfold loconet_rx_fictive_writer loconet_rx_available LOCONET_RX_RINGBUFFER_Size
  split_ifs <;> omega

theorem available_le (rb : LOCONET_RX_RINGBUFFER_Type) : loconet_rx_available rb ≤ 63 := by
  unfold loconet_rx_available LOCONET_RX_RINGBUFFER_Size
  omega

theorem scan_none (buffer : Nat → Nat) (index count : Nat)
    (h : ∀ k, k < count → ¬ has_opcode_flag (buffer ((index + k) % LOCONET_RX_RINGBUFFER_Size))) :
    loconet_rx_scan buffer index count = none := by
  induction count generalizing index with
  | zero => rfl
  | succ n ih =>
    have h0 := h 0 (by omega)
    simp only [has_opcode_flag, Nat.add_zero] at h0
    simp only [loconet_rx_scan, if_neg h0]
    apply ih
    intro k hk
    have := h (k + 1) (by omega)
    rwa [show index + (k + 1) = index + 1 + k by omega] at this

theorem scan_some (buffer : Nat → Nat) (index count k : Nat) (hk : k < count)
    (hflag : has_opcode_flag (buffer ((index + k) % LOCONET_RX_RINGBUFFER_Size)))
    (hfirst : ∀ j, j < k → ¬ has_opcode_flag (buffer ((index + j) % LOCONET_RX_RINGBUFFER_Size))) :
    loconet_rx_scan buffer index count = some (index + k) := by
  induction count generalizing index k with
  | zero => omega
  | succ n ih =>
    cases k with
    | zero =>
      simp only [has_opcode_flag, Nat.add_zero] at hflag
      simp only [loconet_rx_scan, if_pos hflag, Nat.add_zero]
    | succ k =>
      have h0 := hfirst 0 (by omega)
      simp only [has_opcode_flag, Nat.add_zero] at h0
      simp only [loconet_rx_scan, if_neg h0]
      rw [show index + (k + 1) = index + 1 + k by omega]
      apply ih (index + 1) k (by omega)
      · rwa [show index + (k + 1) = index + 1 + k by omega] at hflag
      · intro j hj
        have := hfirst (j + 1) (by omega)
        rwa [show index + (j + 1) = index + 1 + j by omega] at this

theorem scan_result (buffer : Nat → Nat) (index count : Nat) :
    (∀ x, loconet_rx_scan buffer index count = some x → index ≤ x ∧ x < index + count) := by
  induction count generalizing index with
  | zero => intro x h; simp [loconet_rx_scan] at h
  | succ n ih =>
    intro x h
    simp only [loconet_rx_scan] at h
    split_ifs at h with hf
    · simp only [Option.some.injEq] at h
      omega
    · have := ih (index + 1) x h
      omega

theorem copy_length (buffer : Nat → Nat) (index count : Nat) :
    (loconet_rx_copy buffer index count).length = count := by
  induction count generalizing index with
  | zero => rfl
  | succ n ih => simp [loconet_rx_copy, ih]

theorem copy_eq_of_holds (buffer : Nat → Nat) (index : Nat) (bytes : List Nat)
    (h : ∀ i, i < bytes.length →
      buffer ((index + i) % LOCONET_RX_RINGBUFFER_Size) = bytes.getD i 0) :
    loconet_rx_copy buffer index bytes.length = bytes := by
  induction bytes generalizing index with
  | nil => rfl
  | cons b rest ih =>
    have h0 := h 0 (by simp)
    simp only [Nat.add_zero, List.getD_cons_zero] at h0
    simp only [List.length_cons, loconet_rx_copy, h0, List.cons.injEq, true_and]
    apply ih
    intro i hi
    have := h (i + 1) (by simpa using hi)
    rw [show index + (i + 1) = index + 1 + i by omega] at this
    simpa using this

/-- Fewer than two bytes available: nothing happens. -/
theorem rx_process_too_few (rb : LOCONET_RX_RINGBUFFER_Type) (hwf : ringbuffer_wf rb)
    (havail : loconet_rx_available rb ≤ 1) :
    loconet_rx_process rb = ⟨0, rb, none⟩ := by
  have hfw := fictive_writer_eq rb hwf
  simp only [loconet_rx_process, hfw]
  rw [if_pos (by omega)]

/-- A byte without the opcode flag at the reader is skipped. -/
theorem rx_process_skip (rb : LOCONET_RX_RINGBUFFER_Type) (hwf : ringbuffer_wf rb)
    (havail : 2 ≤ loconet_rx_available rb)
    (hop : ¬ has_opcode_flag (rb.buffer rb.reader)) :
    loconet_rx_process rb = ⟨0, ringbuffer_advance rb 1, none⟩ := by
  have hfw := fictive_writer_eq rb hwf
  simp only [has_opcode_flag, not_not] at hop
  simp only [loconet_rx_process, hfw]
  rw [if_neg (by omega), if_pos hop]
  rfl

/-- A complete candidate frame without an interior opcode byte is copied out,
checked and consumed. -/
theorem rx_process_complete (rb : LOCONET_RX_RINGBUFFER_Type) (hwf : ringbuffer_wf rb)
    (m : Nat)
    (hm : m = loconet_rx_message_size (rb.buffer rb.reader)
      (rb.buffer ((rb.reader + 1) % LOCONET_RX_RINGBUFFER_Size)))
    (havail : 2 ≤ loconet_rx_available rb)
    (hop : has_opcode_flag (rb.buffer rb.reader))
    (hcomplete : m ≤ loconet_rx_available rb)
    (hclean : ∀ k, 1 ≤ k → k < m →
      ¬ has_opcode_flag (rb.buffer ((rb.reader + k) % LOCONET_RX_RINGBUFFER_Size))) :
    loconet_rx_process rb =
      if loconet_calc_checksum (loconet_rx_copy rb.buffer rb.reader m) m ≠ 0 then
        ⟨0, ringbuffer_advance rb m, none⟩
      else
        ⟨1, ringbuffer_advance rb m,
          some (loconet_rx_notify_call (rb.buffer rb.reader)
            (loconet_rx_copy rb.buffer rb.reader m) m)⟩ := by
  have hfw := fictive_writer_eq rb hwf
  have ha := available_le rb
  have hr : rb.reader < 64 := hwf.1
  simp only [has_opcode_flag] at hop
  simp only [loconet_rx_process, hfw, ← hm]
  rw [if_neg (by omega), if_neg hop]
  have hbound : (if rb.reader + loconet_rx_available rb < rb.reader + m
      then rb.reader + loconet_rx_available rb else rb.reader + m) % 256 = rb.reader + m := by
    rw [if_neg (by omega)]
    omega
  have hstart : (rb.reader + 1) % 256 = rb.reader + 1 := by omega
  have hscan : loconet_rx_scan rb.buffer (rb.reader + 1) (rb.reader + m - (rb.reader + 1))
      = none := by
    apply scan_none
    intro k hk
    have := hclean (k + 1) (by omega) (by omega)
    rwa [show rb.reader + (k + 1) = rb.reader + 1 + k by omega] at this
  have heom : (rb.reader + m) % 256 - rb.reader = m := by omega
  simp only [hbound, hstart, hscan, heom]
  rw [if_neg (by omega)]
  rfl

/-- An opcode byte found after the candidate's opcode: the candidate is
abandoned and the reader jumps to the first such byte. -/
theorem rx_process_abandon (rb : LOCONET_RX_RINGBUFFER_Type) (hwf : ringbuffer_wf rb)
    (k : Nat)
    (havail : 2 ≤ loconet_rx_available rb)
    (hop : has_opcode_flag (rb.buffer rb.reader))
    (hk1 : 1 ≤ k) (hkw : k < loconet_rx_available rb)
    (hkm : k < loconet_rx_message_size (rb.buffer rb.reader)
      (rb.buffer ((rb.reader + 1) % LOCONET_RX_RINGBUFFER_Size)))
    (hflag : has_opcode_flag (rb.buffer ((rb.reader + k) % LOCONET_RX_RINGBUFFER_Size)))
    (hfirst : ∀ j, 1 ≤ j → j < k →
      ¬ has_opcode_flag (rb.buffer ((rb.reader + j) % LOCONET_RX_RINGBUFFER_Size))) :
    loconet_rx_process rb = ⟨1, ringbuffer_advance rb k, none⟩ := by
  have hfw := fictive_writer_eq rb hwf
  have ha := available_le rb
  have hr : rb.reader < 64 := hwf.1
  simp only [has_opcode_flag] at hop
  simp only [loconet_rx_process, hfw]
  rw [if_neg (by omega), if_neg hop]
  generalize loconet_rx_message_size (rb.buffer rb.reader)
    (rb.buffer ((rb.reader + 1) % LOCONET_RX_RINGBUFFER_Size)) = m at hkm ⊢
  have hstart : (rb.reader + 1) % 256 = rb.reader + 1 := by omega
  have hcount : k - 1 < (if rb.reader + loconet_rx_available rb < rb.reader + m
      then rb.reader + loconet_rx_available rb else rb.reader + m) % 256 - (rb.reader + 1) := by
    split_ifs <;> omega
  have hscan := scan_some rb.buffer (rb.reader + 1) _ (k - 1) hcount
    (by rwa [show rb.reader + 1 + (k - 1) = rb.reader + k by omega])
    (by
      intro j hj
      have := hfirst (j + 1) (by omega) (by omega)
      rwa [show rb.reader + (j + 1) = rb.reader + 1 + j by omega] at this)
  simp only [hstart, hscan]
  rw [show rb.reader + 1 + (k - 1) = rb.reader + k by omega]
  rfl

/-- A candidate frame that is not yet complete and has no interior opcode byte
so far is left alone. -/
theorem rx_process_incomplete (rb : LOCONET_RX_RINGBUFFER_Type) (hwf : ringbuffer_wf rb)
    (havail : 2 ≤ loconet_rx_available rb)
    (hop : has_opcode_flag (rb.buffer rb.reader))
    (hincomplete : loconet_rx_available rb < loconet_rx_message_size (rb.buffer rb.reader)
      (rb.buffer ((rb.reader + 1) % LOCONET_RX_RINGBUFFER_Size)))
    (hclean : ∀ k, 1 ≤ k → k < loconet_rx_available rb →
      ¬ has_opcode_flag (rb.buffer ((rb.reader + k) % LOCONET_RX_RINGBUFFER_Size))) :
    loconet_rx_process rb = ⟨0, rb, none⟩ := by
  have hfw := fictive_writer_eq rb hwf
  have ha := available_le rb
  have hr : rb.reader < 64 := hwf.1
  simp only [has_opcode_flag] at hop
  simp only [loconet_rx_process, hfw]
  rw [if_neg (by omega), if_neg hop]
  generalize loconet_rx_message_size (rb.buffer rb.reader)
    (rb.buffer ((rb.reader + 1) % LOCONET_RX_RINGBUFFER_Size)) = m at hincomplete ⊢
  have hlt : rb.reader + loconet_rx_available rb < rb.reader + m := by omega
  have hstart : (rb.reader + 1) % 256 = rb.reader + 1 := by omega
  have hscan : loconet_rx_scan rb.buffer (rb.reader + 1)
      ((rb.reader + loconet_rx_available rb) % 256 - (rb.reader + 1)) = none := by
    apply scan_none
    intro k hk
    have := hclean (k + 1) (by omega) (by omega)
    rwa [show rb.reader + (k + 1) = rb.reader + 1 + k by omega] at this
  simp only [if_pos hlt, hstart, hscan]

/-- The five ways a call of `loconet_rx_process` can go. -/
theorem rx_process_cases (rb : LOCONET_RX_RINGBUFFER_Type) (hwf : ringbuffer_wf rb) :
    loconet_rx_process rb = ⟨0, rb, none⟩ ∨
    loconet_rx_process rb = ⟨0, ringbuffer_advance rb 1, none⟩ ∨
    (∃ k, 1 ≤ k ∧ k < loconet_rx_available rb ∧
      loconet_rx_process rb = ⟨1, ringbuffer_advance rb k, none⟩) ∨
    (∃ m, m ≤ loconet_rx_available rb ∧
      m = loconet_rx_message_size (rb.buffer rb.reader)
        (rb.buffer ((rb.reader + 1) % LOCONET_RX_RINGBUFFER_Size)) ∧
      loconet_calc_checksum (loconet_rx_copy rb.buffer rb.reader m) m ≠ 0 ∧
      loconet_rx_process rb = ⟨0, ringbuffer_advance rb m, none⟩) ∨
    (∃ m, m ≤ loconet_rx_available rb ∧
      m = loconet_rx_message_size (rb.buffer rb.reader)
        (rb.buffer ((rb.reader + 1) % LOCONET_RX_RINGBUFFER_Size)) ∧
      loconet_calc_checksum (loconet_rx_copy rb.buffer rb.reader m) m = 0 ∧
      loconet_rx_process rb = ⟨1, ringbuffer_advance rb m,
        some (loconet_rx_notify_call (rb.buffer rb.reader)
          (loconet_rx_copy rb.buffer rb.reader m) m)⟩) := by
  by_cases havail : loconet_rx_available rb ≤ 1
  · exact Or.inl (rx_process_too_few rb hwf havail)
  have havail2 : 2 ≤ loconet_rx_available rb := by omega
  by_cases hop : has_opcode_flag (rb.buffer rb.reader)
  swap
  · exact Or.inr (Or.inl (rx_process_skip rb hwf havail2 hop))
  by_cases hex : ∃ k, 1 ≤ k ∧ k < loconet_rx_available rb ∧
      k < loconet_rx_message_size (rb.buffer rb.reader)
        (rb.buffer ((rb.reader + 1) % LOCONET_RX_RINGBUFFER_Size)) ∧
      has_opcode_flag (rb.buffer ((rb.reader + k) % LOCONET_RX_RINGBUFFER_Size))
  · obtain ⟨h1, h2, h3, h4⟩ := Nat.find_spec hex
    refine Or.inr (Or.inr (Or.inl ⟨Nat.find hex, h1, h2, ?_⟩))
    apply rx_process_abandon rb hwf (Nat.find hex) havail2 hop h1 h2 h3 h4
    intro j hj1 hjk hflag
    exact Nat.find_min hex hjk ⟨hj1, by omega, by omega, hflag⟩
  · have hclean : ∀ k, 1 ≤ k → k < loconet_rx_available rb →
        k < loconet_rx_message_size (rb.buffer rb.reader)
          (rb.buffer ((rb.reader + 1) % LOCONET_RX_RINGBUFFER_Size)) →
        ¬ has_opcode_flag (rb.buffer ((rb.reader + k) % LOCONET_RX_RINGBUFFER_Size)) :=
      fun k h1 h2 h3 h4 => hex ⟨k, h1, h2, h3, h4⟩
    by_cases hcomplete : loconet_rx_message_size (rb.buffer rb.reader)
        (rb.buffer ((rb.reader + 1) % LOCONET_RX_RINGBUFFER_Size)) ≤ loconet_rx_available rb
    · have hc := rx_process_complete rb hwf _ rfl havail2 hop hcomplete
        (fun k h1 h2 => hclean k h1 (by omega) h2)
      by_cases hck : loconet_calc_checksum (loconet_rx_copy rb.buffer rb.reader
          (loconet_rx_message_size (rb.buffer rb.reader)
            (rb.buffer ((rb.reader + 1) % LOCONET_RX_RINGBUFFER_Size))))
          (loconet_rx_message_size (rb.buffer rb.reader)
            (rb.buffer ((rb.reader + 1) % LOCONET_RX_RINGBUFFER_Size))) = 0
      · rw [if_neg (not_not.mpr hck)] at hc
        exact Or.inr (Or.inr (Or.inr (Or.inr ⟨_, hcomplete, rfl, hck, hc⟩)))
      · rw [if_pos hck] at hc
        exact Or.inr (Or.inr (Or.inr (Or.inl ⟨_, hcomplete, rfl, hck, hc⟩)))
    · exact Or.inl (rx_process_incomplete rb hwf havail2 hop (by omega)
        (fun k h1 h2 => hclean k h1 h2 (by omega)))

/-- If a call of `loconet_rx_process` notifies the observers, it has copied
`message_size` bytes from the reader on, their checksum is `0`, the call
returns `1` and the reader has moved behind them. -/
theorem rx_process_notify_inv (rb : LOCONET_RX_RINGBUFFER_Type) (hwf : ringbuffer_wf rb)
    (c : LOCONET_RX_NOTIFY_Call) (h : (loconet_rx_process rb).notify = some c) :
    ∃ m, m ≤ loconet_rx_available rb ∧
      m = loconet_rx_message_size (rb.buffer rb.reader)
        (rb.buffer ((rb.reader + 1) % LOCONET_RX_RINGBUFFER_Size)) ∧
      c = loconet_rx_notify_call (rb.buffer rb.reader)
        (loconet_rx_copy rb.buffer rb.reader m) m ∧
      loconet_calc_checksum (loconet_rx_copy rb.buffer rb.reader m) m = 0 ∧
      (loconet_rx_process rb).ret = 1 ∧
      (loconet_rx_process rb).ringbuffer = ringbuffer_advance rb m := by
  rcases rx_process_cases rb hwf with hc | hc | ⟨k, _, _, hc⟩ | ⟨m, _, _, _, hc⟩ |
    ⟨m, hm1, hm2, hm3, hc⟩
  · rw [hc] at h; simp at h
  · rw [hc] at h; simp at h
  · rw [hc] at h; simp at h
  · rw [hc] at h; simp at h
  · rw [hc] at h ⊢
    simp only [Option.some.injEq] at h
    exact ⟨m, hm1, hm2, h.symm, hm3, rfl, rfl⟩

theorem advance_wf (rb : LOCONET_RX_RINGBUFFER_Type) (hwf : ringbuffer_wf rb) (n : Nat) :
    ringbuffer_wf (ringbuffer_advance rb n) := by
  unfold ringbuffer_wf ringbuffer_advance LOCONET_RX_RINGBUFFER_Size at *
  simp only
  omega

theorem advance_available (rb : LOCONET_RX_RINGBUFFER_Type) (hwf : ringbuffer_wf rb) (n : Nat)
    (hn : n ≤ loconet_rx_available rb) :
    loconet_rx_available (ringbuffer_advance rb n) = loconet_rx_available rb - n := by
  unfold ringbuffer_wf LOCONET_RX_RINGBUFFER_Size at hwf
  unfold loconet_rx_available ringbuffer_advance LOCONET_RX_RINGBUFFER_Size at *
  simp only
  omega

theorem holds_advance (rb : LOCONET_RX_RINGBUFFER_Type) (hwf : ringbuffer_wf rb)
    (a b : List Nat) (h : ringbuffer_holds rb (a ++ b)) :
    ringbuffer_holds (ringbuffer_advance rb a.length) b := by
  obtain ⟨hlen, hbytes⟩ := h
  rw [List.length_append] at hlen
  refine ⟨?_, ?_⟩
  · rw [advance_available rb hwf a.length (by omega)]
    omega
  · intro i hi
    have := hbytes (a.length + i) (by rw [List.length_append]; omega)
    rw [List.getD_append_right _ _ _ _ (by omega)] at this
    simp only [Nat.add_sub_cancel_left] at this
    rw [← this]
    unfold ringbuffer_advance LOCONET_RX_RINGBUFFER_Size
    simp only
    congr 1
    omega

theorem holds_left (rb : LOCONET_RX_RINGBUFFER_Type) (a b : List Nat)
    (h : ringbuffer_holds rb (a ++ b)) : ringbuffer_holds rb a := by
  obtain ⟨hlen, hbytes⟩ := h
  rw [List.length_append] at hlen
  refine ⟨by omega, ?_⟩
  intro i hi
  have := hbytes i (by rw [List.length_append]; omega)
  rwa [List.getD_append _ _ _ _ hi] at this

theorem valid_frame_length (f : List Nat) (hv : valid_frame f) : 2 ≤ f.length := by
  obtain ⟨_, hop, hlen, _, _⟩ := hv
  cases f with
  | nil => exact absurd hop (by decide)
  | cons a rest =>
    cases rest with
    | nil =>
      simp only [List.length_singleton, List.getD_cons_zero, loconet_rx_message_size] at hlen
      split at hlen <;> simp at hlen
    | cons b rest => simp

/-- A complete valid frame at the reader is accepted: the call returns `1`,
moves the reader behind the frame and calls `loconet_rx_notify` for it. -/
theorem rx_process_valid_frame (rb : LOCONET_RX_RINGBUFFER_Type) (hwf : ringbuffer_wf rb)
    (f : List Nat) (hv : valid_frame f) (hh : ringbuffer_holds rb f) :
    loconet_rx_process rb = ⟨1, ringbuffer_advance rb f.length,
      some (loconet_rx_notify_call (f.getD 0 0) f f.length)⟩ := by
  have h2 := valid_frame_length f hv
  obtain ⟨_, hop, hlen, hclean, hck⟩ := hv
  obtain ⟨havail, hbytes⟩ := hh
  have hr : rb.reader < 64 := hwf.1
  have hb0 : rb.buffer rb.reader = f.getD 0 0 := by
    have := hbytes 0 (by omega)
    rwa [Nat.add_zero, show rb.reader % LOCONET_RX_RINGBUFFER_Size = rb.reader from
      Nat.mod_eq_of_lt hr] at this
  have hb1 : rb.buffer ((rb.reader + 1) % LOCONET_RX_RINGBUFFER_Size) = f.getD 1 0 :=
    hbytes 1 (by omega)
  have hcopy := copy_eq_of_holds rb.buffer rb.reader f hbytes
  have hc := rx_process_complete rb hwf f.length (by rw [hb0, hb1]; exact hlen) (by omega)
    (by rw [hb0]; exact hop) havail
    (by
      intro k hk1 hk
      rw [hbytes k hk]
      exact hclean k hk hk1)
  rw [hcopy, if_neg (not_not.mpr hck), hb0] at hc
  exact hc

/-- For a frame with room for its framing bytes the call made by the framer
hands over exactly the key and the payload of the frame. -/
theorem notify_call_delivers (f : List Nat) (hv : valid_frame f) (hroom : frame_has_room f) :
    delivers (loconet_rx_notify_call (f.getD 0 0) f f.length) f ∧
    (loconet_rx_notify_call (f.getD 0 0) f f.length).in_bounds := by
  have h2 := valid_frame_length f hv
  have hlen256 : f.length < 256 := by
    obtain ⟨hb, _, hlen, _, _⟩ := hv
    have h1 : f.getD 1 0 < 256 := by
      rw [List.getD_eq_getElem _ _ (by omega)]
      exact hb _ (List.getElem_mem _)
    rw [hlen]
    unfold loconet_rx_message_size
    split <;> omega
  unfold frame_has_room at hroom
  unfold delivers loconet_rx_notify_call frame_key frame_payload frame_header_size
    LOCONET_RX_NOTIFY_Call.payload LOCONET_RX_NOTIFY_Call.in_bounds opcode_bits_NUMBER
  by_cases h7 : opcode_bits_OPCODE (f.getD 0 0) = 7
  · have h3 := hroom h7
    simp only [if_pos h7, List.length_dropLast, List.length_drop, List.dropLast_eq_take, true_and]
    have : (f.length + 256 - 3) % 256 = f.length - 2 - 1 := by omega
    rw [this]
    refine ⟨⟨?_, rfl⟩, by omega⟩
    rw [List.length_take, List.length_drop]
    omega
  · simp only [if_neg h7, List.length_dropLast, List.length_drop, List.dropLast_eq_take, true_and]
    have : (f.length + 256 - 2) % 256 = f.length - 1 - 1 := by omega
    rw [this]
    refine ⟨⟨?_, rfl⟩, by omega⟩
    rw [List.length_take, List.length_drop]
    omega

theorem checksum_empty_window (buffer : Nat → Nat) (index : Nat) :
    loconet_calc_checksum (loconet_rx_copy buffer index 0) 0 ≠ 0 := by
  simp [loconet_rx_copy, loconet_calc_checksum, loconet_calc_checksum_loop]

/-- A candidate frame of size `0` fails the checksum check and is never
consumed: the call changes nothing. -/
theorem rx_process_zero_length_stuck (rb : LOCONET_RX_RINGBUFFER_Type) (hwf : ringbuffer_wf rb)
    (havail : 2 ≤ loconet_rx_available rb)
    (hop : has_opcode_flag (rb.buffer rb.reader))
    (hzero : loconet_rx_message_size (rb.buffer rb.reader)
      (rb.buffer ((rb.reader + 1) % LOCONET_RX_RINGBUFFER_Size)) = 0) :
    loconet_rx_process rb = ⟨0, rb, none⟩ := by
  have hc := rx_process_complete rb hwf 0 hzero.symm havail hop (by omega)
    (fun k h1 h2 => by omega)
  rw [if_pos (checksum_empty_window rb.buffer rb.reader)] at hc
  rw [hc]
  have hr : rb.reader % 64 = rb.reader := Nat.mod_eq_of_lt hwf.1
  simp [ringbuffer_advance, LOCONET_RX_RINGBUFFER_Size, hr]

/-- A complete candidate frame of at least one byte whose checksum fails is
dropped: no observer is notified, the result is `0` and the reader moves. -/
theorem rx_process_checksum_failure (rb : LOCONET_RX_RINGBUFFER_Type) (hwf : ringbuffer_wf rb)
    (m : Nat)
    (hm : m = loconet_rx_message_size (rb.buffer rb.reader)
      (rb.buffer ((rb.reader + 1) % LOCONET_RX_RINGBUFFER_Size)))
    (havail : 2 ≤ loconet_rx_available rb)
    (hop : has_opcode_flag (rb.buffer rb.reader))
    (hcomplete : m ≤ loconet_rx_available rb)
    (hclean : ∀ k, 1 ≤ k → k < m →
      ¬ has_opcode_flag (rb.buffer ((rb.reader + k) % LOCONET_RX_RINGBUFFER_Size)))
    (hck : loconet_calc_checksum (loconet_rx_copy rb.buffer rb.reader m) m ≠ 0)
    (hpos : 1 ≤ m) :
    loconet_rx_process rb = ⟨0, ringbuffer_advance rb m, none⟩ ∧
    (ringbuffer_advance rb m).reader ≠ rb.reader := by
  have hc := rx_process_complete rb hwf m hm havail hop hcomplete hclean
  rw [if_pos hck] at hc
  refine ⟨hc, ?_⟩
  have ha := available_le rb
  have hr : rb.reader < 64 := hwf.1
  simp only [ringbuffer_advance, LOCONET_RX_RINGBUFFER_Size]
  omega

/-- A call that returns non-zero keeps the cursor invariant and strictly
decreases the number of unread bytes. -/
theorem rx_process_ret_decreases (rb : LOCONET_RX_RINGBUFFER_Type) (hwf : ringbuffer_wf rb)
    (h : (loconet_rx_process rb).ret ≠ 0) :
    ringbuffer_wf (loconet_rx_process rb).ringbuffer ∧
    loconet_rx_available (loconet_rx_process rb).ringbuffer < loconet_rx_available rb := by
  rcases rx_process_cases rb hwf with hc | hc | ⟨k, hk1, hk2, hc⟩ | ⟨m, _, _, _, hc⟩ |
    ⟨m, hm1, _, hm3, hc⟩
  · rw [hc] at h; simp at h
  · rw [hc] at h; simp at h
  · rw [hc]
    refine ⟨advance_wf rb hwf k, ?_⟩
    simp only
    rw [advance_available rb hwf k (by omega)]
    omega
  · rw [hc] at h; simp at h
  · rw [hc]
    refine ⟨advance_wf rb hwf m, ?_⟩
    simp only
    rw [advance_available rb hwf m hm1]
    have hm0 : m ≠ 0 := by
      rintro rfl
      exact absurd hm3 (checksum_empty_window rb.buffer rb.reader)
    omega

/-- The loop `while (loconet_rx_process());` stops after at most as many calls
returning non-zero as there are unread bytes. -/
theorem loop_rx_terminates (fuel : Nat) (rb : LOCONET_RX_RINGBUFFER_Type)
    (hwf : ringbuffer_wf rb) (hfuel : loconet_rx_available rb < fuel) :
    ∃ res, loconet_loop_rx fuel rb = some res := by
  induction fuel generalizing rb with
  | zero => omega
  | succ n ih =>
    simp only [loconet_loop_rx]
    by_cases hret : (loconet_rx_process rb).ret ≠ 0
    · obtain ⟨hwf', hlt⟩ := rx_process_ret_decreases rb hwf hret
      obtain ⟨res, hres⟩ := ih (loconet_rx_process rb).ringbuffer hwf' (by omega)
      rw [if_pos hret, hres]
      exact ⟨_, rfl⟩
    · rw [if_neg hret]
      exact ⟨_, rfl⟩

/-- The loop dispatches, in order, the back-to-back valid frames that start at
the reader. -/
theorem loop_rx_frames (fs : List (List Nat)) (fuel : Nat) (rb : LOCONET_RX_RINGBUFFER_Type)
    (hwf : ringbuffer_wf rb) (hfuel : loconet_rx_available rb < fuel)
    (hvalid : ∀ f ∈ fs, valid_frame f) (hh : ringbuffer_holds rb fs.flatten) :
    ∃ rb' rest, loconet_loop_rx fuel rb = some (rb',
      fs.map (fun f => loconet_rx_notify_call (f.getD 0 0) f f.length) ++ rest) := by
  induction fs generalizing fuel rb with
  | nil =>
    obtain ⟨res, hres⟩ := loop_rx_terminates fuel rb hwf hfuel
    exact ⟨res.1, res.2, by simpa using hres⟩
  | cons f fs ih =>
    have hvf := hvalid f (List.mem_cons_self _ _)
    have h2 := valid_frame_length f hvf
    rw [List.flatten_cons] at hh
    have hacc := rx_process_valid_frame rb hwf f hvf (holds_left rb _ _ hh)
    have hlen : f.length ≤ loconet_rx_available rb := (holds_left rb _ _ hh).1
    cases fuel with
    | zero => omega
    | succ n =>
      have hav := advance_available rb hwf f.length hlen
      obtain ⟨rb', rest, hres⟩ := ih n (ringbuffer_advance rb f.length)
        (advance_wf rb hwf _) (by omega)
        (fun g hg => hvalid g (List.mem_cons_of_mem _ hg)) (holds_advance rb hwf _ _ hh)
      refine ⟨rb', rest, ?_⟩
      simp only [loconet_loop_rx, hacc, hres]
      simp

/-- Two valid frames back to back, each with room for its framing bytes, are
delivered by two successive calls, and the reader ends behind the second. -/
theorem rx_process_two_frames (rb : LOCONET_RX_RINGBUFFER_Type) (hwf : ringbuffer_wf rb)
    (f1 f2 : List Nat) (hv1 : valid_frame f1) (hv2 : valid_frame f2)
    (hroom1 : frame_has_room f1) (hroom2 : frame_has_room f2)
    (hh : ringbuffer_holds rb (f1 ++ f2)) :
    ∃ c1 c2,
      loconet_rx_process rb = ⟨1, ringbuffer_advance rb f1.length, some c1⟩ ∧
      loconet_rx_process (ringbuffer_advance rb f1.length)
        = ⟨1, ringbuffer_advance rb (f1.length + f2.length), some c2⟩ ∧
      c1.data = f1 ∧ delivers c1 f1 ∧ c1.in_bounds ∧
      c2.data = f2 ∧ delivers c2 f2 ∧ c2.in_bounds := by
  have hacc1 := rx_process_valid_frame rb hwf f1 hv1 (holds_left rb _ _ hh)
  have hacc2 := rx_process_valid_frame (ringbuffer_advance rb f1.length)
    (advance_wf rb hwf _) f2 hv2 (holds_advance rb hwf _ _ hh)
  have hadv : ringbuffer_advance (ringbuffer_advance rb f1.length) f2.length
      = ringbuffer_advance rb (f1.length + f2.length) := by
    simp only [ringbuffer_advance, LOCONET_RX_RINGBUFFER_Size]
    congr 1
    omega
  rw [hadv] at hacc2
  have hdata : ∀ f : List Nat, (loconet_rx_notify_call (f.getD 0 0) f f.length).data = f := by
    intro f
    unfold loconet_rx_notify_call
    split <;> rfl
  exact ⟨_, _, hacc1, hacc2, hdata f1, (notify_call_delivers f1 hv1 hroom1).1,
    (notify_call_delivers f1 hv1 hroom1).2, hdata f2, (notify_call_delivers f2 hv2 hroom2).1,
    (notify_call_delivers f2 hv2 hroom2).2⟩

/-- A stray byte before a valid frame with room for its framing bytes: the
first call discards exactly that byte, the next call delivers the frame. -/
theorem rx_process_stray_then_frame (rb : LOCONET_RX_RINGBUFFER_Type) (hwf : ringbuffer_wf rb)
    (b : Nat) (f : List Nat) (hb : ¬ has_opcode_flag b) (hv : valid_frame f)
    (hroom : frame_has_room f) (hh : ringbuffer_holds rb (b :: f)) :
    ∃ c,
      loconet_rx_process rb = ⟨0, ringbuffer_advance rb 1, none⟩ ∧
      loconet_rx_process (ringbuffer_advance rb 1)
        = ⟨1, ringbuffer_advance rb (1 + f.length), some c⟩ ∧
      c.data = f ∧ delivers c f ∧ c.in_bounds := by
  have h2 := valid_frame_length f hv
  have hlen : (b :: f).length ≤ loconet_rx_available rb := hh.1
  rw [List.length_cons] at hlen
  have hb0 : rb.buffer rb.reader = b := by
    have := hh.2 0 (by simp)
    rwa [Nat.add_zero, show rb.reader % LOCONET_RX_RINGBUFFER_Size = rb.reader from
      Nat.mod_eq_of_lt hwf.1] at this
  have hskip := rx_process_skip rb hwf (by omega) (by rw [hb0]; exact hb)
  have hh' : ringbuffer_holds rb ([b] ++ f) := hh
  have hacc := rx_process_valid_frame (ringbuffer_advance rb 1)
    (advance_wf rb hwf _) f hv (holds_advance rb hwf [b] f hh')
  have hadv : ringbuffer_advance (ringbuffer_advance rb 1) f.length
      = ringbuffer_advance rb (1 + f.length) := by
    simp only [ringbuffer_advance, LOCONET_RX_RINGBUFFER_Size]
    congr 1
    omega
  rw [hadv] at hacc
  have hdata : (loconet_rx_notify_call (f.getD 0 0) f f.length).data = f := by
    unfold loconet_rx_notify_call
    split <;> rfl
  exact ⟨_, hskip, hacc, hdata, (notify_call_delivers f hv hroom).1,
    (notify_call_delivers f hv hroom).2⟩

/-! ### C1, C2 -/

/-- C1: for every byte sequence `d` of length 1..254, the checksum of `d`
followed by the byte `loconet_calc_checksum(d, |d|)` is `0`: a correctly
appended checksum always verifies. -/
theorem checksum_appended_verifies (d : List Nat)
    (h1 : 1 ≤ d.length) (h2 : d.length ≤ 254) :
    loconet_calc_checksum (d ++ [loconet_calc_checksum d d.length]) (d.length + 1) = 0 := by
  have hlen : (d ++ [loconet_calc_checksum d d.length]).length = d.length + 1 := by simp
  have h := checksum_eq_xor_all (d ++ [loconet_calc_checksum d d.length]) (by omega)
  rw [hlen] at h
  rw [h, xor_all_append_singleton, checksum_eq_xor_all d (by omega),
    Nat.xor_comm 255 (xor_all d), Nat.xor_cancel_left, Nat.xor_self]

/-- C1, witness: the three bytes `A0 03 10` with their checksum appended. -/
theorem checksum_appended_verifies_witness :
    loconet_calc_checksum ([0xA0, 0x03, 0x10] ++ [loconet_calc_checksum [0xA0, 0x03, 0x10] 3]) 4 = 0 :=
  checksum_appended_verifies [0xA0, 0x03, 0x10] (by decide) (by decide)

/-- C2: for every frame `f` of length 1..255 whose checksum verifies
(`loconet_calc_checksum(f, |f|) = 0`), flipping exactly one bit of exactly
one byte gives a frame whose checksum is non-zero, so the framer's
checksum check fails on it. -/
theorem checksum_detects_single_bit_flip (f : List Nat) (pos bit : Nat)
    (h1 : 1 ≤ f.length) (h2 : f.length ≤ 255)
    (hvalid : loconet_calc_checksum f f.length = 0)
    (hpos : pos < f.length) (_hbit : bit < 8) :
    loconet_calc_checksum (flip_bit f pos bit) (flip_bit f pos bit).length ≠ 0 := by
  have hlen : (flip_bit f pos bit).length = f.length := by simp [flip_bit]
  rw [checksum_eq_xor_all _ (by omega), xor_all_flip_bit f pos bit hpos, ← Nat.xor_assoc,
    ← checksum_eq_xor_all f (by omega), hvalid, Nat.zero_xor]
  exact Nat.pos_iff_ne_zero.mp (Nat.pos_pow_of_pos bit (by decide))

/-- C2, witness: bit 5 of the third byte of the valid frame `A0 03 10 4C`
flipped. -/
theorem checksum_detects_single_bit_flip_witness :
    loconet_calc_checksum (flip_bit [0xA0, 0x03, 0x10, 0x4C] 2 5)
      (flip_bit [0xA0, 0x03, 0x10, 0x4C] 2 5).length ≠ 0 :=
  checksum_detects_single_bit_flip [0xA0, 0x03, 0x10, 0x4C] 2 5
    (by decide) (by decide) (by decide) (by decide) (by decide)


/-! ### C3 -/

/-- C3, counterexample: the two-byte frame `81 7E` at the reader is accepted
(the call returns `1` and notifies the observers of key `1`), yet the plain
XOR of its two bytes is not `0`. -/
theorem accepted_frame_plain_xor_nonzero :
    ringbuffer_wf (ringbuffer_of [0x81, 0x7E] 2 0) ∧
    (loconet_rx_process (ringbuffer_of [0x81, 0x7E] 2 0)).ret = 1 ∧
    (loconet_rx_process (ringbuffer_of [0x81, 0x7E] 2 0)).notify
      = some ⟨1, [0x81, 0x7E], 1, 0⟩ ∧
    xor_all [0x81, 0x7E] ≠ 0 := by
  decide

/-- C3 (amended): for every frame that `loconet_rx_process` accepts as valid
and dispatches to the observers, the frame is the `message_size` bytes that
start at the reader, `loconet_calc_checksum` (which starts from `0xFF`) gives
`0` on it, and the plain XOR of all its bytes, from the opcode byte through
the checksum byte, equals `0xFF`. -/
theorem accepted_frame_xors_to_ff (rb : LOCONET_RX_RINGBUFFER_Type) (hwf : ringbuffer_wf rb)
    (c : LOCONET_RX_NOTIFY_Call) (h : (loconet_rx_process rb).notify = some c) :
    c.data.length = loconet_rx_message_size (rb.buffer rb.reader)
      (rb.buffer ((rb.reader + 1) % LOCONET_RX_RINGBUFFER_Size)) ∧
    c.data = loconet_rx_copy rb.buffer rb.reader c.data.length ∧
    loconet_calc_checksum c.data c.data.length = 0 ∧
    xor_all c.data = 0xFF := by
  obtain ⟨m, hm1, hm2, hc, hck, -, -⟩ := rx_process_notify_inv rb hwf c h
  have ha := available_le rb
  have hdata : c.data = loconet_rx_copy rb.buffer rb.reader m := by
    rw [hc]
    unfold loconet_rx_notify_call
    split <;> rfl
  have hlen : c.data.length = m := by rw [hdata, copy_length]
  rw [← hdata, ← hlen] at hck
  refine ⟨by rw [hlen, hm2], by rw [hlen]; exact hdata, hck, ?_⟩
  rw [checksum_eq_xor_all c.data (by omega)] at hck
  exact (Nat.xor_eq_zero.mp hck).symm

/-- C3 (amended), witness: the accepted frame `A0 03 10 4C`. -/
theorem accepted_frame_xors_to_ff_witness :
    ([0xA0, 0x03, 0x10, 0x4C] : List Nat).length = loconet_rx_message_size 0xA0 0x03 ∧
    xor_all [0xA0, 0x03, 0x10, 0x4C] = 0xFF :=
  have h := accepted_frame_xors_to_ff (ringbuffer_of [0xA0, 0x03, 0x10, 0x4C] 4 0) (by decide)
    ⟨0, [0xA0, 0x03, 0x10, 0x4C], 1, 2⟩ (by decide)
  ⟨h.1, h.2.2.2⟩

/-! ### C4, C5, C6: frames of the variable-length class shorter than three bytes -/

/-- C4, failing input: the ring buffer holds the valid frames `FD 02` and
`81 7E` back to back. The first call returns `1`, but the call of
`loconet_rx_notify` it makes passes `&data[2]` of the two-byte copy and the
size `255` (`message_size - 3` in 8 bits): the observers are not handed the
(empty) payload of the first frame, and what they are told to read lies
outside the copied frame. -/
theorem two_frames_first_short_variable :
    valid_frame [0xFD, 0x02] ∧ valid_frame [0x81, 0x7E] ∧
    ringbuffer_wf (ringbuffer_of [0xFD, 0x02, 0x81, 0x7E] 4 0) ∧
    ringbuffer_holds (ringbuffer_of [0xFD, 0x02, 0x81, 0x7E] 4 0)
      ([0xFD, 0x02] ++ [0x81, 0x7E]) ∧
    (loconet_rx_process (ringbuffer_of [0xFD, 0x02, 0x81, 0x7E] 4 0)).ret = 1 ∧
    (loconet_rx_process (ringbuffer_of [0xFD, 0x02, 0x81, 0x7E] 4 0)).ringbuffer.reader = 2 ∧
    (loconet_rx_process (ringbuffer_of [0xFD, 0x02, 0x81, 0x7E] 4 0)).notify
      = some ⟨29, [0xFD, 0x02], 2, 255⟩ ∧
    frame_payload [0xFD, 0x02] = [] ∧
    ¬ delivers ⟨29, [0xFD, 0x02], 2, 255⟩ [0xFD, 0x02] ∧
    ¬ (⟨29, [0xFD, 0x02], 2, 255⟩ : LOCONET_RX_NOTIFY_Call).in_bounds := by
  decide

/-- C5, failing input: the ring buffer holds the stray byte `00` followed by
the valid frame `FD 02`. The first call discards the stray byte and returns
`0`; the second call returns `1`, but notifies the observers with `&data[2]`
of the two-byte copy and the size `255` instead of the (empty) payload of the
frame. -/
theorem stray_byte_then_short_variable_frame :
    ¬ has_opcode_flag 0x00 ∧ valid_frame [0xFD, 0x02] ∧
    ringbuffer_wf (ringbuffer_of [0x00, 0xFD, 0x02] 3 0) ∧
    ringbuffer_holds (ringbuffer_of [0x00, 0xFD, 0x02] 3 0) (0x00 :: [0xFD, 0x02]) ∧
    (loconet_rx_process (ringbuffer_of [0x00, 0xFD, 0x02] 3 0)).ret = 0 ∧
    (loconet_rx_process (ringbuffer_of [0x00, 0xFD, 0x02] 3 0)).notify = none ∧
    (loconet_rx_process (ringbuffer_of [0x00, 0xFD, 0x02] 3 0)).ringbuffer.reader = 1 ∧
    (loconet_rx_process (ringbuffer_of [0x00, 0xFD, 0x02] 3 1)).ret = 1 ∧
    (loconet_rx_process (ringbuffer_of [0x00, 0xFD, 0x02] 3 1)).notify
      = some ⟨29, [0xFD, 0x02], 2, 255⟩ ∧
    ¬ delivers ⟨29, [0xFD, 0x02], 2, 255⟩ [0xFD, 0x02] := by
  decide

/-- C6, failing input: the reader points at the opcode byte `FF` of the
variable-length class, the second byte gives the frame length `1`, the frame
`FF` is available, has no further byte and its checksum verifies. The call
returns `1` and moves the reader by `1`, but it calls `loconet_rx_notify` with
`&data[2]` of the one-byte copy and the size `254`, which is not
`frame length - 3` and does not end before the checksum byte. The same happens
with size `255` for the two-byte frame `FD 02`. -/
theorem short_variable_frame_payload_out_of_bounds :
    ringbuffer_wf (ringbuffer_of [0xFF, 0x01] 2 0) ∧
    has_opcode_flag 0xFF ∧ opcode_bits_OPCODE 0xFF = 7 ∧
    loconet_rx_message_size 0xFF 0x01 = 1 ∧
    loconet_calc_checksum [0xFF] 1 = 0 ∧
    (loconet_rx_process (ringbuffer_of [0xFF, 0x01] 2 0)).ret = 1 ∧
    (loconet_rx_process (ringbuffer_of [0xFF, 0x01] 2 0)).ringbuffer.reader = 1 ∧
    (loconet_rx_process (ringbuffer_of [0xFF, 0x01] 2 0)).notify
      = some ⟨31, [0xFF], 2, 254⟩ ∧
    ¬ (⟨31, [0xFF], 2, 254⟩ : LOCONET_RX_NOTIFY_Call).in_bounds ∧
    (loconet_rx_process (ringbuffer_of [0xFD, 0x02] 2 0)).notify
      = some ⟨29, [0xFD, 0x02], 2, 255⟩ ∧
    ¬ (⟨29, [0xFD, 0x02], 2, 255⟩ : LOCONET_RX_NOTIFY_Call).in_bounds := by
  decide

/-! ### C7 -/

/-- C7, failing input: the reader points at the opcode byte `E0` of the
variable-length class and the length byte is `0`. The candidate frame of
`0` bytes is complete, its checksum (`0xFF` over no bytes) fails, and the call
returns `0` without notifying, but the reader is "advanced" by `0`: it does
not move, so every later call examines the same bytes again, also after more
bytes have arrived. -/
theorem zero_length_frame_not_dropped :
    ringbuffer_wf (ringbuffer_of [0xE0, 0x00] 2 0) ∧
    has_opcode_flag 0xE0 ∧
    loconet_rx_message_size 0xE0 0x00 = 0 ∧
    loconet_calc_checksum (loconet_rx_copy (ringbuffer_of [0xE0, 0x00] 2 0).buffer 0 0) 0 ≠ 0 ∧
    (loconet_rx_process (ringbuffer_of [0xE0, 0x00] 2 0)).ret = 0 ∧
    (loconet_rx_process (ringbuffer_of [0xE0, 0x00] 2 0)).notify = none ∧
    (loconet_rx_process (ringbuffer_of [0xE0, 0x00] 2 0)).ringbuffer.reader = 0 ∧
    (loconet_rx_process (ringbuffer_of [0xE0, 0x00, 0x81, 0x7E] 4 0)).ret = 0 ∧
    (loconet_rx_process (ringbuffer_of [0xE0, 0x00, 0x81, 0x7E] 4 0)).ringbuffer.reader = 0 := by
  decide

/-! ### C8 -/

/-- C8: whenever the reader points at an opcode byte with at least 2 bytes
available and some byte strictly after the opcode and before
min(write cursor, expected end of frame) has its top bit set,
`loconet_rx_process` abandons the candidate frame: it sets the reader to the
position of the first such byte, notifies no observer and returns `1`, whether
or not the candidate frame is completely received. -/
theorem interior_opcode_abandons_candidate (rb : LOCONET_RX_RINGBUFFER_Type)
    (hwf : ringbuffer_wf rb) (k : Nat)
    (havail : 2 ≤ loconet_rx_available rb)
    (hop : has_opcode_flag (rb.buffer rb.reader))
    (hk1 : 1 ≤ k) (hkw : k < loconet_rx_available rb)
    (hkm : k < loconet_rx_message_size (rb.buffer rb.reader)
      (rb.buffer ((rb.reader + 1) % LOCONET_RX_RINGBUFFER_Size)))
    (hflag : has_opcode_flag (rb.buffer ((rb.reader + k) % LOCONET_RX_RINGBUFFER_Size))) :
    ∃ first, 1 ≤ first ∧ first ≤ k ∧
      has_opcode_flag (rb.buffer ((rb.reader + first) % LOCONET_RX_RINGBUFFER_Size)) ∧
      (∀ j, 1 ≤ j → j < first →
        ¬ has_opcode_flag (rb.buffer ((rb.reader + j) % LOCONET_RX_RINGBUFFER_Size))) ∧
      loconet_rx_process rb =
        ⟨1, { rb with reader := (rb.reader + first) % LOCONET_RX_RINGBUFFER_Size }, none⟩ := by
  have hex : ∃ j, 1 ≤ j ∧
      has_opcode_flag (rb.buffer ((rb.reader + j) % LOCONET_RX_RINGBUFFER_Size)) :=
    ⟨k, hk1, hflag⟩
  obtain ⟨h1, h2⟩ := Nat.find_spec hex
  have hle : Nat.find hex ≤ k := Nat.find_min' hex ⟨hk1, hflag⟩
  have hfirst : ∀ j, 1 ≤ j → j < Nat.find hex →
      ¬ has_opcode_flag (rb.buffer ((rb.reader + j) % LOCONET_RX_RINGBUFFER_Size)) :=
    fun j hj1 hj hf => Nat.find_min hex hj ⟨hj1, hf⟩
  exact ⟨Nat.find hex, h1, hle, h2, hfirst,
    rx_process_abandon rb hwf (Nat.find hex) havail hop h1 (by omega) (by omega) h2 hfirst⟩

/-- C8, witness: the candidate `A0 03 ..` of four bytes is interrupted by the
opcode byte `81` at offset 2, with only three bytes received. -/
theorem interior_opcode_abandons_candidate_witness :
    ∃ first, 1 ≤ first ∧ first ≤ 2 ∧
      has_opcode_flag ((ringbuffer_of [0xA0, 0x03, 0x81] 3 0).buffer
        (((ringbuffer_of [0xA0, 0x03, 0x81] 3 0).reader + first) % LOCONET_RX_RINGBUFFER_Size)) ∧
      (∀ j, 1 ≤ j → j < first →
        ¬ has_opcode_flag ((ringbuffer_of [0xA0, 0x03, 0x81] 3 0).buffer
          (((ringbuffer_of [0xA0, 0x03, 0x81] 3 0).reader + j) % LOCONET_RX_RINGBUFFER_Size))) ∧
      loconet_rx_process (ringbuffer_of [0xA0, 0x03, 0x81] 3 0) =
        ⟨1, { ringbuffer_of [0xA0, 0x03, 0x81] 3 0 with
          reader := ((ringbuffer_of [0xA0, 0x03, 0x81] 3 0).reader + first)
            % LOCONET_RX_RINGBUFFER_Size }, none⟩ :=
  interior_opcode_abandons_candidate (ringbuffer_of [0xA0, 0x03, 0x81] 3 0) (by decide) 2
    (by decide) (by decide) (by decide) (by decide) (by decide) (by decide)

/-! ### C9 -/

/-- C9, counterexample: the ring buffer holds the stray byte `00` followed by
the complete valid frame `81 7E`. The loop `while (loconet_rx_process());`
stops after its first call, which discards the stray byte and returns `0`:
no observer has been notified and the frame is still unread. -/
theorem loop_stops_before_valid_frame :
    valid_frame [0x81, 0x7E] ∧
    ringbuffer_wf (ringbuffer_of [0x00, 0x81, 0x7E] 3 0) ∧
    ringbuffer_holds (ringbuffer_of [0x00, 0x81, 0x7E] 3 0) (0x00 :: [0x81, 0x7E]) ∧
    (loconet_loop_rx 64 (ringbuffer_of [0x00, 0x81, 0x7E] 3 0)).map (fun res => res.2)
      = some [] ∧
    (loconet_loop_rx 64 (ringbuffer_of [0x00, 0x81, 0x7E] 3 0)).map (fun res => res.1.reader)
      = some 1 ∧
    (loconet_loop_rx 64 (ringbuffer_of [0x00, 0x81, 0x7E] 3 0)).map
      (fun res => loconet_rx_available res.1) = some 2 := by
  decide

/-- C9 (amended): one polling iteration, i.e. calling `loconet_rx_process`
repeatedly until it returns `0` while no new bytes are pushed, always
terminates (within 64 calls) and dispatches to the observers, in order, every
frame of the run of back-to-back complete valid frames that starts at the
reader (each with room for its framing bytes); valid frames behind a stray
byte or a dropped frame are left for a later iteration. -/
theorem loop_dispatches_leading_frames (rb : LOCONET_RX_RINGBUFFER_Type)
    (hwf : ringbuffer_wf rb) (fs : List (List Nat))
    (hvalid : ∀ f ∈ fs, valid_frame f ∧ frame_has_room f)
    (hh : ringbuffer_holds rb fs.flatten) :
    ∃ rb' calls, loconet_loop_rx 64 rb = some (rb', calls) ∧
      fs.length ≤ calls.length ∧
      List.Forall₂ (fun c f => c.data = f ∧ delivers c f ∧ c.in_bounds)
        (calls.take fs.length) fs := by
  have ha := available_le rb
  obtain ⟨rb', rest, hres⟩ := loop_rx_frames fs 64 rb hwf (by omega)
    (fun f hf => (hvalid f hf).1) hh
  refine ⟨rb', _, hres, by simp, ?_⟩
  rw [List.take_left' (by simp), List.forall₂_map_left_iff, List.forall₂_same]
  intro f hf
  have hdata : (loconet_rx_notify_call (f.getD 0 0) f f.length).data = f := by
    unfold loconet_rx_notify_call
    split <;> rfl
  exact ⟨hdata, notify_call_delivers f (hvalid f hf).1 (hvalid f hf).2⟩

/-- C9 (amended), witness: the frames `81 7E`, `A0 03 10 4C` and `E5 03 19`
back to back. -/
theorem loop_dispatches_leading_frames_witness :
    ∃ rb' calls,
      loconet_loop_rx 64 (ringbuffer_of [0x81, 0x7E, 0xA0, 0x03, 0x10, 0x4C, 0xE5, 0x03, 0x19] 9 0)
        = some (rb', calls) ∧
      [[0x81, 0x7E], [0xA0, 0x03, 0x10, 0x4C], [0xE5, 0x03, 0x19]].length ≤ calls.length ∧
      List.Forall₂ (fun c f => c.data = f ∧ delivers c f ∧ c.in_bounds)
        (calls.take [[0x81, 0x7E], [0xA0, 0x03, 0x10, 0x4C], [0xE5, 0x03, 0x19]].length)
        [[0x81, 0x7E], [0xA0, 0x03, 0x10, 0x4C], [0xE5, 0x03, 0x19]] :=
  loop_dispatches_leading_frames
    (ringbuffer_of [0x81, 0x7E, 0xA0, 0x03, 0x10, 0x4C, 0xE5, 0x03, 0x19] 9 0) (by decide)
    [[0x81, 0x7E], [0xA0, 0x03, 0x10, 0x4C], [0xE5, 0x03, 0x19]] (by decide) (by decide)

/-! ### C10 -/

/-- Reading back a slot other than `0` and `2` after an acknowledged write
returns the written value. -/
theorem cv_round_trip_other_slots (write_allowed : Nat → Nat → Nat) (st : LOCONET_CV_State)
    (n v : Nat) (hn : n < LOCONET_CV_NUMBERS) (h0 : n ≠ 0) (h1 : n ≠ 1) (h2 : n ≠ 2)
    (hok : (loconet_cv_set write_allowed st n v).ack = LOCONET_CV_ACK_OK) :
    loconet_cv_get (loconet_cv_set write_allowed st n v).state.eeprom n = v := by
  unfold LOCONET_CV_NUMBERS at hn
  have hpage : n / LOCONET_CV_PER_PAGE = 0 := by unfold LOCONET_CV_PER_PAGE; omega
  have hidx : n % LOCONET_CV_PER_PAGE = n := by unfold LOCONET_CV_PER_PAGE; omega
  have hge : ¬ n ≥ LOCONET_CV_NUMBERS := by unfold LOCONET_CV_NUMBERS; omega
  simp only [loconet_cv_set, if_neg h1, if_neg hge, hpage, hidx] at hok ⊢
  have hn256 : n % 256 = n := by omega
  simp only [Nat.zero_mod, hn256, if_neg h0, if_neg h2] at hok ⊢
  split_ifs with hw
  · simp [loconet_cv_get, hge, h0, h2, hpage, hidx, eeprom_emulator_read_page,
      eeprom_emulator_write_page, eeprom_emulator_commit_page_buffer]
  · rw [if_neg hw] at hok
    simp only [loconet_cv_get, if_neg hge, hpage, hidx, h0, h2, false_and, if_false]
    simp only [eeprom_emulator_read_page, not_and, not_not] at hw ⊢
    exact (hw hok).symm

/-- Reading back slot `0` or `2` after an acknowledged write returns the
written value when the device-class marker is in slot 1. -/
theorem cv_round_trip_configured (write_allowed : Nat → Nat → Nat) (st : LOCONET_CV_State)
    (n v : Nat) (hn : n = 0 ∨ n = 2)
    (hmarker : st.eeprom.pages 0 1 = LOCONET_CV_DEVICE_CLASS)
    (hok : (loconet_cv_set write_allowed st n v).ack = LOCONET_CV_ACK_OK) :
    loconet_cv_get (loconet_cv_set write_allowed st n v).state.eeprom n = v := by
  rcases hn with rfl | rfl
  · simp only [loconet_cv_set] at hok ⊢
    simp only [LOCONET_CV_NUMBERS, LOCONET_CV_PER_PAGE] at hok ⊢
    norm_num at hok ⊢
    split_ifs with hw
    · simp [loconet_cv_get, LOCONET_CV_NUMBERS, LOCONET_CV_PER_PAGE, eeprom_emulator_read_page,
        eeprom_emulator_write_page, eeprom_emulator_commit_page_buffer]
    · rw [if_neg hw] at hok
      simp only [not_and, not_not] at hw
      have := hw hok
      simp only [eeprom_emulator_read_page] at this
      simp [loconet_cv_get, LOCONET_CV_NUMBERS, LOCONET_CV_PER_PAGE, eeprom_emulator_read_page,
        hmarker, this]
  · simp only [loconet_cv_set] at hok ⊢
    simp only [LOCONET_CV_NUMBERS, LOCONET_CV_PER_PAGE] at hok ⊢
    norm_num at hok ⊢
    split_ifs with hw
    · simp [loconet_cv_get, LOCONET_CV_NUMBERS, LOCONET_CV_PER_PAGE, eeprom_emulator_read_page,
        eeprom_emulator_write_page, eeprom_emulator_commit_page_buffer, hmarker]
    · rw [if_neg hw] at hok
      simp only [not_and, not_not] at hw
      have := hw hok
      simp only [eeprom_emulator_read_page] at this
      simp [loconet_cv_get, LOCONET_CV_NUMBERS, LOCONET_CV_PER_PAGE, eeprom_emulator_read_page,
        hmarker, this]

/-- C10, failing input: on a factory-fresh store (every slot `0xFFFF`, so slot 1
is not the device class) `loconet_cv_set(2, 7)` returns the OK status `0x7F`,
stores `7` in slot 2, sets `Config.priority` to `7` and calls
`loconet_cv_written_event(2, 7)`, but slot 1 is left as it was (only a write
of slot 0 stamps the marker), so the following `loconet_cv_get(2)` returns the
initial priority `5`, not `7`. -/
theorem cv_priority_write_not_read_back :
    2 < LOCONET_CV_NUMBERS ∧
    (loconet_cv_set loconet_cv_write_allowed_dummy
      ⟨eeprom_filled 0xFFFF, ⟨0, 0, 0⟩, true⟩ 2 7).ack = LOCONET_CV_ACK_OK ∧
    (loconet_cv_set loconet_cv_write_allowed_dummy
      ⟨eeprom_filled 0xFFFF, ⟨0, 0, 0⟩, true⟩ 2 7).written_event = some (2, 7) ∧
    (loconet_cv_set loconet_cv_write_allowed_dummy
      ⟨eeprom_filled 0xFFFF, ⟨0, 0, 0⟩, true⟩ 2 7).state.config.PRIORITY = 7 ∧
    (loconet_cv_set loconet_cv_write_allowed_dummy
      ⟨eeprom_filled 0xFFFF, ⟨0, 0, 0⟩, true⟩ 2 7).state.eeprom.pages 0 2 = 7 ∧
    (loconet_cv_set loconet_cv_write_allowed_dummy
      ⟨eeprom_filled 0xFFFF, ⟨0, 0, 0⟩, true⟩ 2 7).state.eeprom.pages 0 1 = 0xFFFF ∧
    loconet_cv_get (loconet_cv_set loconet_cv_write_allowed_dummy
      ⟨eeprom_filled 0xFFFF, ⟨0, 0, 0⟩, true⟩ 2 7).state.eeprom 2 = 5 := by
  decide

/-! ### C11 -/

/-- C11: `loconet_cv_set(1, v)` returns the read-only status code `0x02` for
every value, and `loconet_cv_set(n, v)` returns the out-of-range status code
`0x01` for every slot index `n >= LOCONET_CV_NUMBERS`, whatever the
programming-mode flag is; in both cases the persistent store, Config and the
flag are unchanged and the value-written hook is not called. -/
theorem cv_set_rejects_marker_and_out_of_range (write_allowed : Nat → Nat → Nat)
    (st : LOCONET_CV_State) (n v : Nat) (hn : n = 1 ∨ LOCONET_CV_NUMBERS ≤ n) :
    (n = 1 → (loconet_cv_set write_allowed st n v).ack = 0x02) ∧
    (LOCONET_CV_NUMBERS ≤ n → (loconet_cv_set write_allowed st n v).ack = 0x01) ∧
    (loconet_cv_set write_allowed st n v).state = st ∧
    (loconet_cv_set write_allowed st n v).written_event = none := by
  rcases hn with rfl | hn
  · simp [loconet_cv_set, LOCONET_CV_ACK_ERROR_READONLY, LOCONET_CV_NUMBERS]
  · have h1 : n ≠ 1 := by unfold LOCONET_CV_NUMBERS at hn; omega
    simp [loconet_cv_set, h1, hn, LOCONET_CV_ACK_ERROR_OUTOFRANGE]

/-- C11, witness: slot 1 and slot 30 on a factory-fresh store in programming
mode. -/
theorem cv_set_rejects_marker_and_out_of_range_witness :
    (loconet_cv_set loconet_cv_write_allowed_dummy
      ⟨eeprom_filled 0xFFFF, ⟨3, 0, 5⟩, true⟩ 1 7).ack = 0x02 ∧
    (loconet_cv_set loconet_cv_write_allowed_dummy
      ⟨eeprom_filled 0xFFFF, ⟨3, 0, 5⟩, true⟩ 30 7).ack = 0x01 :=
  ⟨(cv_set_rejects_marker_and_out_of_range loconet_cv_write_allowed_dummy
      ⟨eeprom_filled 0xFFFF, ⟨3, 0, 5⟩, true⟩ 1 7 (by decide)).1 rfl,
   (cv_set_rejects_marker_and_out_of_range loconet_cv_write_allowed_dummy
      ⟨eeprom_filled 0xFFFF, ⟨3, 0, 5⟩, true⟩ 30 7 (by decide)).2.1 (by decide)⟩

/-! ### C12 -/

/-- C12: when the programming-mode flag is clear, `loconet_cv_process` on a
configuration-write request (request_id `0x20`, flags neither programming-on
nor programming-off, matching device class) leaves the persistent store,
Config and the programming-mode flag unchanged and makes no call at all:
neither a long-ack nor a response is enqueued, for every slot number and
value. -/
theorem cv_write_outside_programming_ignored (write_allowed : Nat → Nat → Nat)
    (st : LOCONET_CV_State) (msg : LOCONET_CV_MSG_Type) (opcode : Nat)
    (hprog : st.programming = false)
    (hclass : msg.device_class = LOCONET_CV_DEVICE_CLASS)
    (hon : msg.flags ≠ LOCONET_CV_FLG_PROG_ON)
    (hoff : msg.flags ≠ LOCONET_CV_FLG_PROG_OFF)
    (hreq : msg.request_id = LOCONET_CV_REQ_CFGWRITE) :
    loconet_cv_process write_allowed st msg opcode = ⟨st, []⟩ := by
  simp [loconet_cv_process, loconet_cv_prog_write, hclass, hon, hoff, hreq, hprog]

/-- C12, witness: a write of `7` to slot 2 outside programming mode. -/
theorem cv_write_outside_programming_ignored_witness :
    loconet_cv_process loconet_cv_write_allowed_dummy
      ⟨eeprom_filled 0xFFFF, ⟨3, 0, 5⟩, false⟩ ⟨1, 5, 0x20, 0, 0x4BA, 2, 7, 0⟩ 0xED
      = ⟨⟨eeprom_filled 0xFFFF, ⟨3, 0, 5⟩, false⟩, []⟩ :=
  cv_write_outside_programming_ignored loconet_cv_write_allowed_dummy
    ⟨eeprom_filled 0xFFFF, ⟨3, 0, 5⟩, false⟩ ⟨1, 5, 0x20, 0, 0x4BA, 2, 7, 0⟩ 0xED
    rfl (by decide) (by decide) (by decide) (by decide)

/-! ### C13 -/

/-- C13: migration fallback of `loconet_cv_get`. For every store whose slot 1
does not hold the device class `0x4BA`, `loconet_cv_get(0)` returns the
default address `3` and `loconet_cv_get(2)` returns the default priority `5`,
whatever is stored in those slots; when slot 1 holds `0x4BA`,
`loconet_cv_get(n)` returns the raw stored value of slot `n` (value
`n % LOCONET_CV_PER_PAGE` of page `n / LOCONET_CV_PER_PAGE`, which is value `n`
of page 0) for every `n < LOCONET_CV_NUMBERS`. -/
theorem cv_get_migration_fallback (e : EEPROM_Type) :
    (e.pages 0 1 ≠ 0x4BA → loconet_cv_get e 0 = 3 ∧ loconet_cv_get e 2 = 5) ∧
    (e.pages 0 1 = 0x4BA → ∀ n, n < LOCONET_CV_NUMBERS →
      loconet_cv_get e n = e.pages (n / LOCONET_CV_PER_PAGE) (n % LOCONET_CV_PER_PAGE) ∧
      loconet_cv_get e n = e.pages 0 n) := by
  refine ⟨fun h => ?_, fun h n hn => ?_⟩
  · simp [loconet_cv_get, LOCONET_CV_NUMBERS, LOCONET_CV_PER_PAGE, eeprom_emulator_read_page,
      LOCONET_CV_DEVICE_CLASS, LOCONET_CV_INITIAL_ADDRESS, LOCONET_CV_INITIAL_PRIORITY, h]
  · unfold LOCONET_CV_NUMBERS at hn
    have hpage : n / LOCONET_CV_PER_PAGE = 0 := by unfold LOCONET_CV_PER_PAGE; omega
    have hidx : n % LOCONET_CV_PER_PAGE = n := by unfold LOCONET_CV_PER_PAGE; omega
    have hge : ¬ n ≥ LOCONET_CV_NUMBERS := by unfold LOCONET_CV_NUMBERS; omega
    simp [loconet_cv_get, hge, hpage, hidx, eeprom_emulator_read_page,
      LOCONET_CV_DEVICE_CLASS, h]

/-- C13, witness: a factory-fresh store (every slot `0xFFFF`) and a store
whose slots all hold `0x4BA`. -/
theorem cv_get_migration_fallback_witness :
    (loconet_cv_get (eeprom_filled 0xFFFF) 0 = 3 ∧ loconet_cv_get (eeprom_filled 0xFFFF) 2 = 5) ∧
    loconet_cv_get (eeprom_filled 0x4BA) 7 = (eeprom_filled 0x4BA).pages 0 7 :=
  ⟨(cv_get_migration_fallback (eeprom_filled 0xFFFF)).1 (by decide),
   ((cv_get_migration_fallback (eeprom_filled 0x4BA)).2 rfl 7 (by decide)).2⟩

/-! ### C14 -/

/-- C14: end to end on a factory-fresh device (stored slot 1 differs from the
device class `0x4BA`), a CV read request for slot 0 delivered to
`loconet_cv_peer_xfer` (payload length 12, source KPU, matching device class,
flags 0, request_id not write) changes no global and causes exactly one call
of `loconet_tx_queue_n`, with opcode `0xE5`, whose 13 data bytes carry, after
undoing the MSB packing, the default address `3` in the `lncv_value` field,
whatever raw value the store holds in slot 0. -/
theorem peer_xfer_fresh_read_answers_default (write_allowed : Nat → Nat → Nat)
    (st : LOCONET_CV_State) (data : List Nat)
    (hsrc : data.getD 0 0 = LOCONET_CV_SRC_KPU)
    (hclass : (loconet_cv_unpack data).device_class = LOCONET_CV_DEVICE_CLASS)
    (hflags : (loconet_cv_unpack data).flags = 0)
    (hreq : (loconet_cv_unpack data).request_id ≠ LOCONET_CV_REQ_CFGWRITE)
    (hnum : (loconet_cv_unpack data).lncv_number = 0)
    (hfresh : st.eeprom.pages 0 1 ≠ LOCONET_CV_DEVICE_CLASS) :
    loconet_cv_peer_xfer write_allowed st data 12 =
      ⟨st, [.tx_queue_n 0xE5 1
        [15, 0x05, 0x49, 0x4B, 0x1F, 0x01, 0x3A, 0x04, 0, 0, 3, 0, 0] 13]⟩ ∧
    (loconet_cv_response_decode
      [15, 0x05, 0x49, 0x4B, 0x1F, 0x01, 0x3A, 0x04, 0, 0, 3, 0, 0]).lncv_value = 3 := by
  refine ⟨?_, by decide⟩
  have hsource : (loconet_cv_unpack data).source = LOCONET_CV_SRC_KPU := by
    cases data with
    | nil => exact absurd hsrc (by decide)
    | cons a rest =>
      simpa [loconet_cv_unpack, LOCONET_CV_MSG_of_bytes] using hsrc
  have hget : loconet_cv_get st.eeprom 0 = 3 := by
    simp [loconet_cv_get, LOCONET_CV_NUMBERS, LOCONET_CV_PER_PAGE, eeprom_emulator_read_page,
      LOCONET_CV_INITIAL_ADDRESS, hfresh]
  have hge : ¬ (0 ≥ LOCONET_CV_NUMBERS) := by decide
  simp only [loconet_cv_peer_xfer, hsrc, and_self, if_true, loconet_cv_process, hclass, ne_eq,
    not_true_eq_false, if_false, hflags, loconet_cv_prog_read, hnum, hge, loconet_cv_response,
    hsource, hget]
  rw [if_neg (by decide), if_neg (by decide), if_neg hreq]
  rfl

/-- C14, witness: the read request `01 05 00 21 01 3A 04 00 00 00 00 00` for
slot 0 of device class `0x4BA` on a store whose slots all hold `0xFFFF`. -/
theorem peer_xfer_fresh_read_answers_default_witness :
    loconet_cv_peer_xfer loconet_cv_write_allowed_dummy
      ⟨eeprom_filled 0xFFFF, ⟨3, 0, 5⟩, false⟩
      [0x01, 0x05, 0x00, 0x21, 0x01, 0x3A, 0x04, 0x00, 0x00, 0x00, 0x00, 0x00] 12 =
      ⟨⟨eeprom_filled 0xFFFF, ⟨3, 0, 5⟩, false⟩, [.tx_queue_n 0xE5 1
        [15, 0x05, 0x49, 0x4B, 0x1F, 0x01, 0x3A, 0x04, 0, 0, 3, 0, 0] 13]⟩ :=
  (peer_xfer_fresh_read_answers_default loconet_cv_write_allowed_dummy
    ⟨eeprom_filled 0xFFFF, ⟨3, 0, 5⟩, false⟩
    [0x01, 0x05, 0x00, 0x21, 0x01, 0x3A, 0x04, 0x00, 0x00, 0x00, 0x00, 0x00]
    (by decide) (by decide) (by decide) (by decide) (by decide) (by decide)).1

/-! ### C15 -/

/-- C15: a programming-on message (flags `0x80`, matching device class) sets
the programming-mode flag and enqueues one read-style response for slot 0
(a call of `loconet_tx_queue_n` carrying request_id `0x1F`, slot number 0 and
`loconet_cv_get(0)`) if and only if its lncv_number is 0 and its lncv_value is
`0xFFFF` or equals the currently configured `Config.address`; in every other
case the programming-mode flag, the store and Config are unchanged and no call
is made. -/
theorem prog_on_accepted_iff_addressed (write_allowed : Nat → Nat → Nat)
    (st : LOCONET_CV_State) (msg : LOCONET_CV_MSG_Type) (opcode : Nat)
    (hclass : msg.device_class = LOCONET_CV_DEVICE_CLASS)
    (hflags : msg.flags = LOCONET_CV_FLG_PROG_ON) :
    (msg.lncv_number = 0 ∧ (msg.lncv_value = 0xFFFF ∨ msg.lncv_value = st.config.ADDRESS) →
      loconet_cv_process write_allowed st msg opcode =
        ⟨{ st with programming := true },
          [.tx_queue_n 0xE5 1 (loconet_cv_response_data
            { source := LOCONET_CV_SRC_MODULE
              destination :=
                if msg.source = LOCONET_CV_SRC_KPU then LOCONET_CV_DST_UB_KPU else msg.source
              request_id := 0x1F
              most_significant_bits := 0
              device_class := msg.device_class
              lncv_number := 0
              lncv_value := loconet_cv_get st.eeprom 0
              flags := 0 }) 13]⟩) ∧
    (¬ (msg.lncv_number = 0 ∧
        (msg.lncv_value = 0xFFFF ∨ msg.lncv_value = st.config.ADDRESS)) →
      loconet_cv_process write_allowed st msg opcode = ⟨st, []⟩) ∧
    ((loconet_cv_process write_allowed st msg opcode).calls ≠ [] ↔
      (msg.lncv_number = 0 ∧
        (msg.lncv_value = 0xFFFF ∨ msg.lncv_value = st.config.ADDRESS))) := by
  have hcond : (msg.lncv_number ≠ 0 ∨
      (msg.lncv_value ≠ 0xFFFF ∧ msg.lncv_value ≠ st.config.ADDRESS)) ↔
      ¬ (msg.lncv_number = 0 ∧
        (msg.lncv_value = 0xFFFF ∨ msg.lncv_value = st.config.ADDRESS)) := by
    tauto
  have hproc : loconet_cv_process write_allowed st msg opcode = loconet_cv_prog_on st msg := by
    simp [loconet_cv_process, hclass, hflags]
  rw [hproc]
  by_cases h : msg.lncv_number = 0 ∧
      (msg.lncv_value = 0xFFFF ∨ msg.lncv_value = st.config.ADDRESS)
  · have hneg : ¬ (msg.lncv_number ≠ 0 ∨
        (msg.lncv_value ≠ 0xFFFF ∧ msg.lncv_value ≠ st.config.ADDRESS)) := by
      rw [hcond]; exact not_not.mpr h
    have hres : loconet_cv_prog_on st msg = ⟨{ st with programming := true },
        [loconet_cv_response { st with programming := true } msg]⟩ := by
      unfold loconet_cv_prog_on
      rw [if_neg hneg]
    refine ⟨fun _ => ?_, fun hn => absurd h hn, ?_⟩
    · rw [hres]
      simp [loconet_cv_response, h.1, LOCONET_CV_REQ_CFGREAD]
    · rw [hres]
      simp [h]
  · have hres : loconet_cv_prog_on st msg = ⟨st, []⟩ := by
      unfold loconet_cv_prog_on
      rw [if_pos (hcond.mpr h)]
    refine ⟨fun hp => absurd hp h, fun _ => hres, ?_⟩
    rw [hres]
    simp [h]

/-- C15, witness: the broadcast programming-on message (slot 0, value
`0xFFFF`) on a device with address 3. -/
theorem prog_on_accepted_iff_addressed_witness :
    (loconet_cv_process loconet_cv_write_allowed_dummy
      ⟨eeprom_filled 0xFFFF, ⟨3, 0, 5⟩, false⟩ ⟨1, 5, 0x21, 0, 0x4BA, 0, 0xFFFF, 0x80⟩ 0xE5).calls
      ≠ [] :=
  (prog_on_accepted_iff_addressed loconet_cv_write_allowed_dummy
    ⟨eeprom_filled 0xFFFF, ⟨3, 0, 5⟩, false⟩ ⟨1, 5, 0x21, 0, 0x4BA, 0, 0xFFFF, 0x80⟩ 0xE5
    (by decide) (by decide)).2.2.mpr (by decide)

/-! ### C16 -/

theorem response_msb_loop_length (index msb : Nat) (bytes : List Nat) :
    (loconet_cv_response_msb_loop index msb bytes).2.length = bytes.length := by
  induction bytes generalizing index msb with
  | nil => rfl
  | cons b rest ih =>
    simp only [loconet_cv_response_msb_loop]
    split_ifs <;> simp [ih]

theorem response_data_shape (resp : LOCONET_CV_MSG_Type) :
    (loconet_cv_response_data resp).length = 13 ∧
    (loconet_cv_response_data resp).take 5 =
      [15, resp.source % 256, resp.destination % 256, resp.destination / 256 % 256,
        resp.request_id % 256] := by
  unfold loconet_cv_response_data
  simp [LOCONET_CV_MSG_bytes, response_msb_loop_length]

/-- C16: for a CV read request (matching device class, flags neither
programming-on nor programming-off, request_id not write) no global changes;
if `lncv_number >= LOCONET_CV_NUMBERS` exactly one long-ack with the request's
opcode and the out-of-range code is sent and no response; otherwise exactly
one call of `loconet_tx_queue_n` is made, with opcode `0xE5` and 13 data
bytes: the length byte 15 followed by the MSB-packed record with
source = module (`0x05`), destination = `0x4B49` when the request source is the
KPU and the request's source otherwise, request_id = `0x1F`, device_class and
lncv_number copied from the request, lncv_value = `loconet_cv_get(lncv_number)`
and flags = 0. -/
theorem cv_read_request_answer (write_allowed : Nat → Nat → Nat)
    (st : LOCONET_CV_State) (msg : LOCONET_CV_MSG_Type) (opcode : Nat)
    (hclass : msg.device_class = LOCONET_CV_DEVICE_CLASS)
    (hon : msg.flags ≠ LOCONET_CV_FLG_PROG_ON)
    (hoff : msg.flags ≠ LOCONET_CV_FLG_PROG_OFF)
    (hreq : msg.request_id ≠ LOCONET_CV_REQ_CFGWRITE) :
    (LOCONET_CV_NUMBERS ≤ msg.lncv_number →
      loconet_cv_process write_allowed st msg opcode = ⟨st, [.tx_long_ack opcode 0x01]⟩) ∧
    (msg.lncv_number < LOCONET_CV_NUMBERS →
      loconet_cv_process write_allowed st msg opcode =
        ⟨st, [.tx_queue_n 0xE5 1 (loconet_cv_response_data
          { source := 0x05
            destination := if msg.source = LOCONET_CV_SRC_KPU then 0x4B49 else msg.source
            request_id := 0x1F
            most_significant_bits := 0
            device_class := msg.device_class
            lncv_number := msg.lncv_number
            lncv_value := loconet_cv_get st.eeprom msg.lncv_number
            flags := 0 }) 13]⟩ ∧
      (loconet_cv_response_data
          { source := 0x05
            destination := if msg.source = LOCONET_CV_SRC_KPU then 0x4B49 else msg.source
            request_id := 0x1F
            most_significant_bits := 0
            device_class := msg.device_class
            lncv_number := msg.lncv_number
            lncv_value := loconet_cv_get st.eeprom msg.lncv_number
            flags := 0 }).length = 13 ∧
      (loconet_cv_response_data
          { source := 0x05
            destination := if msg.source = LOCONET_CV_SRC_KPU then 0x4B49 else msg.source
            request_id := 0x1F
            most_significant_bits := 0
            device_class := msg.device_class
            lncv_number := msg.lncv_number
            lncv_value := loconet_cv_get st.eeprom msg.lncv_number
            flags := 0 }).getD 0 0 = 15) := by
  have hproc : loconet_cv_process write_allowed st msg opcode
      = loconet_cv_prog_read st msg opcode := by
    simp [loconet_cv_process, hclass, hon, hoff, hreq]
  rw [hproc]
  refine ⟨fun h => ?_, fun h => ⟨?_, (response_data_shape _).1, ?_⟩⟩
  · simp [loconet_cv_prog_read, h, LOCONET_CV_ACK_ERROR_OUTOFRANGE]
  · have hge : ¬ msg.lncv_number ≥ LOCONET_CV_NUMBERS := by omega
    simp [loconet_cv_prog_read, hge, loconet_cv_response, LOCONET_CV_SRC_MODULE,
      LOCONET_CV_DST_UB_KPU, LOCONET_CV_REQ_CFGREAD]
  · simp [loconet_cv_response_data, LOCONET_CV_MSG_bytes]

/-- C16, witness: read requests for slot 40 (out of range) and for slot 4 of a
store whose slots all hold `0x1234`. -/
theorem cv_read_request_answer_witness :
    loconet_cv_process loconet_cv_write_allowed_dummy
      ⟨eeprom_filled 0x1234, ⟨3, 0, 5⟩, false⟩ ⟨1, 5, 0x21, 0, 0x4BA, 40, 0, 0⟩ 0xED
      = ⟨⟨eeprom_filled 0x1234, ⟨3, 0, 5⟩, false⟩, [.tx_long_ack 0xED 0x01]⟩ ∧
    (loconet_cv_response_data
      { source := 0x05
        destination := if (1 : Nat) = LOCONET_CV_SRC_KPU then 0x4B49 else 1
        request_id := 0x1F
        most_significant_bits := 0
        device_class := 0x4BA
        lncv_number := 4
        lncv_value := loconet_cv_get (eeprom_filled 0x1234) 4
        flags := 0 }).length = 13 :=
  ⟨(cv_read_request_answer loconet_cv_write_allowed_dummy
      ⟨eeprom_filled 0x1234, ⟨3, 0, 5⟩, false⟩ ⟨1, 5, 0x21, 0, 0x4BA, 40, 0, 0⟩ 0xED
      (by decide) (by decide) (by decide) (by decide)).1 (by decide),
   ((cv_read_request_answer loconet_cv_write_allowed_dummy
      ⟨eeprom_filled 0x1234, ⟨3, 0, 5⟩, false⟩ ⟨1, 5, 0x21, 0, 0x4BA, 4, 0, 0⟩ 0xED
      (by decide) (by decide) (by decide) (by decide)).2 (by decide)).2.1⟩

/-! ### C17 -/

/-- C17: when the programming-mode flag is set, every configuration-write
request (request_id `0x20`, flags neither programming-on nor programming-off)
with matching device class leaves the globals as `loconet_cv_set` leaves them
and is answered with exactly one frame: a long-ack carrying the request's
opcode and the status returned by `loconet_cv_set`. That status is read-only
for slot 1; out-of-range for a slot index `>= LOCONET_CV_NUMBERS`; for slot 0
OK exactly when the value is less than `0x3FF`; for slot 2 OK exactly when
`0 < value < 0x10`; for every other in-range slot the status returned by the
write-authorization hook. -/
theorem cv_write_in_programming_mode_acked (write_allowed : Nat → Nat → Nat)
    (st : LOCONET_CV_State) (msg : LOCONET_CV_MSG_Type) (opcode : Nat)
    (hprog : st.programming = true)
    (hclass : msg.device_class = LOCONET_CV_DEVICE_CLASS)
    (hon : msg.flags ≠ LOCONET_CV_FLG_PROG_ON)
    (hoff : msg.flags ≠ LOCONET_CV_FLG_PROG_OFF)
    (hreq : msg.request_id = LOCONET_CV_REQ_CFGWRITE) :
    (loconet_cv_process write_allowed st msg opcode).state
      = (loconet_cv_set write_allowed st msg.lncv_number msg.lncv_value).state ∧
    (loconet_cv_process write_allowed st msg opcode).calls.filter LOCONET_CV_Call.is_tx
      = [.tx_long_ack opcode
          (loconet_cv_set write_allowed st msg.lncv_number msg.lncv_value).ack] ∧
    (msg.lncv_number = 1 →
      (loconet_cv_set write_allowed st msg.lncv_number msg.lncv_value).ack
        = LOCONET_CV_ACK_ERROR_READONLY) ∧
    (LOCONET_CV_NUMBERS ≤ msg.lncv_number →
      (loconet_cv_set write_allowed st msg.lncv_number msg.lncv_value).ack
        = LOCONET_CV_ACK_ERROR_OUTOFRANGE) ∧
    (msg.lncv_number = 0 →
      ((loconet_cv_set write_allowed st msg.lncv_number msg.lncv_value).ack
        = LOCONET_CV_ACK_OK ↔ msg.lncv_value < 0x3FF)) ∧
    (msg.lncv_number = 2 →
      ((loconet_cv_set write_allowed st msg.lncv_number msg.lncv_value).ack
        = LOCONET_CV_ACK_OK ↔ 0 < msg.lncv_value ∧ msg.lncv_value < 0x10)) ∧
    (msg.lncv_number ≠ 0 → msg.lncv_number ≠ 1 → msg.lncv_number ≠ 2 →
      msg.lncv_number < LOCONET_CV_NUMBERS →
      (loconet_cv_set write_allowed st msg.lncv_number msg.lncv_value).ack
        = write_allowed msg.lncv_number msg.lncv_value) := by
  have hproc : loconet_cv_process write_allowed st msg opcode
      = loconet_cv_prog_write write_allowed st msg opcode := by
    simp [loconet_cv_process, hclass, hon, hoff, hreq]
  have hack : ∀ n v, n ≠ 1 → n < LOCONET_CV_NUMBERS →
      (loconet_cv_set write_allowed st n v).ack
        = loconet_cv_write_allowed_core write_allowed n v := by
    intro n v h1 hn
    have hge : ¬ n ≥ LOCONET_CV_NUMBERS := by omega
    simp only [loconet_cv_set, if_neg h1, if_neg hge]
    split_ifs <;> rfl
  rw [hproc]
  refine ⟨?_, ?_, ?_, ?_, ?_, ?_, ?_⟩
  · simp [loconet_cv_prog_write, hprog]
  · simp only [loconet_cv_prog_write, hprog, not_true_eq_false, if_false]
    cases (loconet_cv_set write_allowed st msg.lncv_number msg.lncv_value).written_event with
    | none => simp [LOCONET_CV_Call.is_tx]
    | some ev => simp [LOCONET_CV_Call.is_tx]
  · intro h
    simp [loconet_cv_set, h]
  · intro h
    have h1 : msg.lncv_number ≠ 1 := by unfold LOCONET_CV_NUMBERS at h; omega
    simp [loconet_cv_set, h1, h]
  · intro h
    rw [h, hack 0 _ (by decide) (by decide)]
    simp only [loconet_cv_write_allowed_core]
    split_ifs with hv
    · simp [hv]
    · simp [hv, LOCONET_CV_ACK_OK, LOCONET_CV_ACK_ERROR_OUTOFRANGE]
  · intro h
    rw [h, hack 2 _ (by decide) (by decide)]
    simp only [loconet_cv_write_allowed_core]
    split_ifs with hv
    · simp [hv]
    · simp [hv, LOCONET_CV_ACK_OK, LOCONET_CV_ACK_ERROR_OUTOFRANGE]
  · intro h0 h1 h2 hn
    rw [hack _ _ h1 hn]
    unfold loconet_cv_write_allowed_core
    split <;> first | rfl | contradiction

/-- C17, witness: in programming mode a write of `7` to slot 2 is stored and
answered with one long-ack. -/
theorem cv_write_in_programming_mode_acked_witness :
    (loconet_cv_process loconet_cv_write_allowed_dummy
      ⟨eeprom_filled 0xFFFF, ⟨3, 0, 5⟩, true⟩ ⟨1, 5, 0x20, 0, 0x4BA, 2, 7, 0⟩
      0xED).calls.filter LOCONET_CV_Call.is_tx
      = [.tx_long_ack 0xED (loconet_cv_set loconet_cv_write_allowed_dummy
          ⟨eeprom_filled 0xFFFF, ⟨3, 0, 5⟩, true⟩ 2 7).ack] :=
  (cv_write_in_programming_mode_acked loconet_cv_write_allowed_dummy
    ⟨eeprom_filled 0xFFFF, ⟨3, 0, 5⟩, true⟩ ⟨1, 5, 0x20, 0, 0x4BA, 2, 7, 0⟩ 0xED
    rfl (by decide) (by decide) (by decide) (by decide)).2.1

/-! ### C18 -/

/-- The state a non-master device is in after a bus rise and the expiry of
the carrier-detect timer: `MasterDelayWait` with `busy` set. -/
theorem after_carrier_detect_non_master (s : LOCONET_Type) (hm : s.config.MASTER = 0) :
    loconet_irq_timer (loconet_irq_flank_rise s).state =
      ⟨{ s with
          timer_status := ⟨LOCONET_TIMER_STATUS_MASTER_DELAY⟩
          status := { s.status with BUSY := true } },
        [.flank_timer_delay LOCONET_DELAY_MASTER_DELAY]⟩ := by
  simp [loconet_irq_timer, loconet_irq_flank_rise, LOCONET_TIMER_STATUS_Type.CARRIER_DETECT,
    LOCONET_TIMER_STATUS_CARRIER_DETECT, hm]

/-- The expiry of the master-delay timer of a device in `MasterDelayWait`. -/
theorem master_delay_expiry (s : LOCONET_Type)
    (ht : s.timer_status.reg = LOCONET_TIMER_STATUS_MASTER_DELAY) :
    loconet_irq_timer s =
      if s.config.PRIORITY ≠ 0 then
        ⟨{ s with timer_status := ⟨LOCONET_TIMER_STATUS_PRIORITY_DELAY⟩ },
          [.flank_timer_delay (s.config.PRIORITY * LOCONET_DELAY_PRIORITY_DELAY % 65536)]⟩
      else
        ⟨{ s with status := { s.status with BUSY := false } }, []⟩ := by
  simp [loconet_irq_timer, LOCONET_TIMER_STATUS_Type.CARRIER_DETECT,
    LOCONET_TIMER_STATUS_Type.MASTER_DELAY, ht, LOCONET_TIMER_STATUS_MASTER_DELAY]

/-- The expiry of the priority-delay timer of a device in `PriorityDelayWait`. -/
theorem priority_delay_expiry (s : LOCONET_Type)
    (ht : s.timer_status.reg = LOCONET_TIMER_STATUS_PRIORITY_DELAY) :
    loconet_irq_timer s = ⟨{ s with status := { s.status with BUSY := false } }, []⟩ := by
  simp [loconet_irq_timer, LOCONET_TIMER_STATUS_Type.CARRIER_DETECT,
    LOCONET_TIMER_STATUS_Type.MASTER_DELAY, LOCONET_TIMER_STATUS_Type.PRIORITY_DELAY, ht,
    LOCONET_TIMER_STATUS_PRIORITY_DELAY]

/-- C18: arbitration timing order for a non-master device. A bus-rise event
sets `busy` and arms the 1200 us carrier-detect timer; `busy` stays set across
the carrier-detect expiry, which arms the 360 us master-delay timer and enters
`MasterDelayWait`; at the master-delay expiry `busy` is cleared when the
configured priority is 0, and otherwise stays set while the priority-delay
timer is armed with priority x 60 us and `PriorityDelayWait` is entered, and
`busy` is cleared at the priority-delay expiry. The armed priority delay is
strictly increasing in the configured priority over 1..15. -/
theorem arbitration_order_non_master (s s' : LOCONET_Type)
    (hm : s.config.MASTER = 0) (hp : s.config.PRIORITY < 16)
    (hm' : s'.config.MASTER = 0) (hp' : s'.config.PRIORITY < 16) :
    (loconet_irq_flank_rise s).state.status.BUSY = true ∧
    (loconet_irq_flank_rise s).calls = [.flank_timer_delay 1200] ∧
    (loconet_irq_timer (loconet_irq_flank_rise s).state).state.status.BUSY = true ∧
    (loconet_irq_timer (loconet_irq_flank_rise s).state).state.timer_status.reg
      = LOCONET_TIMER_STATUS_MASTER_DELAY ∧
    (loconet_irq_timer (loconet_irq_flank_rise s).state).calls = [.flank_timer_delay 360] ∧
    (s.config.PRIORITY = 0 →
      (loconet_irq_timer
        (loconet_irq_timer (loconet_irq_flank_rise s).state).state).state.status.BUSY = false ∧
      (loconet_irq_timer
        (loconet_irq_timer (loconet_irq_flank_rise s).state).state).calls = []) ∧
    (s.config.PRIORITY ≠ 0 →
      (loconet_irq_timer
        (loconet_irq_timer (loconet_irq_flank_rise s).state).state).state.status.BUSY = true ∧
      (loconet_irq_timer
        (loconet_irq_timer (loconet_irq_flank_rise s).state).state).state.timer_status.reg
        = LOCONET_TIMER_STATUS_PRIORITY_DELAY ∧
      (loconet_irq_timer
        (loconet_irq_timer (loconet_irq_flank_rise s).state).state).calls
        = [.flank_timer_delay (s.config.PRIORITY * 60)] ∧
      (loconet_irq_timer (loconet_irq_timer
        (loconet_irq_timer (loconet_irq_flank_rise s).state).state).state).state.status.BUSY
        = false ∧
      (loconet_irq_timer (loconet_irq_timer
        (loconet_irq_timer (loconet_irq_flank_rise s).state).state).state).calls = []) ∧
    (1 ≤ s.config.PRIORITY → s.config.PRIORITY < s'.config.PRIORITY →
      armed_delay (loconet_irq_timer
        (loconet_irq_timer (loconet_irq_flank_rise s).state).state).calls
      < armed_delay (loconet_irq_timer
        (loconet_irq_timer (loconet_irq_flank_rise s').state).state).calls) := by
  have hcd := after_carrier_detect_non_master s hm
  have hcd' := after_carrier_detect_non_master s' hm'
  have hmd := master_delay_expiry (loconet_irq_timer (loconet_irq_flank_rise s).state).state
    (by rw [hcd])
  have hmd' := master_delay_expiry (loconet_irq_timer (loconet_irq_flank_rise s').state).state
    (by rw [hcd'])
  have hcfg : (loconet_irq_timer (loconet_irq_flank_rise s).state).state.config = s.config := by
    rw [hcd]
  have hcfg' : (loconet_irq_timer (loconet_irq_flank_rise s').state).state.config
      = s'.config := by
    rw [hcd']
  have hmod : s.config.PRIORITY * LOCONET_DELAY_PRIORITY_DELAY % 65536
      = s.config.PRIORITY * 60 := by
    unfold LOCONET_DELAY_PRIORITY_DELAY; omega
  have hmod' : s'.config.PRIORITY * LOCONET_DELAY_PRIORITY_DELAY % 65536
      = s'.config.PRIORITY * 60 := by
    unfold LOCONET_DELAY_PRIORITY_DELAY; omega
  rw [hcfg, hmod] at hmd
  rw [hcfg', hmod'] at hmd'
  refine ⟨rfl, rfl, by rw [hcd], by rw [hcd], by rw [hcd]; rfl, ?_, ?_, ?_⟩
  · intro h0
    rw [hmd, if_neg (not_not.mpr h0)]
    exact ⟨rfl, rfl⟩
  · intro hne
    have hpd := priority_delay_expiry (loconet_irq_timer
      (loconet_irq_timer (loconet_irq_flank_rise s).state).state).state
      (by rw [hmd, if_pos hne])
    refine ⟨?_, ?_, ?_, ?_, ?_⟩
    · rw [hmd, if_pos hne]
      simp only
      rw [hcd]
    · rw [hmd, if_pos hne]
    · rw [hmd, if_pos hne]
    · rw [hpd]
    · rw [hpd]
  · intro h1 hlt
    rw [hmd, hmd', if_pos (by omega), if_pos (by omega)]
    simp only [armed_delay]
    omega

/-- C18, witness: two non-master devices with priorities 5 and 9. -/
theorem arbitration_order_non_master_witness :
    (loconet_irq_timer (loconet_irq_flank_rise
      ⟨⟨3, 0, 5⟩, ⟨false, false, false⟩, ⟨0⟩⟩).state).calls = [.flank_timer_delay 360] ∧
    armed_delay (loconet_irq_timer (loconet_irq_timer (loconet_irq_flank_rise
      ⟨⟨3, 0, 5⟩, ⟨false, false, false⟩, ⟨0⟩⟩).state).state).calls
    < armed_delay (loconet_irq_timer (loconet_irq_timer (loconet_irq_flank_rise
      ⟨⟨3, 0, 9⟩, ⟨false, false, false⟩, ⟨0⟩⟩).state).state).calls :=
  have h := arbitration_order_non_master
    ⟨⟨3, 0, 5⟩, ⟨false, false, false⟩, ⟨0⟩⟩ ⟨⟨3, 0, 9⟩, ⟨false, false, false⟩, ⟨0⟩⟩
    rfl (by decide) rfl (by decide)
  ⟨h.2.2.2.2.1, h.2.2.2.2.2.2.2 (by decide) (by decide)⟩

/-! ### C19 -/

/-- The total armed delay of a non-master device between a bus rise and the
moment `busy` is cleared. -/
theorem bus_rise_to_idle_delay_non_master (s : LOCONET_Type)
    (hm : s.config.MASTER = 0) (hp : s.config.PRIORITY < 16) :
    bus_rise_to_idle_delay s = some (1200 + 360 + s.config.PRIORITY * 60) := by
  have hcd := after_carrier_detect_non_master s hm
  have hmd := master_delay_expiry (loconet_irq_timer (loconet_irq_flank_rise s).state).state
    (by rw [hcd])
  have hcfg : (loconet_irq_timer (loconet_irq_flank_rise s).state).state.config = s.config := by
    rw [hcd]
  have hmod : s.config.PRIORITY * LOCONET_DELAY_PRIORITY_DELAY % 65536
      = s.config.PRIORITY * 60 := by
    unfold LOCONET_DELAY_PRIORITY_DELAY; omega
  rw [hcfg, hmod] at hmd
  have hb1 : (loconet_irq_flank_rise s).state.status.BUSY = true := rfl
  have hb2 : (loconet_irq_timer (loconet_irq_flank_rise s).state).state.status.BUSY = true := by
    rw [hcd]
  by_cases h0 : s.config.PRIORITY = 0
  · rw [if_neg (not_not.mpr h0)] at hmd
    have hb3 : (loconet_irq_timer
        (loconet_irq_timer (loconet_irq_flank_rise s).state).state).state.status.BUSY
        = false := by rw [hmd]
    have hc2 : (loconet_irq_timer (loconet_irq_flank_rise s).state).calls
        = [.flank_timer_delay 360] := by rw [hcd]; rfl
    have hc3 : (loconet_irq_timer
        (loconet_irq_timer (loconet_irq_flank_rise s).state).state).calls = [] := by rw [hmd]
    simp [bus_rise_to_idle_delay, loconet_timer_expiries, hb1, hb2, hb3, hc2, hc3,
      armed_delay, h0]
    rfl
  · rw [if_pos h0] at hmd
    have hpd := priority_delay_expiry (loconet_irq_timer
      (loconet_irq_timer (loconet_irq_flank_rise s).state).state).state
      (by rw [hmd])
    have hb3 : (loconet_irq_timer
        (loconet_irq_timer (loconet_irq_flank_rise s).state).state).state.status.BUSY
        = true := by rw [hmd]; simp only; rw [hcd]
    have hb4 : (loconet_irq_timer (loconet_irq_timer
        (loconet_irq_timer (loconet_irq_flank_rise s).state).state).state).state.status.BUSY
        = false := by rw [hpd]
    have hc2 : (loconet_irq_timer (loconet_irq_flank_rise s).state).calls
        = [.flank_timer_delay 360] := by rw [hcd]; rfl
    have hc3 : (loconet_irq_timer
        (loconet_irq_timer (loconet_irq_flank_rise s).state).state).calls
        = [.flank_timer_delay (s.config.PRIORITY * 60)] := by rw [hmd]
    have hc4 : (loconet_irq_timer (loconet_irq_timer
        (loconet_irq_timer (loconet_irq_flank_rise s).state).state).state).calls = [] := by
      rw [hpd]
    simp [bus_rise_to_idle_delay, loconet_timer_expiries, hb1, hb2, hb3, hb4, hc2, hc3, hc4,
      armed_delay]
    unfold LOCONET_DELAY_CARRIER_DETECT
    omega

/-- C19, counterexample: of two non-master devices that differ only in the
configured priority (1 and 2), the one with the larger priority value has the
larger total armed delay between a bus rise and the moment its `busy` flag is
cleared (1680 us against 1620 us), not the smaller one. -/
theorem larger_priority_not_earlier :
    bus_rise_to_idle_delay ⟨⟨3, 0, 1⟩, ⟨false, false, false⟩, ⟨0⟩⟩ = some 1620 ∧
    bus_rise_to_idle_delay ⟨⟨3, 0, 2⟩, ⟨false, false, false⟩, ⟨0⟩⟩ = some 1680 ∧
    ¬ (1680 < 1620) := by
  decide

/-- C19 (amended): for two non-master devices with different configured
priorities, the device with the larger configured priority value has the
larger total armed delay (carrier-detect 1200 us + master-delay 360 us +
priority x 60 us) between a bus-rise event and the moment its `busy` flag is
cleared, i.e. it may attempt transmission later; the smaller value gives the
earlier access. -/
theorem larger_priority_waits_longer (s1 s2 : LOCONET_Type)
    (hm1 : s1.config.MASTER = 0) (hm2 : s2.config.MASTER = 0)
    (hlt : s1.config.PRIORITY < s2.config.PRIORITY) (hp2 : s2.config.PRIORITY < 16) :
    ∃ d1 d2, bus_rise_to_idle_delay s1 = some d1 ∧ bus_rise_to_idle_delay s2 = some d2 ∧
      d1 = 1200 + 360 + s1.config.PRIORITY * 60 ∧
      d2 = 1200 + 360 + s2.config.PRIORITY * 60 ∧
      d1 < d2 :=
  ⟨_, _, bus_rise_to_idle_delay_non_master s1 hm1 (by omega),
    bus_rise_to_idle_delay_non_master s2 hm2 hp2, rfl, rfl, by omega⟩

/-- C19 (amended), witness: priorities 5 and 9. -/
theorem larger_priority_waits_longer_witness :
    ∃ d1 d2,
      bus_rise_to_idle_delay ⟨⟨3, 0, 5⟩, ⟨false, false, false⟩, ⟨0⟩⟩ = some d1 ∧
      bus_rise_to_idle_delay ⟨⟨3, 0, 9⟩, ⟨false, false, false⟩, ⟨0⟩⟩ = some d2 ∧
      d1 = 1200 + 360 + 5 * 60 ∧ d2 = 1200 + 360 + 9 * 60 ∧ d1 < d2 :=
  larger_priority_waits_longer ⟨⟨3, 0, 5⟩, ⟨false, false, false⟩, ⟨0⟩⟩
    ⟨⟨3, 0, 9⟩, ⟨false, false, false⟩, ⟨0⟩⟩ rfl rfl (by decide) (by decide)

/-! ### C20 -/

/-- C20, counterexample: in `PriorityDelayWait` with `transmitting` and `busy`
both set the invariant holds, but the timer expiry clears `busy` and leaves
`transmitting` set, so the invariant fails afterwards. -/
theorem timer_expiry_breaks_transmit_implies_busy :
    transmit_implies_busy ⟨⟨3, 0, 5⟩, ⟨true, true, false⟩, ⟨8⟩⟩ ∧
    (loconet_irq_timer ⟨⟨3, 0, 5⟩, ⟨true, true, false⟩, ⟨8⟩⟩).state
      = ⟨⟨3, 0, 5⟩, ⟨false, true, false⟩, ⟨8⟩⟩ ∧
    ¬ transmit_implies_busy
      (loconet_irq_timer ⟨⟨3, 0, 5⟩, ⟨true, true, false⟩, ⟨8⟩⟩).state := by
  decide

/-- C20 (amended): `transmitting implies busy` is preserved by
`loconet_irq_flank_rise`, `loconet_irq_flank_fall` and `loconet_irq_collision`
from every state in which it holds; `loconet_irq_timer` clears `busy` without
looking at `transmitting`, so from such a state it preserves the invariant
exactly when `transmitting` is clear or the expiry takes a branch that does
not clear `busy`. -/
theorem transmit_implies_busy_preserved (s : LOCONET_Type) (h : transmit_implies_busy s) :
    transmit_implies_busy (loconet_irq_flank_rise s).state ∧
    transmit_implies_busy (loconet_irq_flank_fall s).state ∧
    transmit_implies_busy (loconet_irq_collision s).state ∧
    (transmit_implies_busy (loconet_irq_timer s).state ↔
      (s.status.TRANSMIT = false ∨ ¬ irq_timer_clears_busy s)) := by
  obtain ⟨config, ⟨busy, transmit, collision⟩, timer⟩ := s
  unfold transmit_implies_busy at h ⊢
  simp only at h
  refine ⟨fun _ => rfl, fun _ => rfl, ?_, ?_⟩
  · unfold loconet_irq_collision
    cases transmit <;> simp_all
  · unfold loconet_irq_timer irq_timer_clears_busy
    cases transmit
    · simp only [Bool.false_eq_true, false_implies, true_or, iff_true]
      split_ifs <;> simp
    · have hb : busy = true := h rfl
      subst hb
      simp only [Bool.true_eq_false, false_or, true_implies]
      split_ifs <;> simp_all

/-- C20 (amended), witness: a non-master that is transmitting and busy. In
`CarrierDetectWait` the four handlers keep the invariant (the timer expiry
arms the master delay and leaves `busy` set); in `PriorityDelayWait` the timer
expiry clears `busy` while `transmitting` stays set, and the invariant is
lost. -/
theorem transmit_implies_busy_preserved_witness :
    (transmit_implies_busy
        (loconet_irq_flank_rise ⟨⟨3, 0, 5⟩, ⟨true, true, false⟩, ⟨1⟩⟩).state ∧
      transmit_implies_busy
        (loconet_irq_flank_fall ⟨⟨3, 0, 5⟩, ⟨true, true, false⟩, ⟨1⟩⟩).state ∧
      transmit_implies_busy
        (loconet_irq_collision ⟨⟨3, 0, 5⟩, ⟨true, true, false⟩, ⟨1⟩⟩).state ∧
      transmit_implies_busy
        (loconet_irq_timer ⟨⟨3, 0, 5⟩, ⟨true, true, false⟩, ⟨1⟩⟩).state) ∧
    ¬ transmit_implies_busy
      (loconet_irq_timer ⟨⟨3, 0, 5⟩, ⟨true, true, false⟩, ⟨8⟩⟩).state :=
  have h := transmit_implies_busy_preserved ⟨⟨3, 0, 5⟩, ⟨true, true, false⟩, ⟨1⟩⟩
    (by decide)
  have h8 := transmit_implies_busy_preserved ⟨⟨3, 0, 5⟩, ⟨true, true, false⟩, ⟨8⟩⟩
    (by decide)
  ⟨⟨h.1, h.2.1, h.2.2.1, h.2.2.2.mpr (Or.inr (by decide))⟩,
   fun ht => (h8.2.2.2.mp ht).elim (by decide) (fun hn => hn (by decide))⟩

/-! ### C21 -/

theorem register_all_append (s : LOCONET_RX_OBSERVER_Type)
    (a b : List LOCONET_RX_REGISTRATION) :
    loconet_rx_register_all s (a ++ b) =
      match loconet_rx_register_all s a with
      | .done s' => loconet_rx_register_all s' b
      | .fault => .fault
      | .out_of_fuel => .out_of_fuel := by
  induction a generalizing s with
  | nil => rfl
  | cons r rest ih =>
    simp only [List.cons_append, loconet_rx_register_all]
    cases loconet_rx_register_callback s r.item r.opcode r.callback with
    | done s' => exact ih s'
    | fault => rfl
    | out_of_fuel => rfl

theorem fresh_append_ne (regs : List LOCONET_RX_REGISTRATION) (r : LOCONET_RX_REGISTRATION)
    (h : fresh_items (regs ++ [r])) : ∀ x ∈ regs, x.item ≠ r.item := by
  intro x hx heq
  have hn := h.1
  rw [List.map_append, List.nodup_append] at hn
  exact hn.2.2 (List.mem_map.mpr ⟨x, hx, rfl⟩) (by simp [heq])

theorem fresh_cons (x : LOCONET_RX_REGISTRATION) (rest : List LOCONET_RX_REGISTRATION)
    (h : fresh_items (x :: rest)) : (∀ y ∈ rest, x.item ≠ y.item) ∧ fresh_items rest := by
  have hn := h.1
  rw [List.map_cons, List.nodup_cons] at hn
  refine ⟨fun y hy heq => hn.1 (List.mem_map.mpr ⟨y, hy, heq.symm⟩), hn.2,
    fun q hq => h.2 q (List.mem_cons_of_mem _ hq)⟩

/-- Linking a new item behind the last item of a list keeps the list and puts
the new item at its end. -/
theorem chain_snoc (memory : Nat → Option LOCONET_RX_OBSERVERITEM_Type)
    (regs : List LOCONET_RX_REGISTRATION) (p : Nat) (l r : LOCONET_RX_REGISTRATION)
    (hchain : observer_chain memory p regs) (hlast : regs.getLast? = some l)
    (hfresh : fresh_items (regs ++ [r])) :
    memory l.item = some ⟨l.opcode, l.callback, 0⟩ ∧
    observer_chain
      (Function.update (Function.update memory r.item (some ⟨r.opcode, r.callback, 0⟩))
        l.item (some ⟨l.opcode, l.callback, r.item⟩))
      p (regs ++ [r]) := by
  induction regs generalizing p with
  | nil => simp at hlast
  | cons x rest ih =>
    obtain ⟨hp, hx0, next, hmem, hrest⟩ := hchain
    have hr0 : r.item ≠ 0 := hfresh.2 r (by simp)
    have hxr : x.item ≠ r.item := fresh_append_ne _ r hfresh x (List.mem_cons_self _ _)
    obtain ⟨hxrest, hfresh'⟩ := fresh_cons x (rest ++ [r]) hfresh
    cases rest with
    | nil =>
      simp only [List.getLast?_singleton, Option.some.injEq] at hlast
      subst hlast
      have hnext : next = 0 := hrest
      subst hnext
      refine ⟨hmem, hp, hx0, r.item, by simp, rfl, hr0, 0, ?_, rfl⟩
      rw [Function.update_noteq (Ne.symm hxr), Function.update_same]
    | cons y rest' =>
      have hlast' : (y :: rest').getLast? = some l := by
        simpa [List.getLast?_cons_cons] using hlast
      obtain ⟨hl, hc⟩ := ih next hrest hlast' hfresh'
      have hlmem : l ∈ y :: rest' := List.mem_of_getLast?_eq_some hlast'
      have hxl : x.item ≠ l.item := hxrest l (List.mem_append_left _ hlmem)
      refine ⟨hl, hp, hx0, next, ?_, hc⟩
      rw [Function.update_noteq hxl, Function.update_noteq hxr, hmem]

/-- One registration in a registry that holds fewer than 256 registrations
appends the new entry. -/
theorem register_step (s : LOCONET_RX_OBSERVER_Type) (regs : List LOCONET_RX_REGISTRATION)
    (r : LOCONET_RX_REGISTRATION) (hrepr : observer_registry_holds s regs)
    (hlen : regs.length < 256) (hfresh : fresh_items (regs ++ [r])) :
    ∃ s', loconet_rx_register_callback s r.item r.opcode r.callback = .done s' ∧
      observer_registry_holds s' (regs ++ [r]) := by
  obtain ⟨hchain, hsize, hlast⟩ := hrepr
  have hr0 : r.item ≠ 0 := hfresh.2 r (by simp)
  rcases List.eq_nil_or_concat regs with rfl | ⟨init, l, hconcat⟩
  · simp only [List.length_nil, Nat.zero_mod] at hsize
    refine ⟨_, by simp only [loconet_rx_register_callback, if_neg hr0, hsize, if_true]; rfl, ?_⟩
    refine ⟨⟨rfl, hr0, 0, by simp, rfl⟩, by simp [hsize], ?_⟩
    intro l hl
    simp only [List.nil_append, List.getLast?_singleton, Option.some.injEq] at hl
    subst hl
    rfl
  · rw [List.concat_eq_append] at hconcat
    subst hconcat
    have hgl : (init ++ [l]).getLast? = some l := List.getLast?_concat init
    have hll := hlast l hgl
    obtain ⟨hl, hc⟩ := chain_snoc s.memory (init ++ [l]) s.list_first l r hchain hgl hfresh
    have hsz : s.listsize ≠ 0 := by
      rw [hsize]
      simp only [List.length_append, List.length_singleton] at hlen ⊢
      omega
    have hlr : l.item ≠ r.item := fresh_append_ne _ r hfresh l (by simp)
    have hmem : Function.update s.memory r.item
        (some (⟨r.opcode, r.callback, 0⟩ : LOCONET_RX_OBSERVERITEM_Type)) s.list_last
        = some ⟨l.opcode, l.callback, 0⟩ := by
      rw [hll, Function.update_noteq hlr, hl]
    refine ⟨_, by
      simp only [loconet_rx_register_callback, if_neg hr0, if_neg hsz, hmem]; rfl, ?_⟩
    refine ⟨?_, ?_, ?_⟩
    · simp only
      rw [hll]
      exact hc
    · simp only [hsize, List.length_append, List.length_singleton]
      omega
    · intro l' hl'
      rw [List.getLast?_concat, Option.some.injEq] at hl'
      subst hl'
      rfl

/-- Registrations in a registry that ends up with at most 256 entries append
their entries in order. -/
theorem register_all_holds (regs pre : List LOCONET_RX_REGISTRATION)
    (s : LOCONET_RX_OBSERVER_Type) (hrepr : observer_registry_holds s pre)
    (hlen : pre.length + regs.length ≤ 256) (hfresh : fresh_items (pre ++ regs)) :
    ∃ s', loconet_rx_register_all s regs = .done s' ∧
      observer_registry_holds s' (pre ++ regs) := by
  induction regs generalizing pre s with
  | nil => exact ⟨s, rfl, by simpa using hrepr⟩
  | cons r rest ih =>
    simp only [List.length_cons] at hlen
    have hfresh1 : fresh_items (pre ++ [r]) := by
      refine ⟨?_, fun q hq => hfresh.2 q (by simp at hq ⊢; tauto)⟩
      have := hfresh.1
      rw [show pre ++ r :: rest = (pre ++ [r]) ++ rest by simp, List.map_append] at this
      exact (List.nodup_append.mp this).1
    obtain ⟨s1, hs1, hrepr1⟩ := register_step s pre r hrepr (by omega) hfresh1
    obtain ⟨s', hs', hrepr'⟩ := ih (pre ++ [r]) s1 hrepr1
      (by simp only [List.length_append, List.length_singleton]; omega)
      (by simpa using hfresh)
    refine ⟨s', ?_, by simpa using hrepr'⟩
    simp only [loconet_rx_register_all, hs1, hs']

/-- The loop of `loconet_rx_notify` over a list calls the callbacks registered
under the opcode, in list order. -/
theorem notify_loop_chain (memory : Nat → Option LOCONET_RX_OBSERVERITEM_Type)
    (regs : List LOCONET_RX_REGISTRATION) (p fuel opcode : Nat) (arr : List Nat) (size : Nat)
    (hchain : observer_chain memory p regs) (hfuel : regs.length < fuel) :
    loconet_rx_notify_loop memory opcode arr size fuel p
      = .done (dispatch_in_registration_order regs opcode arr size) := by
  induction regs generalizing p fuel with
  | nil =>
    have hp : p = 0 := hchain
    subst hp
    cases fuel with
    | zero => simp at hfuel
    | succ n => simp [loconet_rx_notify_loop, dispatch_in_registration_order]
  | cons r rest ih =>
    obtain ⟨hp, hr0, next, hmem, hrest⟩ := hchain
    subst hp
    cases fuel with
    | zero => simp at hfuel
    | succ n =>
      simp only [List.length_cons] at hfuel
      simp only [loconet_rx_notify_loop, if_neg hr0, hmem, ih next n hrest (by omega)]
      by_cases hop : r.opcode = opcode
      · simp [dispatch_in_registration_order, hop]
      · simp [dispatch_in_registration_order, hop]

theorem same_registrations_fresh (n opcode callback : Nat) :
    fresh_items (same_registrations n opcode callback) := by
  unfold fresh_items same_registrations
  refine ⟨?_, ?_⟩
  · rw [List.map_map]
    exact (List.nodup_range n).map (fun a b h => by simpa using h)
  · intro r hr
    simp only [List.mem_map, List.mem_range] at hr
    obtain ⟨i, _, rfl⟩ := hr
    simp

/-- C21, failing input: 256 calls of `loconet_rx_register_callback` under key
5, then `loconet_rx_notify(5, arr, 2)`. The 8-bit entry counter
`loconet_rx_observer_listsize` is incremented without a bound check and has
wrapped to `0`, so `loconet_rx_notify` returns at once and invokes none of the
256 callbacks registered under key 5, where a dispatch in registration order
makes 256 calls. -/
theorem notify_after_256_registrations_calls_nothing :
    loconet_rx_notify_after (same_registrations 256 5 7) 300 5 [0x01, 0x02] 2 = .done [] ∧
    (dispatch_in_registration_order (same_registrations 256 5 7) 5 [0x01, 0x02] 2).length
      = 256 := by
  constructor
  · obtain ⟨s, hs, -, hsize, -⟩ := register_all_holds (same_registrations 256 5 7) []
      loconet_rx_observer_init ⟨rfl, rfl, by simp⟩
      (by simp [same_registrations]) (same_registrations_fresh 256 5 7)
    have h0 : s.listsize = 0 := by
      rw [hsize]
      simp [same_registrations]
    simp only [loconet_rx_notify_after, hs, loconet_rx_notify, h0, if_true]
  · unfold dispatch_in_registration_order
    rw [List.length_map, List.filter_eq_self.mpr]
    · simp [same_registrations]
    · intro r hr
      simp only [same_registrations, List.mem_map, List.mem_range] at hr
      obtain ⟨i, _, rfl⟩ := hr
      simp

/-- While the entry counter has not wrapped (at most 255 registrations),
`loconet_rx_notify(k, arr, size)` returns and invokes exactly the callbacks
registered under key `k`, once per registration and in registration order,
each with `arr` and `size`, and invokes no callback registered under a
different key. -/
theorem notify_dispatches_in_registration_order (regs : List LOCONET_RX_REGISTRATION)
    (fuel k : Nat) (arr : List Nat) (size : Nat)
    (hfresh : fresh_items regs) (hlen : regs.length ≤ 255) (hfuel : regs.length < fuel) :
    loconet_rx_notify_after regs fuel k arr size
      = .done (dispatch_in_registration_order regs k arr size) := by
  obtain ⟨s, hs, hchain, hsize, -⟩ := register_all_holds regs [] loconet_rx_observer_init
    ⟨rfl, rfl, by simp⟩ (by simp only [List.length_nil]; omega) (by simpa using hfresh)
  simp only [List.nil_append] at hchain hsize
  simp only [loconet_rx_notify_after, hs, loconet_rx_notify]
  by_cases h0 : s.listsize = 0
  · have hnil : regs = [] := by
      rw [hsize] at h0
      exact List.length_eq_zero.mp (by omega)
    subst hnil
    simp [h0, dispatch_in_registration_order]
  · rw [if_neg h0]
    exact notify_loop_chain s.memory regs s.list_first fuel k arr size hchain hfuel

/-- Four registrations, three of them under key 5, are dispatched in
registration order. -/
theorem notify_dispatches_in_registration_order_witness :
    loconet_rx_notify_after [⟨1, 5, 7⟩, ⟨2, 6, 8⟩, ⟨3, 5, 9⟩, ⟨4, 5, 7⟩] 10 5 [0x01, 0x02] 2
      = .done (dispatch_in_registration_order [⟨1, 5, 7⟩, ⟨2, 6, 8⟩, ⟨3, 5, 9⟩, ⟨4, 5, 7⟩]
          5 [0x01, 0x02] 2) :=
  notify_dispatches_in_registration_order [⟨1, 5, 7⟩, ⟨2, 6, 8⟩, ⟨3, 5, 9⟩, ⟨4, 5, 7⟩]
    10 5 [0x01, 0x02] 2 (by decide) (by decide) (by decide)

/-! ### C22 -/

/-- C22, failing input: the registry holds the single entry `(5, cb)` (or any
list whose first entry is `(5, cb)`). `loconet_rx_unregister_callback(5, cb)`
unlinks and frees the first item, sets `cur = prev`, which is the null
pointer, and then evaluates `cur->next`: it reads through the null pointer
and does not complete. When the first entry does not match, matching entries
in the middle and at the end are removed and the other entries keep their
order. -/
theorem unregister_first_entry_faults :
    (loconet_rx_register_all loconet_rx_observer_init [⟨1, 5, 7⟩]).is_done = true ∧
    (loconet_rx_unregister_after [⟨1, 5, 7⟩] 10 5 7).is_fault = true ∧
    (loconet_rx_register_all loconet_rx_observer_init
      [⟨1, 5, 7⟩, ⟨2, 6, 8⟩, ⟨3, 5, 7⟩]).is_done = true ∧
    (loconet_rx_unregister_after [⟨1, 5, 7⟩, ⟨2, 6, 8⟩, ⟨3, 5, 7⟩] 10 5 7).is_fault = true ∧
    observer_entries_after_unregister
      [⟨1, 6, 8⟩, ⟨2, 5, 7⟩, ⟨3, 6, 9⟩, ⟨4, 5, 7⟩, ⟨5, 5, 7⟩] 10 5 7
      = .done [(6, 8), (6, 9)] := by
  decide

/-! ### C23 -/

theorem copy_congr (f g : Nat → Nat) (index count : Nat)
    (h : ∀ k, k < count →
      f ((index + k) % LOCONET_RX_RINGBUFFER_Size) = g ((index + k) % LOCONET_RX_RINGBUFFER_Size)) :
    loconet_rx_copy f index count = loconet_rx_copy g index count := by
  induction count generalizing index with
  | zero => rfl
  | succ n ih =>
    have h0 := h 0 (by omega)
    simp only [Nat.add_zero] at h0
    simp only [loconet_rx_copy, h0, List.cons.injEq, true_and]
    apply ih
    intro k hk
    have := h (k + 1) (by omega)
    rwa [show index + (k + 1) = index + 1 + k by omega] at this

theorem copy_succ (f : Nat → Nat) (index count : Nat) :
    loconet_rx_copy f index (count + 1)
      = loconet_rx_copy f index count ++ [f ((index + count) % LOCONET_RX_RINGBUFFER_Size)] := by
  induction count generalizing index with
  | zero => simp [loconet_rx_copy]
  | succ n ih =>
    rw [loconet_rx_copy, ih (index + 1)]
    simp only [loconet_rx_copy, List.cons_append, List.cons.injEq, true_and]
    rw [show index + 1 + n = index + (n + 1) by omega]

/-- A push that does not block stores the byte behind the unread bytes. -/
theorem push_some (rb rb' : LOCONET_RX_RINGBUFFER_Type) (hwf : ringbuffer_wf rb) (b : Nat)
    (h : loconet_rx_buffer_push rb b = some rb') :
    ringbuffer_wf rb' ∧
    rb' = { rb with buffer := Function.update rb.buffer rb.writer b,
                    writer := (rb.writer + 1) % LOCONET_RX_RINGBUFFER_Size } ∧
    loconet_rx_available rb' = loconet_rx_available rb + 1 ∧
    ringbuffer_contents rb' = ringbuffer_contents rb ++ [b] := by
  unfold ringbuffer_wf LOCONET_RX_RINGBUFFER_Size at hwf
  simp only [loconet_rx_buffer_push] at h
  split_ifs at h with hfull
  simp only [Option.some.injEq] at h
  subst h
  simp only [LOCONET_RX_RINGBUFFER_Size] at hfull
  have hav : loconet_rx_available
      { rb with buffer := Function.update rb.buffer rb.writer b,
                writer := (rb.writer + 1) % LOCONET_RX_RINGBUFFER_Size }
      = loconet_rx_available rb + 1 := by
    simp only [loconet_rx_available, LOCONET_RX_RINGBUFFER_Size]
    omega
  refine ⟨?_, rfl, hav, ?_⟩
  · simp only [ringbuffer_wf, LOCONET_RX_RINGBUFFER_Size]
    omega
  · unfold ringbuffer_contents
    rw [hav, copy_succ]
    have hw : (rb.reader + loconet_rx_available rb) % LOCONET_RX_RINGBUFFER_Size = rb.writer := by
      simp only [loconet_rx_available, LOCONET_RX_RINGBUFFER_Size]
      omega
    dsimp only
    rw [hw, Function.update_same]
    congr 1
    apply copy_congr
    intro k hk
    have hne : (rb.reader + k) % LOCONET_RX_RINGBUFFER_Size ≠ rb.writer := by
      simp only [loconet_rx_available, LOCONET_RX_RINGBUFFER_Size] at hk ⊢
      omega
    simp only [Function.update_noteq hne]

/-- C23: when the buffer is not full (the next writer position differs from
the reader), `loconet_rx_buffer_push(b)` stores `b` at the current writer
position, advances the writer by one modulo 64 and leaves the reader and
every other buffer cell unchanged, so that `b` comes right behind the bytes
that were unread before, in the order the framer reads them; the push blocks
(stores nothing) exactly as long as the next writer position equals the
reader. -/
theorem push_stores_in_order (rb : LOCONET_RX_RINGBUFFER_Type) (hwf : ringbuffer_wf rb)
    (b : Nat) :
    ((rb.writer + 1) % 64 ≠ rb.reader →
      ∃ rb', loconet_rx_buffer_push rb b = some rb' ∧
        rb'.buffer rb.writer = b ∧
        rb'.writer = (rb.writer + 1) % 64 ∧
        rb'.reader = rb.reader ∧
        (∀ i, i ≠ rb.writer → rb'.buffer i = rb.buffer i) ∧
        ringbuffer_contents rb' = ringbuffer_contents rb ++ [b]) ∧
    (loconet_rx_buffer_push rb b = none ↔ (rb.writer + 1) % 64 = rb.reader) := by
  constructor
  · intro hroom
    have hpush : loconet_rx_buffer_push rb b
        = some { rb with buffer := Function.update rb.buffer rb.writer b,
                         writer := (rb.writer + 1) % LOCONET_RX_RINGBUFFER_Size } := by
      simp only [loconet_rx_buffer_push, LOCONET_RX_RINGBUFFER_Size]
      rw [if_neg hroom]
    refine ⟨_, hpush, ?_, rfl, rfl, ?_, (push_some rb _ hwf b hpush).2.2.2⟩
    · simp
    · intro i hi
      simp [Function.update_noteq hi]
  · simp only [loconet_rx_buffer_push, LOCONET_RX_RINGBUFFER_Size]
    split_ifs with h <;> simp [h]

/-- C23, witness: a push into a buffer that holds `A0 03` with the writer at
cell 2. -/
theorem push_stores_in_order_witness :
    ∃ rb', loconet_rx_buffer_push (ringbuffer_of [0xA0, 0x03] 2 0) 0x10 = some rb' ∧
      rb'.buffer (ringbuffer_of [0xA0, 0x03] 2 0).writer = 0x10 ∧
      rb'.writer = ((ringbuffer_of [0xA0, 0x03] 2 0).writer + 1) % 64 ∧
      rb'.reader = (ringbuffer_of [0xA0, 0x03] 2 0).reader ∧
      (∀ i, i ≠ (ringbuffer_of [0xA0, 0x03] 2 0).writer →
        rb'.buffer i = (ringbuffer_of [0xA0, 0x03] 2 0).buffer i) ∧
      ringbuffer_contents rb' = ringbuffer_contents (ringbuffer_of [0xA0, 0x03] 2 0) ++ [0x10] :=
  (push_stores_in_order (ringbuffer_of [0xA0, 0x03] 2 0) (by decide) 0x10).1 (by decide)

/-! ### C24 -/

theorem byte_split (b : Nat) (hb : b < 256) :
    (b &&& 0x80 ≠ 0 → b &&& 0x7F < 128 ∧ ((b &&& 0x7F) ||| 128) % 256 = b) ∧
    (¬ (b &&& 0x80 ≠ 0) → b < 128 ∧ (b ||| 0) % 256 = b) := by
  interval_cases b <;> decide

theorem and_one_shiftLeft (m i : Nat) :
    m &&& (1 <<< i) = if m.testBit i then 2 ^ i else 0 := by
  apply Nat.eq_of_testBit_eq
  intro j
  rw [Nat.testBit_and, Nat.one_shiftLeft, Nat.testBit_two_pow]
  by_cases h : i = j
  · subst h
    cases hm : m.testBit i <;> simp [hm]
  · cases hm : m.testBit i <;> simp [hm, h, Nat.testBit_two_pow]

theorem fix_term (m i : Nat) (hi : i < 7) :
    (m &&& (1 <<< i)) <<< (7 - i) = if m.testBit i then 128 else 0 := by
  rw [and_one_shiftLeft]
  split_ifs
  · rw [Nat.shiftLeft_eq, ← pow_add, show i + (7 - i) = 7 by omega]
    rfl
  · simp

theorem pack_low_bits (bytes : List Nat) (index msb k : Nat) (hk : k < index)
    (hidx : index + bytes.length ≤ 8) (hmsb : msb < 256) :
    (loconet_cv_response_msb_loop index msb bytes).1.testBit k = msb.testBit k ∧
    (loconet_cv_response_msb_loop index msb bytes).1 < 256 := by
  induction bytes generalizing index msb with
  | nil => exact ⟨rfl, hmsb⟩
  | cons b rest ih =>
    simp only [List.length_cons] at hidx
    simp only [loconet_cv_response_msb_loop]
    have hor : (msb ||| 1 <<< index) < 256 := by
      have h1 : 1 <<< index < 2 ^ 8 := by
        rw [Nat.one_shiftLeft]
        exact Nat.pow_lt_pow_right (by decide) (by omega)
      exact Nat.or_lt_two_pow (n := 8) hmsb h1
    split_ifs with hb
    · simp only
      obtain ⟨h1, h2⟩ := ih (index + 1) ((msb ||| 1 <<< index) % 256) (by omega) (by omega)
        (Nat.mod_lt _ (by decide))
      refine ⟨?_, h2⟩
      rw [h1, Nat.mod_eq_of_lt hor, Nat.testBit_or, Nat.one_shiftLeft, Nat.testBit_two_pow]
      simp [show ¬ index = k by omega]
    · simp only
      exact ih (index + 1) msb (by omega) (by omega) hmsb

theorem pack_high_bits (bytes : List Nat) (index msb k : Nat) (hk : index + bytes.length ≤ k)
    (hidx : index + bytes.length ≤ 8) (hmsb : msb < 256) :
    (loconet_cv_response_msb_loop index msb bytes).1.testBit k = msb.testBit k := by
  induction bytes generalizing index msb with
  | nil => rfl
  | cons b rest ih =>
    simp only [List.length_cons] at hidx hk
    simp only [loconet_cv_response_msb_loop]
    have hor : (msb ||| 1 <<< index) < 256 := by
      have h1 : 1 <<< index < 2 ^ 8 := by
        rw [Nat.one_shiftLeft]
        exact Nat.pow_lt_pow_right (by decide) (by omega)
      exact Nat.or_lt_two_pow (n := 8) hmsb h1
    split_ifs with hb
    · simp only
      rw [ih (index + 1) ((msb ||| 1 <<< index) % 256) (by omega) (by omega)
        (Nat.mod_lt _ (by decide)), Nat.mod_eq_of_lt hor, Nat.testBit_or, Nat.one_shiftLeft,
        Nat.testBit_two_pow]
      simp [show ¬ index = k by omega]
    · simp only
      exact ih (index + 1) msb (by omega) (by omega) hmsb

theorem pack_unpack (bytes : List Nat) (index msb M : Nat)
    (hidx : index + bytes.length ≤ 7) (hmsb : msb < 256)
    (hclear : ∀ k, index ≤ k → msb.testBit k = false)
    (hb : ∀ b ∈ bytes, b < 256)
    (hM : ∀ k, index ≤ k → k < index + bytes.length →
      M.testBit k = (loconet_cv_response_msb_loop index msb bytes).1.testBit k) :
    loconet_cv_fix_msb_loop M 7 index (loconet_cv_response_msb_loop index msb bytes).2 = bytes ∧
    (∀ p ∈ (loconet_cv_response_msb_loop index msb bytes).2, p < 0x80) ∧
    (∀ j, j < bytes.length →
      ((loconet_cv_response_msb_loop index msb bytes).1.testBit (index + j) = true ↔
        bytes.getD j 0 &&& 0x80 ≠ 0) ∧
      (loconet_cv_response_msb_loop index msb bytes).2.getD j 0 = bytes.getD j 0 % 128) := by
  induction bytes generalizing index msb with
  | nil => exact ⟨rfl, by simp [loconet_cv_response_msb_loop], by simp⟩
  | cons b rest ih =>
    simp only [List.length_cons] at hidx hM
    have hb256 : b < 256 := hb b (List.mem_cons_self _ _)
    have hrest : ∀ x ∈ rest, x < 256 := fun x hx => hb x (List.mem_cons_of_mem _ hx)
    obtain ⟨hhigh, hlow⟩ := byte_split b hb256
    have hor : (msb ||| 1 <<< index) < 256 := by
      have h1 : 1 <<< index < 2 ^ 8 := by
        rw [Nat.one_shiftLeft]
        exact Nat.pow_lt_pow_right (by decide) (by omega)
      exact Nat.or_lt_two_pow (n := 8) hmsb h1
    have hM0 := hM index (le_refl _) (by omega)
    by_cases hbit : b &&& 0x80 ≠ 0
    · have hpack : loconet_cv_response_msb_loop index msb (b :: rest)
          = ((loconet_cv_response_msb_loop (index + 1) ((msb ||| 1 <<< index) % 256) rest).1,
             (b &&& 0x7F) :: (loconet_cv_response_msb_loop (index + 1)
               ((msb ||| 1 <<< index) % 256) rest).2) := by
        simp only [loconet_cv_response_msb_loop, if_pos hbit]
      rw [hpack] at hM0 hM ⊢
      simp only at hM0 hM ⊢
      have hclear' : ∀ k, index + 1 ≤ k → ((msb ||| 1 <<< index) % 256).testBit k = false := by
        intro k hk
        rw [Nat.mod_eq_of_lt hor, Nat.testBit_or, Nat.one_shiftLeft, Nat.testBit_two_pow,
          hclear k (by omega)]
        simp [show ¬ index = k by omega]
      have hfinal : (loconet_cv_response_msb_loop (index + 1)
          ((msb ||| 1 <<< index) % 256) rest).1.testBit index = true := by
        rw [(pack_low_bits rest (index + 1) _ index (by omega) (by omega)
          (Nat.mod_lt _ (by decide))).1, Nat.mod_eq_of_lt hor, Nat.testBit_or,
          Nat.one_shiftLeft, Nat.testBit_two_pow]
        simp
      obtain ⟨ih1, ih2, ih3⟩ := ih (index + 1) ((msb ||| 1 <<< index) % 256) (by omega)
        (Nat.mod_lt _ (by decide)) hclear' hrest
        (fun k hk1 hk2 => hM k (by omega) (by omega))
      refine ⟨?_, ?_, ?_⟩
      · simp only [loconet_cv_fix_msb_loop, if_pos (show index < 7 by omega)]
        rw [fix_term M index (by omega), hM0, hfinal, if_pos rfl, (hhigh hbit).2, ih1]
      · intro p hp
        rcases List.mem_cons.mp hp with rfl | hp
        · exact (hhigh hbit).1
        · exact ih2 p hp
      · intro j hj
        cases j with
        | zero =>
          simp only [Nat.add_zero, hfinal, List.getD_cons_zero, true_iff]
          refine ⟨hbit, ?_⟩
          have := (hhigh hbit)
          revert this hbit
          interval_cases b <;> decide
        | succ j =>
          simp only [List.getD_cons_succ]
          rw [show index + (j + 1) = index + 1 + j by omega]
          exact ih3 j (by simpa using hj)
    · have hpack : loconet_cv_response_msb_loop index msb (b :: rest)
          = ((loconet_cv_response_msb_loop (index + 1) msb rest).1,
             b :: (loconet_cv_response_msb_loop (index + 1) msb rest).2) := by
        simp only [loconet_cv_response_msb_loop, if_neg hbit]
      rw [hpack] at hM0 hM ⊢
      simp only at hM0 hM ⊢
      have hfinal : (loconet_cv_response_msb_loop (index + 1) msb rest).1.testBit index
          = false := by
        rw [(pack_low_bits rest (index + 1) _ index (by omega) (by omega) hmsb).1,
          hclear index (le_refl _)]
      obtain ⟨ih1, ih2, ih3⟩ := ih (index + 1) msb (by omega) hmsb
        (fun k hk => hclear k (by omega)) hrest
        (fun k hk1 hk2 => hM k (by omega) (by omega))
      refine ⟨?_, ?_, ?_⟩
      · simp only [loconet_cv_fix_msb_loop, if_pos (show index < 7 by omega)]
        rw [fix_term M index (by omega), hM0, hfinal, if_neg (by simp), (hlow hbit).2, ih1]
      · intro p hp
        rcases List.mem_cons.mp hp with rfl | hp
        · exact (hlow hbit).1
        · exact ih2 p hp
      · intro j hj
        cases j with
        | zero =>
          simp only [Nat.add_zero, hfinal, List.getD_cons_zero]
          refine ⟨by simpa using hbit, ?_⟩
          have := (hlow hbit).1
          omega
        | succ j =>
          simp only [List.getD_cons_succ]
          rw [show index + (j + 1) = index + 1 + j by omega]
          exact ih3 j (by simpa using hj)

/-- C24: MSB side-channel round trip. For every 7 payload bytes, packing them
as the response builder does (its loop over `resp_data[6..12]`, starting from
`most_significant_bits = 0`) sets bit `i` of `most_significant_bits` exactly
when byte `i` has bit 7 set and clears bit 7 of each byte; after packing, all
7 bytes and the msb byte are below `0x80`; and unpacking the packed bytes with
`loconet_cv_fix_msb(msb, bytes, 7)` yields the original 7 bytes. -/
theorem msb_round_trip (bytes : List Nat) (hlen : bytes.length = 7)
    (hb : ∀ b ∈ bytes, b < 256) :
    loconet_cv_fix_msb (loconet_cv_response_msb_loop 0 0 bytes).1
      (loconet_cv_response_msb_loop 0 0 bytes).2 7 = bytes ∧
    (∀ p ∈ (loconet_cv_response_msb_loop 0 0 bytes).2, p < 0x80) ∧
    (loconet_cv_response_msb_loop 0 0 bytes).1 < 0x80 ∧
    (∀ i, i < 7 →
      ((loconet_cv_response_msb_loop 0 0 bytes).1.testBit i = true ↔
        bytes.getD i 0 &&& 0x80 ≠ 0) ∧
      (loconet_cv_response_msb_loop 0 0 bytes).2.getD i 0 = bytes.getD i 0 % 128) := by
  obtain ⟨h1, h2, h3⟩ := pack_unpack bytes 0 0 (loconet_cv_response_msb_loop 0 0 bytes).1
    (by omega) (by decide) (fun k _ => Nat.zero_testBit k) hb (fun k _ _ => rfl)
  refine ⟨h1, h2, ?_, ?_⟩
  · apply Nat.lt_pow_two_of_testBit (n := 7)
    intro k hk
    rw [pack_high_bits bytes 0 0 k (by omega) (by omega) (by decide), Nat.zero_testBit]
  · intro i hi
    have := h3 i (by omega)
    rwa [Nat.zero_add] at this

/-- C24, witness: the bytes `BA 04 90 00 FF 7F 80`. -/
theorem msb_round_trip_witness :
    loconet_cv_fix_msb
      (loconet_cv_response_msb_loop 0 0 [0xBA, 0x04, 0x90, 0x00, 0xFF, 0x7F, 0x80]).1
      (loconet_cv_response_msb_loop 0 0 [0xBA, 0x04, 0x90, 0x00, 0xFF, 0x7F, 0x80]).2 7
      = [0xBA, 0x04, 0x90, 0x00, 0xFF, 0x7F, 0x80] :=
  (msb_round_trip [0xBA, 0x04, 0x90, 0x00, 0xFF, 0x7F, 0x80] rfl (by decide)).1

/-- What a receiver decodes from the data bytes of a response frame are the
fields the response was built from. -/
theorem response_decode_fields (resp : LOCONET_CV_MSG_Type)
    (h1 : resp.source < 256) (h2 : resp.destination < 65536) (h3 : resp.request_id < 256)
    (h4 : resp.device_class < 65536) (h5 : resp.lncv_number < 65536)
    (h6 : resp.lncv_value < 65536) (h7 : resp.flags < 256) :
    (loconet_cv_response_decode (loconet_cv_response_data resp)).source = resp.source ∧
    (loconet_cv_response_decode (loconet_cv_response_data resp)).destination
      = resp.destination ∧
    (loconet_cv_response_decode (loconet_cv_response_data resp)).request_id
      = resp.request_id ∧
    (loconet_cv_response_decode (loconet_cv_response_data resp)).device_class
      = resp.device_class ∧
    (loconet_cv_response_decode (loconet_cv_response_data resp)).lncv_number
      = resp.lncv_number ∧
    (loconet_cv_response_decode (loconet_cv_response_data resp)).lncv_value
      = resp.lncv_value ∧
    (loconet_cv_response_decode (loconet_cv_response_data resp)).flags = resp.flags := by
  have hrt := (msb_round_trip
    [resp.device_class % 256, resp.device_class / 256 % 256,
     resp.lncv_number % 256, resp.lncv_number / 256 % 256,
     resp.lncv_value % 256, resp.lncv_value / 256 % 256, resp.flags % 256] rfl
    (by
      intro b hb
      simp only [List.mem_cons, List.mem_singleton, List.not_mem_nil, or_false] at hb
      rcases hb with rfl | rfl | rfl | rfl | rfl | rfl | rfl <;> omega)).1
  simp only [loconet_cv_response_decode, loconet_cv_unpack, loconet_cv_response_data,
    LOCONET_CV_MSG_bytes, List.drop_succ_cons, List.drop_zero, List.take_succ_cons,
    List.take_zero, List.cons_append, List.nil_append, List.getD_cons_succ, List.getD_cons_zero,
    Nat.zero_mod]
  rw [hrt]
  simp only [LOCONET_CV_MSG_of_bytes, List.getD_cons_succ, List.getD_cons_zero]
  refine ⟨?_, ?_, ?_, ?_, ?_, ?_, ?_⟩ <;> omega

/-! ### C25 -/

/-- C25: from every state, `loconet_irq_flank_fall` sets `busy`, arms the
line-break timer with 900 us and puts the state machine in `LineBreakWait`
(and no other wait state), and `loconet_irq_flank_rise` sets `busy`, arms the
carrier-detect timer with 1200 us and puts the state machine in
`CarrierDetectWait` (and no other wait state); both leave `transmitting`,
`collision_detected` and Config unchanged. -/
theorem flank_handlers_set_busy_and_arm (s : LOCONET_Type) :
    (loconet_irq_flank_fall s).state.status.BUSY = true ∧
    (loconet_irq_flank_fall s).calls = [.flank_timer_delay 900] ∧
    (loconet_irq_flank_fall s).state.timer_status.reg = LOCONET_TIMER_STATUS_LINE_BREAK ∧
    (loconet_irq_flank_fall s).state.timer_status.LINE_BREAK = 1 ∧
    (loconet_irq_flank_fall s).state.timer_status.CARRIER_DETECT = 0 ∧
    (loconet_irq_flank_fall s).state.timer_status.MASTER_DELAY = 0 ∧
    (loconet_irq_flank_fall s).state.timer_status.PRIORITY_DELAY = 0 ∧
    (loconet_irq_flank_fall s).state.status.TRANSMIT = s.status.TRANSMIT ∧
    (loconet_irq_flank_fall s).state.status.COLLISION_DETECTED = s.status.COLLISION_DETECTED ∧
    (loconet_irq_flank_fall s).state.config = s.config ∧
    (loconet_irq_flank_rise s).state.status.BUSY = true ∧
    (loconet_irq_flank_rise s).calls = [.flank_timer_delay 1200] ∧
    (loconet_irq_flank_rise s).state.timer_status.reg = LOCONET_TIMER_STATUS_CARRIER_DETECT ∧
    (loconet_irq_flank_rise s).state.timer_status.CARRIER_DETECT = 1 ∧
    (loconet_irq_flank_rise s).state.timer_status.MASTER_DELAY = 0 ∧
    (loconet_irq_flank_rise s).state.timer_status.LINE_BREAK = 0 ∧
    (loconet_irq_flank_rise s).state.timer_status.PRIORITY_DELAY = 0 ∧
    (loconet_irq_flank_rise s).state.status.TRANSMIT = s.status.TRANSMIT ∧
    (loconet_irq_flank_rise s).state.status.COLLISION_DETECTED = s.status.COLLISION_DETECTED ∧
    (loconet_irq_flank_rise s).state.config = s.config := by
  simp [loconet_irq_flank_fall, loconet_irq_flank_rise, LOCONET_DELAY_LINE_BREAK,
    LOCONET_DELAY_CARRIER_DETECT, LOCONET_TIMER_STATUS_LINE_BREAK,
    LOCONET_TIMER_STATUS_CARRIER_DETECT, LOCONET_TIMER_STATUS_Type.LINE_BREAK,
    LOCONET_TIMER_STATUS_Type.CARRIER_DETECT, LOCONET_TIMER_STATUS_Type.MASTER_DELAY,
    LOCONET_TIMER_STATUS_Type.PRIORITY_DELAY]

/-! ### C26 -/

/-- C26: timer-expiry transitions of `loconet_irq_timer`. In
`CarrierDetectWait` a bus master clears `busy` and arms no timer (`Idle`), a
non-master arms the 360 us master-delay timer and enters `MasterDelayWait`; in
`MasterDelayWait` a nonzero priority arms a timer of priority x 60 us and
enters `PriorityDelayWait`, a zero priority clears `busy` and arms no timer
(`Idle`); in `PriorityDelayWait` `busy` is cleared and no timer is armed
(`Idle`). `Idle` is the state with `busy` clear and no timer pending: the
handler leaves `loconet_timer_status` as it is when it arms no timer. Nothing
else changes in any of these transitions. -/
theorem timer_expiry_transitions (s : LOCONET_Type) (hp : s.config.PRIORITY < 16) :
    (s.timer_status.reg = LOCONET_TIMER_STATUS_CARRIER_DETECT → s.config.MASTER ≠ 0 →
      loconet_irq_timer s = ⟨{ s with status := { s.status with BUSY := false } }, []⟩) ∧
    (s.timer_status.reg = LOCONET_TIMER_STATUS_CARRIER_DETECT → s.config.MASTER = 0 →
      loconet_irq_timer s = ⟨{ s with timer_status := ⟨LOCONET_TIMER_STATUS_MASTER_DELAY⟩ },
        [.flank_timer_delay 360]⟩) ∧
    (s.timer_status.reg = LOCONET_TIMER_STATUS_MASTER_DELAY → s.config.PRIORITY ≠ 0 →
      loconet_irq_timer s = ⟨{ s with timer_status := ⟨LOCONET_TIMER_STATUS_PRIORITY_DELAY⟩ },
        [.flank_timer_delay (s.config.PRIORITY * 60)]⟩) ∧
    (s.timer_status.reg = LOCONET_TIMER_STATUS_MASTER_DELAY → s.config.PRIORITY = 0 →
      loconet_irq_timer s = ⟨{ s with status := { s.status with BUSY := false } }, []⟩) ∧
    (s.timer_status.reg = LOCONET_TIMER_STATUS_PRIORITY_DELAY →
      loconet_irq_timer s = ⟨{ s with status := { s.status with BUSY := false } }, []⟩) := by
  have hmod : s.config.PRIORITY * LOCONET_DELAY_PRIORITY_DELAY % 65536
      = s.config.PRIORITY * 60 := by
    unfold LOCONET_DELAY_PRIORITY_DELAY; omega
  refine ⟨fun ht hm => ?_, fun ht hm => ?_, fun ht hne => ?_, fun ht h0 => ?_, fun ht => ?_⟩
  · simp [loconet_irq_timer, LOCONET_TIMER_STATUS_Type.CARRIER_DETECT, ht,
      LOCONET_TIMER_STATUS_CARRIER_DETECT, hm]
  · simp [loconet_irq_timer, LOCONET_TIMER_STATUS_Type.CARRIER_DETECT, ht,
      LOCONET_TIMER_STATUS_CARRIER_DETECT, hm, LOCONET_DELAY_MASTER_DELAY]
  · rw [master_delay_expiry s ht, if_pos hne, hmod]
  · rw [master_delay_expiry s ht, if_neg (not_not.mpr h0)]
  · exact priority_delay_expiry s ht

/-- C26, witness: the carrier-detect expiry of a bus master and the
master-delay expiry of a device with priority 5. -/
theorem timer_expiry_transitions_witness :
    loconet_irq_timer ⟨⟨3, 1, 5⟩, ⟨true, false, false⟩, ⟨1⟩⟩
      = ⟨⟨⟨3, 1, 5⟩, ⟨false, false, false⟩, ⟨1⟩⟩, []⟩ ∧
    loconet_irq_timer ⟨⟨3, 0, 5⟩, ⟨true, false, false⟩, ⟨2⟩⟩
      = ⟨⟨⟨3, 0, 5⟩, ⟨true, false, false⟩, ⟨8⟩⟩, [.flank_timer_delay (5 * 60)]⟩ :=
  ⟨(timer_expiry_transitions ⟨⟨3, 1, 5⟩, ⟨true, false, false⟩, ⟨1⟩⟩ (by decide)).1
      rfl (by decide),
   (timer_expiry_transitions ⟨⟨3, 0, 5⟩, ⟨true, false, false⟩, ⟨2⟩⟩ (by decide)).2.2.1
      rfl (by decide)⟩

/-! ### C27 -/

/-- C27: a timer expiry in `LineBreakWait` clears `collision_detected` and
re-enables send/receive on the channel exactly once, leaving `busy`,
`transmitting`, Config and the timer status unchanged and arming no timer; a
timer expiry in any other wait state (the bit of `CarrierDetectWait`,
`MasterDelayWait` or `PriorityDelayWait` is set, or the bit of `LineBreakWait`
is clear) never changes `collision_detected` and never re-enables the
channel. -/
theorem line_break_expiry_reenables_channel (s : LOCONET_Type) :
    (s.timer_status.reg = LOCONET_TIMER_STATUS_LINE_BREAK →
      loconet_irq_timer s =
        ⟨{ s with status := { s.status with COLLISION_DETECTED := false } },
          [.hw_enable_rx_tx]⟩) ∧
    (s.timer_status.CARRIER_DETECT ≠ 0 ∨ s.timer_status.MASTER_DELAY ≠ 0 ∨
        s.timer_status.PRIORITY_DELAY ≠ 0 ∨ s.timer_status.LINE_BREAK = 0 →
      (loconet_irq_timer s).state.status.COLLISION_DETECTED = s.status.COLLISION_DETECTED ∧
      LOCONET_HW_Call.hw_enable_rx_tx ∉ (loconet_irq_timer s).calls) := by
  constructor
  · intro ht
    simp [loconet_irq_timer, LOCONET_TIMER_STATUS_Type.CARRIER_DETECT,
      LOCONET_TIMER_STATUS_Type.MASTER_DELAY, LOCONET_TIMER_STATUS_Type.PRIORITY_DELAY,
      LOCONET_TIMER_STATUS_Type.LINE_BREAK, ht, LOCONET_TIMER_STATUS_LINE_BREAK]
  · intro h
    unfold loconet_irq_timer
    split_ifs with h1 h2 h3 h4 h5 h6 <;> simp_all

/-- C27, witness: the line-break expiry after a collision, and a
carrier-detect expiry with `collision_detected` set. -/
theorem line_break_expiry_reenables_channel_witness :
    loconet_irq_timer ⟨⟨3, 0, 5⟩, ⟨true, false, true⟩, ⟨4⟩⟩
      = ⟨⟨⟨3, 0, 5⟩, ⟨true, false, false⟩, ⟨4⟩⟩, [.hw_enable_rx_tx]⟩ ∧
    (loconet_irq_timer ⟨⟨3, 0, 5⟩, ⟨true, false, true⟩, ⟨1⟩⟩).state.status.COLLISION_DETECTED
      = true :=
  ⟨(line_break_expiry_reenables_channel ⟨⟨3, 0, 5⟩, ⟨true, false, true⟩, ⟨4⟩⟩).1 rfl,
   ((line_break_expiry_reenables_channel ⟨⟨3, 0, 5⟩, ⟨true, false, true⟩, ⟨1⟩⟩).2
      (Or.inl (by decide))).1⟩

/-! ### C28 -/

/-- C28: `loconet_irq_collision` always sets `collision_detected` and disables
channel send/receive; if `transmitting` was set it additionally clears
`transmitting`, returns the in-flight message to the transmit queue exactly
once and forces the transmit line high (and turns the activity LED off); if
`transmitting` was clear it does none of these; `busy`, Config and the timer
status are unchanged in both cases. -/
theorem collision_handling (s : LOCONET_Type) :
    (s.status.TRANSMIT = true →
      loconet_irq_collision s =
        ⟨{ s with status := ⟨s.status.BUSY, false, true⟩ },
          [.hw_disable_rx_tx, .tx_reset_current_message_to_queue, .hw_force_tx_high,
            .activity_led_off]⟩) ∧
    (s.status.TRANSMIT = false →
      loconet_irq_collision s =
        ⟨{ s with status := ⟨s.status.BUSY, false, true⟩ }, [.hw_disable_rx_tx]⟩) := by
  obtain ⟨config, ⟨busy, transmit, collision⟩, timer⟩ := s
  constructor <;> intro h <;> simp only at h <;> subst h <;> rfl

/-- C28, witness: a collision while transmitting and a collision while only
listening. -/
theorem collision_handling_witness :
    loconet_irq_collision ⟨⟨3, 0, 5⟩, ⟨true, true, false⟩, ⟨4⟩⟩
      = ⟨⟨⟨3, 0, 5⟩, ⟨true, false, true⟩, ⟨4⟩⟩,
          [.hw_disable_rx_tx, .tx_reset_current_message_to_queue, .hw_force_tx_high,
            .activity_led_off]⟩ ∧
    loconet_irq_collision ⟨⟨3, 0, 5⟩, ⟨true, false, false⟩, ⟨4⟩⟩
      = ⟨⟨⟨3, 0, 5⟩, ⟨true, false, true⟩, ⟨4⟩⟩, [.hw_disable_rx_tx]⟩ :=
  ⟨(collision_handling ⟨⟨3, 0, 5⟩, ⟨true, true, false⟩, ⟨4⟩⟩).1 rfl,
   (collision_handling ⟨⟨3, 0, 5⟩, ⟨true, false, false⟩, ⟨4⟩⟩).2 rfl⟩

/-! ### C29 -/

theorem copy_getD (f : Nat → Nat) (index count k : Nat) (hk : k < count) :
    (loconet_rx_copy f index count).getD k 0 = f ((index + k) % LOCONET_RX_RINGBUFFER_Size) := by
  induction count generalizing index k with
  | zero => omega
  | succ n ih =>
    cases k with
    | zero => simp [loconet_rx_copy]
    | succ k =>
      simp only [loconet_rx_copy, List.getD_cons_succ]
      rw [ih (index + 1) k (by omega), show index + 1 + k = index + (k + 1) by omega]

/-- The unread bytes start with every initial part of the contents. -/
theorem holds_of_contents (rb : LOCONET_RX_RINGBUFFER_Type) (f rest : List Nat)
    (h : ringbuffer_contents rb = f ++ rest) : ringbuffer_holds rb f := by
  have hlen : (ringbuffer_contents rb).length = loconet_rx_available rb := copy_length _ _ _
  rw [h, List.length_append] at hlen
  refine ⟨by omega, fun i hi => ?_⟩
  have := copy_getD rb.buffer rb.reader (loconet_rx_available rb) i (by omega)
  rw [← this]
  show (ringbuffer_contents rb).getD i 0 = f.getD i 0
  rw [h, List.getD_append _ _ _ _ hi]

/-- Pushes that do not block append the bytes to the unread bytes and leave
the reader alone. -/
theorem push_all_some (bytes : List Nat) (rb rb' : LOCONET_RX_RINGBUFFER_Type)
    (hwf : ringbuffer_wf rb) (h : loconet_rx_buffer_push_all rb bytes = some rb') :
    ringbuffer_wf rb' ∧ rb'.reader = rb.reader ∧
    ringbuffer_contents rb' = ringbuffer_contents rb ++ bytes := by
  induction bytes generalizing rb with
  | nil =>
    simp only [loconet_rx_buffer_push_all, Option.some.injEq] at h
    subst h
    exact ⟨hwf, rfl, by simp⟩
  | cons b rest ih =>
    simp only [loconet_rx_buffer_push_all] at h
    cases hp : loconet_rx_buffer_push rb b with
    | none => rw [hp] at h; simp at h
    | some rb1 =>
      rw [hp] at h
      obtain ⟨hwf1, heq, -, hc⟩ := push_some rb rb1 hwf b hp
      obtain ⟨hwf', hr, hc'⟩ := ih rb1 hwf1 h
      refine ⟨hwf', ?_, ?_⟩
      · rw [hr, heq]
      · rw [hc', hc]
        simp

/-- C29: the framer never consumes a partial frame. If fewer than 2 bytes are
available, or the reader points at an opcode byte whose expected frame is not
yet completely available and none of the bytes received after the opcode has
its top bit set, `loconet_rx_process` returns `0`, notifies no observer and
leaves the reader and the buffer unchanged; so when the unread bytes are the
first `a` bytes of a valid frame, the call changes nothing, and once the
remaining bytes have been pushed the next call accepts the whole frame and
calls `loconet_rx_notify` for it. -/
theorem partial_frame_not_consumed (rb : LOCONET_RX_RINGBUFFER_Type) (hwf : ringbuffer_wf rb) :
    (loconet_rx_available rb ≤ 1 → loconet_rx_process rb = ⟨0, rb, none⟩) ∧
    (has_opcode_flag (rb.buffer rb.reader) →
      loconet_rx_available rb < loconet_rx_message_size (rb.buffer rb.reader)
        (rb.buffer ((rb.reader + 1) % LOCONET_RX_RINGBUFFER_Size)) →
      (∀ k, 1 ≤ k → k < loconet_rx_available rb →
        ¬ has_opcode_flag (rb.buffer ((rb.reader + k) % LOCONET_RX_RINGBUFFER_Size))) →
      loconet_rx_process rb = ⟨0, rb, none⟩) ∧
    (∀ (f : List Nat) (a : Nat) (rb' : LOCONET_RX_RINGBUFFER_Type),
      valid_frame f → a < f.length → ringbuffer_contents rb = f.take a →
      loconet_rx_buffer_push_all rb (f.drop a) = some rb' →
      loconet_rx_process rb = ⟨0, rb, none⟩ ∧
      loconet_rx_process rb' = ⟨1, ringbuffer_advance rb' f.length,
        some (loconet_rx_notify_call (f.getD 0 0) f f.length)⟩) := by
  have hincomplete : has_opcode_flag (rb.buffer rb.reader) →
      loconet_rx_available rb < loconet_rx_message_size (rb.buffer rb.reader)
        (rb.buffer ((rb.reader + 1) % LOCONET_RX_RINGBUFFER_Size)) →
      (∀ k, 1 ≤ k → k < loconet_rx_available rb →
        ¬ has_opcode_flag (rb.buffer ((rb.reader + k) % LOCONET_RX_RINGBUFFER_Size))) →
      loconet_rx_process rb = ⟨0, rb, none⟩ := by
    intro hop hlt hclean
    by_cases havail : loconet_rx_available rb ≤ 1
    · exact rx_process_too_few rb hwf havail
    · exact rx_process_incomplete rb hwf (by omega) hop hlt hclean
  refine ⟨rx_process_too_few rb hwf, hincomplete, ?_⟩
  intro f a rb' hv ha hcontents hpush
  have h2 := valid_frame_length f hv
  have hav : loconet_rx_available rb = a := by
    have hlen : (ringbuffer_contents rb).length = loconet_rx_available rb := copy_length _ _ _
    rw [hcontents, List.length_take] at hlen
    omega
  constructor
  · by_cases havail : loconet_rx_available rb ≤ 1
    · exact rx_process_too_few rb hwf havail
    · have hholds : ringbuffer_holds rb (f.take a) :=
        holds_of_contents rb (f.take a) [] (by simpa using hcontents)
      have hbyte : ∀ i, i < a →
          rb.buffer ((rb.reader + i) % LOCONET_RX_RINGBUFFER_Size) = f.getD i 0 := by
        intro i hi
        rw [hholds.2 i (by rw [List.length_take]; omega), List.getD_eq_getElem?_getD,
          List.getElem?_take_of_lt hi, ← List.getD_eq_getElem?_getD]
      have hb0 : rb.buffer rb.reader = f.getD 0 0 := by
        have := hbyte 0 (by omega)
        rwa [Nat.add_zero, show rb.reader % LOCONET_RX_RINGBUFFER_Size = rb.reader from
          Nat.mod_eq_of_lt hwf.1] at this
      have hb1 := hbyte 1 (by omega)
      obtain ⟨_, hop, hlen, hclean, _⟩ := hv
      apply hincomplete
      · rw [hb0]; exact hop
      · rw [hb0, hb1, ← hlen]; omega
      · intro k hk1 hk
        rw [hbyte k (by omega)]
        exact hclean k (by omega) hk1
  · obtain ⟨hwf', -, hc'⟩ := push_all_some (f.drop a) rb rb' hwf hpush
    rw [hcontents, List.take_append_drop] at hc'
    exact rx_process_valid_frame rb' hwf' f hv
      (holds_of_contents rb' f [] (by simpa using hc'))

/-- C29, witness: the first three bytes of the frame `A0 03 10 4C` are in the
buffer; the call changes nothing, and after the fourth byte has been pushed
the frame is accepted. -/
theorem partial_frame_not_consumed_witness :
    loconet_rx_process (ringbuffer_of [0xA0, 0x03, 0x10] 3 0)
      = ⟨0, ringbuffer_of [0xA0, 0x03, 0x10] 3 0, none⟩ ∧
    loconet_rx_process
        { ringbuffer_of [0xA0, 0x03, 0x10] 3 0 with
          buffer := Function.update (ringbuffer_of [0xA0, 0x03, 0x10] 3 0).buffer 3 0x4C,
          writer := 4 }
      = ⟨1, ringbuffer_advance
          { ringbuffer_of [0xA0, 0x03, 0x10] 3 0 with
            buffer := Function.update (ringbuffer_of [0xA0, 0x03, 0x10] 3 0).buffer 3 0x4C,
            writer := 4 } 4,
        some (loconet_rx_notify_call 0xA0 [0xA0, 0x03, 0x10, 0x4C] 4)⟩ :=
  (partial_frame_not_consumed (ringbuffer_of [0xA0, 0x03, 0x10] 3 0) (by decide)).2.2
    [0xA0, 0x03, 0x10, 0x4C] 3 _ (by decide) (by decide) (by decide) rfl

/-! ### C30 -/

/-- C30: for all reader and writer positions in [0, 64), the framer's fictive
writer index (writer + 64 when the writer is numerically behind the reader,
the writer otherwise) fits an 8-bit value, and the fictive writer minus the
reader equals (writer - reader) mod 64, the number of bytes pushed and not yet
consumed; this number never exceeds 63, a push blocks exactly when it is 63,
and a push that does not block raises it by one. -/
theorem available_count (rb : LOCONET_RX_RINGBUFFER_Type) (hwf : ringbuffer_wf rb) (b : Nat) :
    loconet_rx_fictive_writer rb
      = (if rb.writer < rb.reader then rb.writer + 64 else rb.writer) ∧
    loconet_rx_fictive_writer rb < 256 ∧
    ((loconet_rx_fictive_writer rb : Int) - (rb.reader : Int)
      = ((rb.writer : Int) - (rb.reader : Int)) % 64) ∧
    loconet_rx_fictive_writer rb - rb.reader = loconet_rx_available rb ∧
    (ringbuffer_contents rb).length = loconet_rx_available rb ∧
    loconet_rx_available rb ≤ 63 ∧
    (loconet_rx_buffer_push rb b = none ↔ loconet_rx_available rb = 63) ∧
    (∀ rb', loconet_rx_buffer_push rb b = some rb' →
      loconet_rx_available rb' = loconet_rx_available rb + 1) := by
  have hfw := fictive_writer_eq rb hwf
  have ha := available_le rb
  have hr : rb.reader < 64 := hwf.1
  have hw : rb.writer < 64 := hwf.2
  refine ⟨?_, by omega, ?_, by omega, copy_length _ _ _, ha, ?_, ?_⟩
  · unfold loconet_rx_fictive_writer LOCONET_RX_RINGBUFFER_Size
    split_ifs <;> omega
  · rw [hfw]
    unfold loconet_rx_available LOCONET_RX_RINGBUFFER_Size
    omega
  · simp only [loconet_rx_buffer_push, loconet_rx_available, LOCONET_RX_RINGBUFFER_Size]
    split_ifs with h
    · simp only [true_iff]
      omega
    · simp only [false_iff, reduceCtorEq]
      omega
  · intro rb' h
    exact (push_some rb rb' hwf b h).2.2.1

/-- C30, witness: reader at cell 60, writer wrapped around to cell 3. -/
theorem available_count_witness :
    loconet_rx_fictive_writer (ringbuffer_of [] 3 60) = 67 ∧
    loconet_rx_available (ringbuffer_of [] 3 60) ≤ 63 :=
  have h := available_count (ringbuffer_of [] 3 60) (by decide) 0
  ⟨h.1, h.2.2.2.2.2.1⟩

/-! ### C31 -/

/-- C31: `loconet_cv_set(n, v)` persists a page (write into the staging area,
then commit) and calls the hook `loconet_cv_written_event(n, v)` if and only
if the status it returns is OK and `v` differs from the raw stored value of
slot `n`. The persisted page is page 0 with slot `n` set to `v`; when slot 0 is
persisted, slot 1 is also set to the device-class marker `0x4BA` and
`Config.address` becomes `v`; when slot 2 is persisted, `Config.priority`
becomes `v`; nothing else changes. In every other case (an error status, or an
equal value) the store, Config and the programming flag are unchanged and the
hook is not called. -/
theorem cv_set_persists_iff_ok_and_changed (write_allowed : Nat → Nat → Nat)
    (st : LOCONET_CV_State) (n v : Nat) :
    ((loconet_cv_set write_allowed st n v).ack = LOCONET_CV_ACK_OK ∧
        v ≠ eeprom_emulator_read_page st.eeprom (n / LOCONET_CV_PER_PAGE)
          (n % LOCONET_CV_PER_PAGE) →
      (loconet_cv_set write_allowed st n v).written_event = some (n, v) ∧
      (loconet_cv_set write_allowed st n v).state.eeprom =
        eeprom_emulator_commit_page_buffer (eeprom_emulator_write_page st.eeprom 0
          (if n = 0 then
            Function.update (Function.update (st.eeprom.pages 0) 0 v) 1 LOCONET_CV_DEVICE_CLASS
          else Function.update (st.eeprom.pages 0) n v)) ∧
      (loconet_cv_set write_allowed st n v).state.eeprom.pages 0 n = v ∧
      (∀ m, m ≠ n → ¬ (n = 0 ∧ m = 1) →
        (loconet_cv_set write_allowed st n v).state.eeprom.pages 0 m = st.eeprom.pages 0 m) ∧
      (∀ p, p ≠ 0 →
        (loconet_cv_set write_allowed st n v).state.eeprom.pages p = st.eeprom.pages p) ∧
      (n = 0 →
        (loconet_cv_set write_allowed st n v).state.eeprom.pages 0 1 = 0x4BA ∧
        (loconet_cv_set write_allowed st n v).state.config = { st.config with ADDRESS := v }) ∧
      (n = 2 →
        (loconet_cv_set write_allowed st n v).state.config = { st.config with PRIORITY := v }) ∧
      (n ≠ 0 → n ≠ 2 → (loconet_cv_set write_allowed st n v).state.config = st.config) ∧
      (loconet_cv_set write_allowed st n v).state.programming = st.programming) ∧
    (¬ ((loconet_cv_set write_allowed st n v).ack = LOCONET_CV_ACK_OK ∧
        v ≠ eeprom_emulator_read_page st.eeprom (n / LOCONET_CV_PER_PAGE)
          (n % LOCONET_CV_PER_PAGE)) →
      (loconet_cv_set write_allowed st n v).state = st ∧
      (loconet_cv_set write_allowed st n v).written_event = none) := by
  by_cases h1 : n = 1
  · subst h1
    simp [loconet_cv_set, LOCONET_CV_ACK_ERROR_READONLY, LOCONET_CV_ACK_OK]
  by_cases hge : n ≥ LOCONET_CV_NUMBERS
  · simp [loconet_cv_set, h1, hge, LOCONET_CV_ACK_ERROR_OUTOFRANGE, LOCONET_CV_ACK_OK]
  have hn : n < 30 := by unfold LOCONET_CV_NUMBERS at hge; omega
  have hpage : n / LOCONET_CV_PER_PAGE = 0 := by unfold LOCONET_CV_PER_PAGE; omega
  have hidx : n % LOCONET_CV_PER_PAGE = n := by unfold LOCONET_CV_PER_PAGE; omega
  have hn256 : n % 256 = n := by omega
  simp only [loconet_cv_set, if_neg h1, if_neg hge, hpage, hidx, Nat.zero_mod, hn256]
  by_cases hw : loconet_cv_write_allowed_core write_allowed n v = LOCONET_CV_ACK_OK ∧
      v ≠ eeprom_emulator_read_page st.eeprom 0 n
  · rw [if_pos hw]
    refine ⟨fun _ => ?_, fun hnot => absurd hw hnot⟩
    obtain ⟨hok, hne⟩ := hw
    by_cases h0 : n = 0
    · subst h0
      have hv : v < 0x3FF := by
        simp only [loconet_cv_write_allowed_core] at hok
        by_contra hv
        rw [if_neg hv] at hok
        exact absurd hok (by decide)
      have hv1024 : v % 1024 = v := by omega
      simp [eeprom_emulator_read_page, eeprom_emulator_write_page,
        eeprom_emulator_commit_page_buffer, hv1024, LOCONET_CV_DEVICE_CLASS]
      constructor
      · intro m hm0 hm1
        simp [Function.update, hm0, hm1]
      · intro p hp
        simp [Function.update, hp]
    · by_cases h2 : n = 2
      · subst h2
        have hv : v % 16 = v := by
          simp only [loconet_cv_write_allowed_core] at hok
          by_contra hv
          have : ¬ (v > 0 ∧ v < 0x010) := by omega
          rw [if_neg this] at hok
          exact absurd hok (by decide)
        simp [eeprom_emulator_read_page, eeprom_emulator_write_page,
          eeprom_emulator_commit_page_buffer, hv]
        constructor
        · intro m hm
          simp [Function.update, hm]
        · intro p hp
          simp [Function.update, hp]
      · simp [eeprom_emulator_read_page, eeprom_emulator_write_page,
          eeprom_emulator_commit_page_buffer, h0, h2]
        constructor
        · intro m hm
          simp [Function.update, hm]
        · intro p hp
          simp [Function.update, hp]
  · rw [if_neg hw]
    exact ⟨fun h => absurd h hw, fun _ => ⟨rfl, rfl⟩⟩

/-- C31, witness: on a factory-fresh store `loconet_cv_set(0, 10)` persists
slot 0; afterwards `loconet_cv_set(0, 10)` again changes nothing. -/
theorem cv_set_persists_iff_ok_and_changed_witness :
    (loconet_cv_set loconet_cv_write_allowed_dummy
      ⟨eeprom_filled 0xFFFF, ⟨3, 0, 5⟩, true⟩ 0 10).written_event = some (0, 10) ∧
    (loconet_cv_set loconet_cv_write_allowed_dummy
      ⟨⟨fun _ i => if i = 0 then 10 else 0x4BA, none⟩, ⟨3, 0, 5⟩, true⟩ 0 10).written_event
      = none :=
  ⟨((cv_set_persists_iff_ok_and_changed loconet_cv_write_allowed_dummy
      ⟨eeprom_filled 0xFFFF, ⟨3, 0, 5⟩, true⟩ 0 10).1 (by decide)).1,
   ((cv_set_persists_iff_ok_and_changed loconet_cv_write_allowed_dummy
      ⟨⟨fun _ i => if i = 0 then 10 else 0x4BA, none⟩, ⟨3, 0, 5⟩, true⟩ 0 10).2
      (by decide)).2⟩
/-! ### C32 -/

theorem rx_process_ret_needs_two (rb : LOCONET_RX_RINGBUFFER_Type) (hwf : ringbuffer_wf rb)
    (h : (loconet_rx_process rb).ret ≠ 0) : 2 ≤ loconet_rx_available rb := by
  by_contra hlt
  rw [rx_process_too_few rb hwf (by omega)] at h
  exact h rfl

theorem loop_rx_terminates_within (fuel : Nat) (rb : LOCONET_RX_RINGBUFFER_Type)
    (hwf : ringbuffer_wf rb) (h1 : 1 ≤ fuel) (hfuel : loconet_rx_available rb ≤ fuel) :
    ∃ res, loconet_loop_rx fuel rb = some res := by
  induction fuel generalizing rb with
  | zero => omega
  | succ n ih =>
    simp only [loconet_loop_rx]
    by_cases hret : (loconet_rx_process rb).ret ≠ 0
    · obtain ⟨hwf', hlt⟩ := rx_process_ret_decreases rb hwf hret
      have h2 := rx_process_ret_needs_two rb hwf hret
      obtain ⟨res, hres⟩ := ih (loconet_rx_process rb).ringbuffer hwf' (by omega) (by omega)
      rw [if_pos hret, hres]
      exact ⟨_, rfl⟩
    · rw [if_neg hret]
      exact ⟨_, rfl⟩

/-- C32: every call of `loconet_rx_process` that returns non-zero strictly
decreases the number of unread bytes in the ring buffer (and needs at least
two of them), so the loop `while (loconet_rx_process());` stops within 63
calls of `loconet_rx_process` when no byte is pushed meanwhile: the 63rd call
at the latest returns `0`. -/
theorem rx_loop_stops_within_63_calls (rb : LOCONET_RX_RINGBUFFER_Type)
    (hwf : ringbuffer_wf rb) :
    ((loconet_rx_process rb).ret ≠ 0 →
      2 ≤ loconet_rx_available rb ∧
      loconet_rx_available (loconet_rx_process rb).ringbuffer < loconet_rx_available rb) ∧
    ∃ res, loconet_loop_rx 63 rb = some res := by
  refine ⟨fun h => ⟨rx_process_ret_needs_two rb hwf h, (rx_process_ret_decreases rb hwf h).2⟩, ?_⟩
  exact loop_rx_terminates_within 63 rb hwf (by omega) (available_le rb)

/-- C32, witness: the frame `A0 03 10 4C` followed by the stray byte `00`. -/
theorem rx_loop_stops_within_63_calls_witness :
    loconet_rx_available (loconet_rx_process (ringbuffer_of [0xA0, 0x03, 0x10, 0x4C, 0x00] 5 0)).ringbuffer
      < loconet_rx_available (ringbuffer_of [0xA0, 0x03, 0x10, 0x4C, 0x00] 5 0) ∧
    ∃ res, loconet_loop_rx 63 (ringbuffer_of [0xA0, 0x03, 0x10, 0x4C, 0x00] 5 0) = some res :=
  ⟨((rx_loop_stops_within_63_calls (ringbuffer_of [0xA0, 0x03, 0x10, 0x4C, 0x00] 5 0)
      (by decide)).1 (by decide)).2,
   (rx_loop_stops_within_63_calls (ringbuffer_of [0xA0, 0x03, 0x10, 0x4C, 0x00] 5 0)
      (by decide)).2⟩

/-- The bound of 63 calls is reached: with 63 unread opcode bytes `A0` the
first 62 calls each abandon one byte and return `1`, the 63rd returns `0`. -/
theorem rx_loop_63_calls_reached :
    (loconet_loop_rx 62 (ringbuffer_of (List.replicate 63 0xA0) 63 0)).isNone = true ∧
    (loconet_loop_rx 63 (ringbuffer_of (List.replicate 63 0xA0) 63 0)).isSome = true := by
  decide

/-! ### C33 -/

/-- C33: `loconet_rx_buffer_push` and `loconet_rx_process` keep the reader and
the writer inside [0, 64): a push that stores its byte leaves the reader alone
and moves the writer to another cell of the array; a call of
`loconet_rx_process` leaves the writer and the array alone and moves the
reader forward by a number `n` of cells that is at most the number of unread
bytes at the start of the call, so the reader never passes the writer: `n`
fewer bytes are unread afterwards. -/
theorem cursors_stay_in_range (rb : LOCONET_RX_RINGBUFFER_Type) (hwf : ringbuffer_wf rb)
    (b : Nat) :
    (∀ rb', loconet_rx_buffer_push rb b = some rb' →
      rb'.reader < 64 ∧ rb'.writer < 64 ∧ rb'.reader = rb.reader) ∧
    (loconet_rx_process rb).ringbuffer.reader < 64 ∧
    (loconet_rx_process rb).ringbuffer.writer < 64 ∧
    (loconet_rx_process rb).ringbuffer.writer = rb.writer ∧
    (loconet_rx_process rb).ringbuffer.buffer = rb.buffer ∧
    ∃ n, n ≤ loconet_rx_available rb ∧
      (loconet_rx_process rb).ringbuffer.reader
        = (rb.reader + n) % LOCONET_RX_RINGBUFFER_Size ∧
      loconet_rx_available (loconet_rx_process rb).ringbuffer
        = loconet_rx_available rb - n := by
  have hr : rb.reader < 64 := hwf.1
  have hw : rb.writer < 64 := hwf.2
  have hadv : ∀ k, k ≤ loconet_rx_available rb →
      (ringbuffer_advance rb k).reader < 64 ∧ (ringbuffer_advance rb k).writer < 64 ∧
      (ringbuffer_advance rb k).writer = rb.writer ∧
      (ringbuffer_advance rb k).buffer = rb.buffer ∧
      ∃ n, n ≤ loconet_rx_available rb ∧
        (ringbuffer_advance rb k).reader = (rb.reader + n) % LOCONET_RX_RINGBUFFER_Size ∧
        loconet_rx_available (ringbuffer_advance rb k) = loconet_rx_available rb - n := by
    intro k hk
    have hwf' := advance_wf rb hwf k
    exact ⟨hwf'.1, hwf'.2, rfl, rfl, k, hk, rfl, advance_available rb hwf k hk⟩
  refine ⟨fun rb' h => ?_, ?_⟩
  · obtain ⟨hwf', heq, -, -⟩ := push_some rb rb' hwf b h
    exact ⟨hwf'.1, hwf'.2, by rw [heq]⟩
  · rcases rx_process_cases rb hwf with hc | hc | ⟨k, hk1, hk2, hc⟩ | ⟨m, hm, _, _, hc⟩ |
      ⟨m, hm, _, _, hc⟩
    · rw [hc]
      refine ⟨hr, hw, rfl, rfl, 0, Nat.zero_le _, ?_, rfl⟩
      simp only [Nat.add_zero]
      exact (Nat.mod_eq_of_lt hr).symm
    · rw [hc]
      by_cases h1 : 1 ≤ loconet_rx_available rb
      · exact hadv 1 h1
      · exfalso
        have := rx_process_too_few rb hwf (by omega)
        rw [this] at hc
        simp only [LOCONET_RX_PROCESS_Result.mk.injEq, and_true, true_and] at hc
        have hrd := congrArg LOCONET_RX_RINGBUFFER_Type.reader hc
        simp only [ringbuffer_advance, LOCONET_RX_RINGBUFFER_Size] at hrd
        omega
    · rw [hc]; exact hadv k (by omega)
    · rw [hc]; exact hadv m hm
    · rw [hc]; exact hadv m hm

/-- C33, witness: a call of `loconet_rx_process` on the buffer that holds the
frame `A0 03 10 4C`. -/
theorem cursors_stay_in_range_witness :
    (loconet_rx_process (ringbuffer_of [0xA0, 0x03, 0x10, 0x4C] 4 0)).ringbuffer.reader < 64 ∧
    (loconet_rx_process (ringbuffer_of [0xA0, 0x03, 0x10, 0x4C] 4 0)).ringbuffer.writer = 4 :=
  have h := cursors_stay_in_range (ringbuffer_of [0xA0, 0x03, 0x10, 0x4C] 4 0) (by decide) 0
  ⟨h.2.1, h.2.2.2.1⟩
/-! ### C34 -/

/-- The call `loconet_rx_process` makes to `loconet_rx_notify`: the copied
frame has `message_size >= 1` bytes; unless the frame is of the
variable-length class with a length byte below 3, the size passed is at most
the frame length minus 2 and the payload lies inside the copied bytes; for the
variable-length class with length byte 1 or 2 the size passed is
`message_size - 3` wrapped around in 8 bits (254 or 255) and the payload lies
outside the copied bytes. -/
theorem notify_payload_bounds (rb : LOCONET_RX_RINGBUFFER_Type) (hwf : ringbuffer_wf rb)
    (c : LOCONET_RX_NOTIFY_Call) (h : (loconet_rx_process rb).notify = some c) :
    c.data.length = loconet_rx_message_size (rb.buffer rb.reader)
      (rb.buffer ((rb.reader + 1) % LOCONET_RX_RINGBUFFER_Size)) ∧
    1 ≤ c.data.length ∧
    (¬ (opcode_bits_OPCODE (rb.buffer rb.reader) = 7 ∧ c.data.length < 3) →
      c.size + 2 ≤ c.data.length ∧ c.in_bounds) ∧
    (opcode_bits_OPCODE (rb.buffer rb.reader) = 7 ∧ c.data.length < 3 →
      c.size = c.data.length + 253 ∧ ¬ c.in_bounds) := by
  obtain ⟨m, hm1, hm2, hc, hck, -, -⟩ := rx_process_notify_inv rb hwf c h
  have ha := available_le rb
  have hm0 : m ≠ 0 := by
    rintro rfl
    exact absurd hck (checksum_empty_window rb.buffer rb.reader)
  have hlen : (loconet_rx_copy rb.buffer rb.reader m).length = m := copy_length _ _ _
  subst hc
  unfold loconet_rx_notify_call LOCONET_RX_NOTIFY_Call.in_bounds
  by_cases h7 : opcode_bits_OPCODE (rb.buffer rb.reader) = 7
  · simp only [if_pos h7, hlen, true_and]
    refine ⟨hm2, by omega, fun h3 => ?_, fun h3 => ?_⟩ <;> omega
  · have hm2' : 2 ≤ m := by
      rw [hm2] at hm0 ⊢
      unfold loconet_rx_message_size at hm0 ⊢
      split at hm0 <;> omega
    simp only [if_neg h7, hlen, false_and, not_false_eq_true, true_implies, false_implies,
      and_true]
    refine ⟨hm2, by omega, ?_, ?_⟩ <;> omega

/-- C34, failing input: the ring buffer holds `FF 01` (opcode byte of the
variable-length class, length byte 1). The candidate frame is the single byte
`FF`, its checksum is `0`, so it is dispatched: `loconet_rx_notify` is called
with `&data[2]` of the one-byte array and the size `1 - 3 = 254` in 8 bits,
which exceeds the frame length minus 2 and lies outside the copied byte. With
`FD 02` (length byte 2) the size is `255`. A frame with length byte `0` is not
dispatched, and with length byte `3` the size is `0`, inside the copy. -/
theorem short_variable_frame_size_wraps :
    (loconet_rx_process (ringbuffer_of [0xFF, 0x01] 2 0)).notify
      = some ⟨31, [0xFF], 2, 254⟩ ∧
    ¬ (254 + 2 ≤ ([0xFF] : List Nat).length) ∧
    ¬ (⟨31, [0xFF], 2, 254⟩ : LOCONET_RX_NOTIFY_Call).in_bounds ∧
    (⟨31, [0xFF], 2, 254⟩ : LOCONET_RX_NOTIFY_Call).payload = [] ∧
    (loconet_rx_process (ringbuffer_of [0xFD, 0x02] 2 0)).notify
      = some ⟨29, [0xFD, 0x02], 2, 255⟩ ∧
    ¬ (255 + 2 ≤ ([0xFD, 0x02] : List Nat).length) ∧
    ¬ (⟨29, [0xFD, 0x02], 2, 255⟩ : LOCONET_RX_NOTIFY_Call).in_bounds ∧
    (loconet_rx_process (ringbuffer_of [0xE0, 0x00] 2 0)).notify = none ∧
    (loconet_rx_process (ringbuffer_of [0xE0, 0x03, 0x1C] 3 0)).notify
      = some ⟨0, [0xE0, 0x03, 0x1C], 2, 0⟩ ∧
    (⟨0, [0xE0, 0x03, 0x1C], 2, 0⟩ : LOCONET_RX_NOTIFY_Call).in_bounds := by
  decide

/-! ### C35 -/

/-- C35, failing input: `register(5, cb7)`, `register(6, cb8)`,
`unregister(6, cb8)`, `register(5, cb9)`, then `loconet_rx_notify(5, arr, 2)`.
Unregistering the most recently registered entry unlinks and frees its item
but leaves `loconet_rx_observer_list_last` pointing at it. The next
registration executes `loconet_rx_observer_list_last->next = item`, a write
through that dangling pointer: when `malloc` hands out a new address the write
goes to freed memory; when `malloc` hands out the freed address again the new
item ends up pointing at itself. Either way the new item is not linked to the
list that starts at `loconet_rx_observer_list_first`, and
`loconet_rx_notify(5, ..)` calls `cb7` only, never `cb9`. Without the
unregistration in between both are called. -/
theorem registration_after_unregistering_last_not_notified :
    (loconet_rx_observer_run 10 loconet_rx_observer_init
      [.register 1 5 7, .register 2 6 8, .unregister 6 8]).is_done = true ∧
    loconet_rx_notify_after_ops
      [.register 1 5 7, .register 2 6 8, .unregister 6 8] 10 6 [0x01, 0x02] 2 = .done [] ∧
    (loconet_rx_observer_run 10 loconet_rx_observer_init
      [.register 1 5 7, .register 2 6 8, .unregister 6 8, .register 3 5 9]).is_fault = true ∧
    (loconet_rx_observer_run 10 loconet_rx_observer_init
      [.register 1 5 7, .register 2 6 8, .unregister 6 8, .register 2 5 9]).is_done = true ∧
    loconet_rx_notify_after_ops
      [.register 1 5 7, .register 2 6 8, .unregister 6 8, .register 2 5 9] 10 5 [0x01, 0x02] 2
      = .done [⟨7, [0x01, 0x02], 2⟩] ∧
    loconet_rx_notify_after_ops
      [.register 1 5 7, .register 2 6 8, .register 3 5 9] 10 5 [0x01, 0x02] 2
      = .done [⟨7, [0x01, 0x02], 2⟩, ⟨9, [0x01, 0x02], 2⟩] := by
  decide
/-! ### C36 -/

theorem xor_all_cons (x : Nat) (l : List Nat) : xor_all (x :: l) = x ^^^ xor_all l := by
  have := foldl_xor_seed l (0 ^^^ x)
  simpa [xor_all] using this

theorem xor_all_lt_128 (l : List Nat) (hb : ∀ b ∈ l, b < 256)
    (hclear : ∀ b ∈ l, ¬ has_opcode_flag b) : xor_all l < 128 := by
  induction l with
  | nil => decide
  | cons a rest ih =>
    rw [xor_all_cons]
    have ha : a < 128 := by
      have h1 := hb a (List.mem_cons_self _ _)
      have h2 := hclear a (List.mem_cons_self _ _)
      rw [has_opcode_flag_iff a h1] at h2
      omega
    have hrest := ih (fun b hm => hb b (List.mem_cons_of_mem _ hm))
      (fun b hm => hclear b (List.mem_cons_of_mem _ hm))
    exact Nat.xor_lt_two_pow (show a < 2 ^ 7 from ha) (show xor_all rest < 2 ^ 7 from hrest)

theorem xor_ff_opcode_lt_128 (a : Nat) (h1 : 128 ≤ a) (h2 : a < 256) : 0xFF ^^^ a < 128 := by
  interval_cases a <;> decide

theorem checksum_of_frame_body_lt_128 (op : Nat) (rest : List Nat)
    (hlen : (op :: rest).length < 256) (hop256 : op < 256) (hop : has_opcode_flag op)
    (hb : ∀ b ∈ rest, b < 256) (hrest : ∀ b ∈ rest, ¬ has_opcode_flag b) :
    loconet_calc_checksum (op :: rest) (op :: rest).length < 128 := by
  rw [checksum_eq_xor_all _ hlen, xor_all_cons, ← Nat.xor_assoc]
  have h1 := xor_ff_opcode_lt_128 op ((has_opcode_flag_iff op hop256).mp hop) hop256
  have h2 := xor_all_lt_128 rest hb hrest
  exact Nat.xor_lt_two_pow (show 0xFF ^^^ op < 2 ^ 7 from h1) (show xor_all rest < 2 ^ 7 from h2)

/-- C36: for every non-empty byte sequence (at most 255 bytes) whose first
byte, the opcode, has its top bit set and whose remaining bytes all have their
top bit clear, `loconet_calc_checksum` returns a byte with its top bit clear.
Hence, when such a sequence has the length its opcode asks for less one and is
followed by its checksum byte, the framer's scan for interior bytes with the
top bit set finds none: `loconet_rx_process` returns `1`, calls
`loconet_rx_notify` for the frame and moves the reader behind it. -/
theorem checksum_byte_top_bit_clear (op : Nat) (rest : List Nat)
    (hlen : (op :: rest).length < 256) (hop256 : op < 256) (hop : has_opcode_flag op)
    (hb : ∀ b ∈ rest, b < 256) (hrest : ∀ b ∈ rest, ¬ has_opcode_flag b) :
    loconet_calc_checksum (op :: rest) (op :: rest).length < 128 ∧
    ¬ has_opcode_flag (loconet_calc_checksum (op :: rest) (op :: rest).length) ∧
    ∀ rb, ringbuffer_wf rb →
      ((op :: rest) ++ [loconet_calc_checksum (op :: rest) (op :: rest).length]).length
        = loconet_rx_message_size op
            (((op :: rest) ++ [loconet_calc_checksum (op :: rest) (op :: rest).length]).getD 1 0) →
      ringbuffer_holds rb
        ((op :: rest) ++ [loconet_calc_checksum (op :: rest) (op :: rest).length]) →
      loconet_rx_process rb = ⟨1, ringbuffer_advance rb ((op :: rest).length + 1),
        some (loconet_rx_notify_call op
          ((op :: rest) ++ [loconet_calc_checksum (op :: rest) (op :: rest).length])
          ((op :: rest).length + 1))⟩ := by
  have hc := checksum_of_frame_body_lt_128 op rest hlen hop256 hop hb hrest
  have hcflag : ¬ has_opcode_flag (loconet_calc_checksum (op :: rest) (op :: rest).length) := by
    rw [has_opcode_flag_iff _ (by omega)]
    omega
  refine ⟨hc, hcflag, fun rb hwf hsize hh => ?_⟩
  generalize hcdef : loconet_calc_checksum (op :: rest) (op :: rest).length = c at *
  have havail := available_le rb
  have hflen : ((op :: rest) ++ [c]).length = (op :: rest).length + 1 := by simp
  have hshort : (op :: rest).length + 1 ≤ 63 := by
    have := hh.1
    omega
  have hvalid : valid_frame ((op :: rest) ++ [c]) := by
    refine ⟨?_, ?_, ?_, ?_, ?_⟩
    · intro b hmem
      rcases List.mem_append.mp hmem with hm | hm
      · rcases List.mem_cons.mp hm with rfl | hm
        · exact hop256
        · exact hb b hm
      · rw [List.mem_singleton.mp hm]
        omega
    · simpa using hop
    · simpa using hsize
    · intro i hi h1
      obtain ⟨j, rfl⟩ : ∃ j, i = j + 1 := ⟨i - 1, by omega⟩
      simp only [List.cons_append, List.getD_cons_succ]
      have hj : j < (rest ++ [c]).length := by
        simp only [List.cons_append, List.length_cons] at hi
        omega
      rw [List.getD_eq_getElem _ _ hj]
      have hmem : (rest ++ [c])[j] ∈ rest ++ [c] := List.getElem_mem _
      rcases List.mem_append.mp hmem with hm | hm
      · exact hrest _ hm
      · rw [List.mem_singleton.mp hm]
        exact hcflag
    · rw [hflen]
      have h := checksum_eq_xor_all ((op :: rest) ++ [c]) (by omega)
      rw [hflen] at h
      rw [h, xor_all_append_singleton, ← hcdef, checksum_eq_xor_all (op :: rest) hlen,
        Nat.xor_comm 255 (xor_all (op :: rest)), Nat.xor_cancel_left, Nat.xor_self]
  have hacc := rx_process_valid_frame rb hwf _ hvalid hh
  rw [hflen] at hacc
  simpa using hacc

/-- C36, witness: the bytes `A0 03 10`, whose checksum is `4C`, and the ring
buffer that holds the frame `A0 03 10 4C`. -/
theorem checksum_byte_top_bit_clear_witness :
    loconet_calc_checksum [0xA0, 0x03, 0x10] 3 < 128 ∧
    (loconet_rx_process (ringbuffer_of [0xA0, 0x03, 0x10, 0x4C] 4 0)).ret = 1 :=
  have h := checksum_byte_top_bit_clear 0xA0 [0x03, 0x10] (by decide) (by decide) (by decide)
    (by decide) (by decide)
  ⟨h.1, congrArg LOCONET_RX_PROCESS_Result.ret
    (h.2.2 (ringbuffer_of [0xA0, 0x03, 0x10, 0x4C] 4 0) (by decide) (by decide) (by decide))⟩
/-! ### C37 -/

/-- The pages of the store after `loconet_cv_set(n, v)`: either they are
unchanged, or slot `n` of page 0 holds `v` (and slot 1 the device-class marker
when `n = 0`) and everything else is unchanged. -/
theorem cv_set_pages (write_allowed : Nat → Nat → Nat) (st : LOCONET_CV_State) (n v : Nat) :
    (loconet_cv_set write_allowed st n v).state = st ∨
    (n ≠ 1 ∧ n < 30 ∧
      (loconet_cv_set write_allowed st n v).state.eeprom.pages
        = Function.update st.eeprom.pages 0
          (if n = 0 then
            Function.update (Function.update (st.eeprom.pages 0) 0 v) 1 LOCONET_CV_DEVICE_CLASS
          else Function.update (st.eeprom.pages 0) n v)) := by
  by_cases h1 : n = 1
  · exact Or.inl (by simp [loconet_cv_set, h1])
  by_cases hge : n ≥ LOCONET_CV_NUMBERS
  · exact Or.inl (by simp [loconet_cv_set, h1, hge])
  have hn : n < 30 := by unfold LOCONET_CV_NUMBERS at hge; omega
  have hpage : n / LOCONET_CV_PER_PAGE = 0 := by unfold LOCONET_CV_PER_PAGE; omega
  have hidx : n % LOCONET_CV_PER_PAGE = n := by unfold LOCONET_CV_PER_PAGE; omega
  have hn256 : n % 256 = n := by omega
  simp only [loconet_cv_set, if_neg h1, if_neg hge, hpage, hidx, Nat.zero_mod, hn256]
  by_cases hw : loconet_cv_write_allowed_core write_allowed n v = LOCONET_CV_ACK_OK ∧
      v ≠ eeprom_emulator_read_page st.eeprom 0 n
  · rw [if_pos hw]
    refine Or.inr ⟨h1, hn, ?_⟩
    by_cases h0 : n = 0
    · simp [eeprom_emulator_read_page, eeprom_emulator_write_page,
        eeprom_emulator_commit_page_buffer, h0]
    · simp [eeprom_emulator_read_page, eeprom_emulator_write_page,
        eeprom_emulator_commit_page_buffer, h0]
  · rw [if_neg hw]
    exact Or.inl rfl

/-- Frame property of `loconet_cv_set(n, v)` for the slots it holds for: the
value `loconet_cv_get(m)` is unchanged for every slot `m` other than `n`,
other than the marker slot 1 when `n = 0`, and other than slot 2 when `n = 0`
and the marker was not in slot 1 before. -/
theorem cv_set_frame_other_slots (write_allowed : Nat → Nat → Nat) (st : LOCONET_CV_State)
    (n m v : Nat) (hmn : m ≠ n) (h01 : ¬ (n = 0 ∧ m = 1))
    (h02 : n = 0 → m = 2 → st.eeprom.pages 0 1 = LOCONET_CV_DEVICE_CLASS) :
    loconet_cv_get (loconet_cv_set write_allowed st n v).state.eeprom m
      = loconet_cv_get st.eeprom m := by
  rcases cv_set_pages write_allowed st n v with h | ⟨h1, hn, h⟩
  · rw [h]
  · by_cases hm : m ≥ LOCONET_CV_NUMBERS
    · simp [loconet_cv_get, hm]
    · have hm30 : m < 30 := by unfold LOCONET_CV_NUMBERS at hm; omega
      have hpage : m / LOCONET_CV_PER_PAGE = 0 := by unfold LOCONET_CV_PER_PAGE; omega
      have hidx : m % LOCONET_CV_PER_PAGE = m := by unfold LOCONET_CV_PER_PAGE; omega
      simp only [loconet_cv_get, if_neg hm, hpage, hidx, eeprom_emulator_read_page, h,
        Function.update_same]
      by_cases h0 : n = 0
      · subst h0
        have hm1 : m ≠ 1 := fun e => h01 ⟨rfl, e⟩
        by_cases hm2 : m = 2
        · subst hm2
          have hmark := h02 rfl rfl
          simp [Function.update, hmark]
        · simp [Function.update, hmn, hm1, hm2]
      · simp only [if_neg h0]
        have h1n : (1 : Nat) ≠ n := fun e => h1 e.symm
        simp [Function.update, hmn, h1n]

/-- C37, failing input: on a factory-fresh store (every slot `0xFFFF`)
`loconet_cv_get(2)` returns the initial priority `5`. `loconet_cv_set(0, 10)`
returns OK and, besides slot 0, stamps the marker into slot 1; from then on
`loconet_cv_get(2)` returns the raw content `0xFFFF` of slot 2, which was
never written: the write to slot 0 changed the value read from slot 2. (The
next `loconet_cv_init` then loads `Config.priority` with `0xFFFF` cut to 4
bits, `15`.) -/
theorem address_write_changes_priority_read :
    loconet_cv_get (eeprom_filled 0xFFFF) 2 = 5 ∧
    (loconet_cv_set loconet_cv_write_allowed_dummy
      ⟨eeprom_filled 0xFFFF, ⟨3, 0, 5⟩, true⟩ 0 10).ack = LOCONET_CV_ACK_OK ∧
    loconet_cv_get (loconet_cv_set loconet_cv_write_allowed_dummy
      ⟨eeprom_filled 0xFFFF, ⟨3, 0, 5⟩, true⟩ 0 10).state.eeprom 0 = 10 ∧
    loconet_cv_get (loconet_cv_set loconet_cv_write_allowed_dummy
      ⟨eeprom_filled 0xFFFF, ⟨3, 0, 5⟩, true⟩ 0 10).state.eeprom 2 = 0xFFFF ∧
    (loconet_cv_set loconet_cv_write_allowed_dummy
      ⟨eeprom_filled 0xFFFF, ⟨3, 0, 5⟩, true⟩ 0 10).state.eeprom.pages 0 2 = 0xFFFF ∧
    (loconet_cv_init (loconet_cv_set loconet_cv_write_allowed_dummy
      ⟨eeprom_filled 0xFFFF, ⟨3, 0, 5⟩, true⟩ 0 10).state).config = ⟨10, 0, 15⟩ := by
  decide

/-! ### C38 -/

/-- When `loconet_cv_set(0, v)` or `loconet_cv_set(2, v)` returns OK, the
Config field equals `v` afterwards provided `v` differs from the raw stored
value of the slot or the field held `v` already. -/
theorem cv_set_ok_config_in_sync (write_allowed : Nat → Nat → Nat) (st : LOCONET_CV_State)
    (v : Nat) :
    ((loconet_cv_set write_allowed st 0 v).ack = LOCONET_CV_ACK_OK →
      v ≠ st.eeprom.pages 0 0 ∨ st.config.ADDRESS = v →
      v < 0x3FF ∧ (loconet_cv_set write_allowed st 0 v).state.config.ADDRESS = v) ∧
    ((loconet_cv_set write_allowed st 2 v).ack = LOCONET_CV_ACK_OK →
      v ≠ st.eeprom.pages 0 2 ∨ st.config.PRIORITY = v →
      (0 < v ∧ v < 16) ∧ (loconet_cv_set write_allowed st 2 v).state.config.PRIORITY = v) := by
  constructor
  · intro hok hcond
    simp only [loconet_cv_set, LOCONET_CV_NUMBERS, LOCONET_CV_PER_PAGE] at hok ⊢
    norm_num at hok ⊢
    have hv : v < 0x3FF := by
      by_contra hv
      split_ifs at hok <;>
        simp_all [loconet_cv_write_allowed_core, LOCONET_CV_ACK_OK,
          LOCONET_CV_ACK_ERROR_OUTOFRANGE]
    refine ⟨hv, ?_⟩
    split_ifs with hw
    · simp only
      omega
    · rcases hcond with hne | heq
      · rw [if_neg hw] at hok
        exact absurd ⟨hok, by simpa [eeprom_emulator_read_page] using hne⟩ hw
      · exact heq
  · intro hok hcond
    simp only [loconet_cv_set, LOCONET_CV_NUMBERS, LOCONET_CV_PER_PAGE] at hok ⊢
    norm_num at hok ⊢
    have hv : 0 < v ∧ v < 16 := by
      by_contra hv
      split_ifs at hok <;>
        simp_all [loconet_cv_write_allowed_core, LOCONET_CV_ACK_OK,
          LOCONET_CV_ACK_ERROR_OUTOFRANGE]
    refine ⟨hv, ?_⟩
    split_ifs with hw
    · simp only
      omega
    · rcases hcond with hne | heq
      · rw [if_neg hw] at hok
        exact absurd ⟨hok, by simpa [eeprom_emulator_read_page] using hne⟩ hw
      · exact heq

/-- C38, failing input: a factory-fresh store (every slot `0xFFFF`).
`loconet_cv_init` loads Config with address 3 and priority 5;
`loconet_cv_set(2, 7)` returns OK, stores `7` in slot 2 and sets
`Config.priority` to `7`. After a restart `loconet_cv_init` loads
`Config.priority` with `loconet_cv_get(2)`, which is the initial priority `5`
because slot 1 holds no marker. Now `loconet_cv_set(2, 7)` returns OK again,
but since `7` equals the raw stored value of slot 2 nothing is written and
`Config.priority` stays `5`, not `7`. In the same way, on a store whose slots
all hold `0`, `loconet_cv_set(0, 0)` returns OK and `Config.address` stays
`3`. -/
theorem acknowledged_write_leaves_config_out_of_sync :
    (loconet_cv_init ⟨eeprom_filled 0xFFFF, ⟨0, 0, 0⟩, false⟩).config = ⟨3, 0, 5⟩ ∧
    (loconet_cv_set loconet_cv_write_allowed_dummy
      (loconet_cv_init ⟨eeprom_filled 0xFFFF, ⟨0, 0, 0⟩, false⟩) 2 7).ack = LOCONET_CV_ACK_OK ∧
    (loconet_cv_set loconet_cv_write_allowed_dummy
      (loconet_cv_init ⟨eeprom_filled 0xFFFF, ⟨0, 0, 0⟩, false⟩) 2 7).state.config.PRIORITY = 7 ∧
    (loconet_cv_init (loconet_cv_set loconet_cv_write_allowed_dummy
      (loconet_cv_init ⟨eeprom_filled 0xFFFF, ⟨0, 0, 0⟩, false⟩) 2 7).state).config.PRIORITY
      = 5 ∧
    (loconet_cv_set loconet_cv_write_allowed_dummy
      (loconet_cv_init (loconet_cv_set loconet_cv_write_allowed_dummy
        (loconet_cv_init ⟨eeprom_filled 0xFFFF, ⟨0, 0, 0⟩, false⟩) 2 7).state) 2 7).ack
      = LOCONET_CV_ACK_OK ∧
    (loconet_cv_set loconet_cv_write_allowed_dummy
      (loconet_cv_init (loconet_cv_set loconet_cv_write_allowed_dummy
        (loconet_cv_init ⟨eeprom_filled 0xFFFF, ⟨0, 0, 0⟩, false⟩) 2 7).state) 2 7).written_event
      = none ∧
    (loconet_cv_set loconet_cv_write_allowed_dummy
      (loconet_cv_init (loconet_cv_set loconet_cv_write_allowed_dummy
        (loconet_cv_init ⟨eeprom_filled 0xFFFF, ⟨0, 0, 0⟩, false⟩) 2 7).state) 2 7
      ).state.config.PRIORITY = 5 ∧
    (loconet_cv_init ⟨eeprom_filled 0, ⟨0, 0, 0⟩, false⟩).config.ADDRESS = 3 ∧
    (loconet_cv_set loconet_cv_write_allowed_dummy
      (loconet_cv_init ⟨eeprom_filled 0, ⟨0, 0, 0⟩, false⟩) 0 0).ack = LOCONET_CV_ACK_OK ∧
    (loconet_cv_set loconet_cv_write_allowed_dummy
      (loconet_cv_init ⟨eeprom_filled 0, ⟨0, 0, 0⟩, false⟩) 0 0).state.config.ADDRESS = 3 := by
  decide

/-! ### C39 -/

/-- C39: `loconet_cv_process` on a message whose `device_class` differs from
`0x4BA` returns at once: the programming-mode flag, the persistent store and
Config are unchanged and no call is made (no hook, no frame handed to the
transmit queue), whatever the flags, request_id, slot number, value and opcode
are; the same holds for `loconet_cv_peer_xfer` on a payload that carries such
a message. -/
theorem device_class_filter (write_allowed : Nat → Nat → Nat) (st : LOCONET_CV_State)
    (msg : LOCONET_CV_MSG_Type) (opcode : Nat)
    (hclass : msg.device_class ≠ LOCONET_CV_DEVICE_CLASS) :
    loconet_cv_process write_allowed st msg opcode = ⟨st, []⟩ ∧
    (loconet_cv_process write_allowed st msg opcode).state.programming = st.programming ∧
    (loconet_cv_process write_allowed st msg opcode).state.eeprom = st.eeprom ∧
    (loconet_cv_process write_allowed st msg opcode).state.config = st.config ∧
    (∀ c ∈ (loconet_cv_process write_allowed st msg opcode).calls, c.is_tx = false) ∧
    ∀ data length, loconet_cv_unpack data = msg →
      loconet_cv_peer_xfer write_allowed st data length = ⟨st, []⟩ := by
  have h : loconet_cv_process write_allowed st msg opcode = ⟨st, []⟩ := by
    simp [loconet_cv_process, hclass]
  refine ⟨h, by rw [h], by rw [h], by rw [h], by rw [h]; simp, fun data length hd => ?_⟩
  unfold loconet_cv_peer_xfer
  split_ifs
  · rw [hd]
    simp [loconet_cv_process, hclass]
  · rfl

/-- C39, witness: a programming-on message and a programming-off message for
the device class `0x4BB`, in programming mode. -/
theorem device_class_filter_witness :
    loconet_cv_process loconet_cv_write_allowed_dummy
      ⟨eeprom_filled 0xFFFF, ⟨3, 0, 5⟩, false⟩ ⟨1, 5, 0x21, 0, 0x4BB, 0, 0xFFFF, 0x80⟩ 0xE5
      = ⟨⟨eeprom_filled 0xFFFF, ⟨3, 0, 5⟩, false⟩, []⟩ ∧
    loconet_cv_process loconet_cv_write_allowed_dummy
      ⟨eeprom_filled 0xFFFF, ⟨3, 0, 5⟩, true⟩ ⟨1, 5, 0x21, 0, 0x4BB, 0, 3, 0x40⟩ 0xE5
      = ⟨⟨eeprom_filled 0xFFFF, ⟨3, 0, 5⟩, true⟩, []⟩ :=
  ⟨(device_class_filter loconet_cv_write_allowed_dummy
      ⟨eeprom_filled 0xFFFF, ⟨3, 0, 5⟩, false⟩ ⟨1, 5, 0x21, 0, 0x4BB, 0, 0xFFFF, 0x80⟩ 0xE5
      (by decide)).1,
   (device_class_filter loconet_cv_write_allowed_dummy
      ⟨eeprom_filled 0xFFFF, ⟨3, 0, 5⟩, true⟩ ⟨1, 5, 0x21, 0, 0x4BB, 0, 3, 0x40⟩ 0xE5
      (by decide)).1⟩

end Loconet
